import Mathlib

/-!
TimeAlgebra: timestamped scalars and the fixed-step simulation loop.

Shallow embedding of `FloatTime.h` and `GameSimulation.h`.

Conventions of the embedding.

* The C++ `float` is read in two ways.
  In the exact reading a `float` is a rational number (`ℚ`) and `+ - * /` are the operations of
  `ℚ`.  It carries the statements on the checked operators, `Integrate`, `Vel`, `Lerp`, the end
  points of `LerpToTime`, the camera and the sessions with a frame delta of `1/60`: which checks
  are made, when they trap and which value and stamp a result carries.  A float division by
  zero produces an infinity or a NaN in the source; `ℚ` returns `0` there.  Where a statement of
  this reading mentions a quotient it is the quotient of `ℚ`; the statements about `Vel` at equal
  timestamps speak of the presence of a result only, not of its value.
  In the binary32 reading (the definitions with the suffix `32`) every `float` operation is the
  exact operation followed by rounding to IEEE 754 single precision (`fl`: round to nearest,
  ties to even, subnormal numbers included), each operation rounded on its own.  It carries the
  statements that rounding decides: the number of passes of the drain loop and its termination,
  the interval of the residual balance, the interpolation fraction, the physics timeline, the
  clock of a delta-time chain and the timestamp returned by `LerpToTime`.  Infinities, NaN and
  the sign of zero are outside both readings.
* `int stepCount` is a natural number: the count is never near the `int` range.
* `__debugbreak()` is read as abnormal termination: the operation produces no result.  The two
  places that trap are told apart by `Fault.consistency` (`CheckConsistency`) and
  `Fault.ordering` (`Vel`).
* Mutating members (`operator+=`, `Integrate`, ...) return the new value of `*this`.
-/

namespace TimeAlgebra

/-- The two ways an operation can trap. -/
inductive Fault where
  | consistency
  | ordering
  deriving DecidableEq

/-- A float value with a timestamp attached (`class FloatTime`, fields `_value`, `_time`). -/
structure FloatTime where
  _value : ℚ
  _time : ℚ
  deriving DecidableEq

/-- Model of `bool ApproxEqual( float a, float b, float eps = 0.0001f )`. -/
def ApproxEqualEps (a b eps : ℚ) : Bool := decide (|a - b| < eps)

/-- The default tolerance `0.0001f`. -/
def defaultEps : ℚ := 1 / 10000

/-- The two-argument call `ApproxEqual( a, b )`, with `eps` at its default. -/
def ApproxEqual (a b : ℚ) : Bool := ApproxEqualEps a b defaultEps

namespace FloatTime

/-- Accessor `float Value() const`. -/
@[reducible] def Value (a : FloatTime) : ℚ := a._value

/-- Accessor `float Time() const`. -/
@[reducible] def Time (a : FloatTime) : ℚ := a._time

/-- Constructor `FloatTime( float value, const FloatTime& timeGiver )`. -/
def mkFrom (value : ℚ) (timeGiver : FloatTime) : FloatTime := ⟨value, timeGiver.Time⟩

end FloatTime

/-- Model of `void CheckConsistency( const FloatTime& a, const FloatTime& b )`. -/
def CheckConsistency (a b : FloatTime) : Except Fault Unit :=
  if ApproxEqual a.Time b.Time then .ok () else .error Fault.consistency

namespace FloatTime

/-- Model of `operator+`. -/
def add (a other : FloatTime) : Except Fault FloatTime := do
  CheckConsistency a other
  pure ⟨a._value + other._value, a._time⟩

/-- Model of `operator-`. -/
def sub (a other : FloatTime) : Except Fault FloatTime := do
  CheckConsistency a other
  pure ⟨a._value - other._value, a._time⟩

/-- Model of `operator*`. -/
def mul (a other : FloatTime) : Except Fault FloatTime := do
  CheckConsistency a other
  pure ⟨a._value * other._value, a._time⟩

/-- Model of `operator/`. -/
def div (a other : FloatTime) : Except Fault FloatTime := do
  CheckConsistency a other
  pure ⟨a._value / other._value, a._time⟩

/-- Model of `operator+=`: the result is the new `*this`. -/
def addAssign (a other : FloatTime) : Except Fault FloatTime := do
  CheckConsistency a other
  pure ⟨a._value + other.Value, a._time⟩

/-- Model of `operator-=`: the result is the new `*this`. -/
def subAssign (a other : FloatTime) : Except Fault FloatTime := do
  CheckConsistency a other
  pure ⟨a._value - other.Value, a._time⟩

/-- Model of `operator*=`: the result is the new `*this`. -/
def mulAssign (a other : FloatTime) : Except Fault FloatTime := do
  CheckConsistency a other
  pure ⟨a._value * other._value, a._time⟩

end FloatTime

namespace FloatTime

/-- Model of `void Integrate( const FloatTime& rateOfChange, const FloatTime& dt )`: the result
is the new `*this`. -/
def Integrate (self rateOfChange dt : FloatTime) : Except Fault FloatTime := do
  CheckConsistency self rateOfChange
  CheckConsistency self dt
  let prod ← rateOfChange.mul dt
  let self1 ← self.addAssign prod
  pure ⟨self1._value, self1.Time + dt.Value⟩

/-- Model of `void FinishedUpdate( const FloatTime& dt )`: the result is the new `*this`. -/
def FinishedUpdate (self dt : FloatTime) : Except Fault FloatTime := do
  CheckConsistency self dt
  pure ⟨self._value, self.Time + dt.Value⟩

/-- Model of `static FloatTime Lerp( a, b, lerpParam )`, i.e.
`(FloatTime( 1.0f, lerpParam ) - lerpParam) * a + lerpParam * b`.  The two summands may be
evaluated in either order in C++; both orders trap in exactly the same cases. -/
def Lerp (a b lerpParam : FloatTime) : Except Fault FloatTime := do
  let oneMinus ← (mkFrom 1 lerpParam).sub lerpParam
  let lhs ← oneMinus.mul a
  let rhs ← lerpParam.mul b
  lhs.add rhs

/-- Model of `static FloatTime SimStartValue( float value )`. -/
def SimStartValue (value : ℚ) : FloatTime := ⟨value, 0⟩

/-- Modelled from the spec: `FloatTime::LerpInTime( a, b, alpha )`, which `PhysicsUpdate` calls
with a plain `float` fraction, is not declared in `FloatTime.h`.  The spec lets the integrator
produce the "current" state by interpolating between "previous" and "latest" with the fraction
`alpha`; the two carry different timestamps, so, like the spec's cross-time interpolation, this
makes no consistency check and blends both value and time linearly with the fraction. -/
def LerpInTime (a b : FloatTime) (alpha : ℚ) : Except Fault FloatTime :=
  .ok ⟨(1 - alpha) * a.Value + alpha * b.Value, (1 - alpha) * a.Time + alpha * b.Time⟩

end FloatTime

/-- Model of `void AdvanceDt( FloatTime& io_dt, const FloatTime& newDt )`: the result is the new
`io_dt`. -/
def AdvanceDt (io_dt newDt : FloatTime) : Except Fault FloatTime := do
  CheckConsistency io_dt newDt
  let curDt := io_dt
  let io_dt := newDt
  io_dt.FinishedUpdate curDt

/-- Model of the one-argument `void AdvanceDt( FloatTime& io_dt )`. -/
def AdvanceDtSelf (io_dt : FloatTime) : Except Fault FloatTime := AdvanceDt io_dt io_dt

/-- Model of `FloatTime Vel( const FloatTime& val_t0, const FloatTime& val_t1 )`. -/
def Vel (val_t0 val_t1 : FloatTime) : Except Fault FloatTime :=
  if val_t1.Time < val_t0.Time then .error Fault.ordering
  else
    let vel := (val_t1.Value - val_t0.Value) / (val_t1.Time - val_t0.Time)
    .ok (FloatTime.mkFrom vel val_t1)

/-! ## `GameSimulation` -/

/-- Model of `struct CarState`. -/
structure CarState where
  pos : FloatTime
  vel : FloatTime
  deriving DecidableEq

/-- The data members of `class GameSimulation`. -/
structure GameSimulation where
  _carStateLatest : CarState
  _carStateCurrent : CarState
  _inputVal : FloatTime
  _inputValLast : FloatTime
  _carAnimTargetPos : FloatTime
  _physTimeBalance : FloatTime
  _physicsDt : FloatTime
  _cameraDt : FloatTime
  _cameraPos : FloatTime
  deriving DecidableEq

namespace GameSimulation

/-- Model of `void InputsUpdate( const FloatTime& frameDt )`. -/
def InputsUpdate (frameDt : FloatTime) (sim : GameSimulation) : GameSimulation :=
  { sim with _inputValLast := sim._inputVal, _inputVal := FloatTime.mkFrom 30 frameDt }

/-- Model of `void AnimationUpdate( const FloatTime& frameDt )`. -/
def AnimationUpdate (frameDt : FloatTime) (sim : GameSimulation) : GameSimulation :=
  { sim with _carAnimTargetPos := FloatTime.mkFrom (5 * frameDt.Time) frameDt }

/-- Model of `void PhysicsUpdateStep( const FloatTime& frameDt, const FloatTime& physicsDt )`. -/
def PhysicsUpdateStep (frameDt physicsDt : FloatTime) (sim : GameSimulation) :
    Except Fault GameSimulation := do
  CheckConsistency sim._carAnimTargetPos frameDt
  CheckConsistency sim._inputVal frameDt
  let carAnimTargetPos_const := FloatTime.mkFrom sim._carAnimTargetPos.Value physicsDt
  let inputVal_const := FloatTime.mkFrom sim._inputVal.Value physicsDt
  let diff ← carAnimTargetPos_const.sub sim._carStateLatest.pos
  let accel ← inputVal_const.add diff
  let pos ← sim._carStateLatest.pos.Integrate sim._carStateLatest.vel physicsDt
  let vel ← sim._carStateLatest.vel.Integrate accel physicsDt
  pure { sim with _carStateLatest := ⟨pos, vel⟩ }

/-- First statement of `PhysicsUpdate`:
`_physTimeBalance += FloatTime( frameDt.Value(), _physicsDt )`. -/
def PhysicsUpdate_accumulate (frameDt : FloatTime) (sim : GameSimulation) :
    Except Fault GameSimulation := do
  let bal ← sim._physTimeBalance.addAssign (FloatTime.mkFrom frameDt.Value sim._physicsDt)
  pure { sim with _physTimeBalance := bal }

/-- One pass through the body of the `while` loop of `PhysicsUpdate`, as far as the members are
concerned: the physics step, the balance update and the advance of `_physicsDt`.  (The locals
`lastState` and `stepCount` are threaded by `PhysicsUpdate_while`.) -/
def PhysicsUpdate_body (frameDt : FloatTime) (sim : GameSimulation) :
    Except Fault GameSimulation := do
  let sim1 ← PhysicsUpdateStep frameDt sim._physicsDt sim
  let bal1 ← sim1._physTimeBalance.subAssign sim1._physicsDt
  let bal2 ← bal1.FinishedUpdate sim1._physicsDt
  let dt ← AdvanceDt sim1._physicsDt sim1._physicsDt
  pure { sim1 with _physTimeBalance := bal2, _physicsDt := dt }

/-- The loop `while( _physTimeBalance.Value() > 0.0f ) { ... }` of `PhysicsUpdate`, with the
locals `lastState` and `stepCount` as explicit arguments and results.  The first argument bounds
the number of passes; `none` means the bound was reached with the loop condition still true. -/
def PhysicsUpdate_while : Nat → FloatTime → GameSimulation → CarState → Nat →
    Option (Except Fault (GameSimulation × CarState × Nat))
  | 0, _, sim, lastState, stepCount =>
    if sim._physTimeBalance.Value > 0 then none
    else some (.ok (sim, lastState, stepCount))
  | fuel + 1, frameDt, sim, lastState, stepCount =>
    if sim._physTimeBalance.Value > 0 then
      match PhysicsUpdate_body frameDt sim with
      | .error f => some (.error f)
      | .ok sim1 => PhysicsUpdate_while fuel frameDt sim1 sim._carStateLatest (stepCount + 1)
    else some (.ok (sim, lastState, stepCount))

/-- Lines 54-72 of `PhysicsUpdate`: accumulate the frame delta, then drain.  The result is the
simulation after the loop together with the final `lastState` and `stepCount`. -/
def PhysicsUpdate_drain (fuel : Nat) (frameDt : FloatTime) (sim : GameSimulation) :
    Option (Except Fault (GameSimulation × CarState × Nat)) :=
  match PhysicsUpdate_accumulate frameDt sim with
  | .error f => some (.error f)
  | .ok sim1 => PhysicsUpdate_while fuel frameDt sim1 sim1._carStateLatest 0

/-- Model of `void PhysicsUpdate( const FloatTime& frameDt )`.  `FloatTime::LerpInTime`, called
in lines 77-78 with a plain `float` as third argument, is not declared in `FloatTime.h`; it is a
parameter here. -/
def PhysicsUpdate (LerpInTime : FloatTime → FloatTime → ℚ → Except Fault FloatTime)
    (fuel : Nat) (frameDt : FloatTime) (sim : GameSimulation) :
    Option (Except Fault GameSimulation) :=
  match PhysicsUpdate_drain fuel frameDt sim with
  | none => none
  | some (.error f) => some (.error f)
  | some (.ok (sim1, lastState, stepCount)) =>
    if stepCount > 0 then
      some (do
        let q ← sim1._physTimeBalance.div sim1._physicsDt
        let lerpAlpha := 1 + q.Value
        let pos ← LerpInTime lastState.pos sim1._carStateLatest.pos lerpAlpha
        let vel ← LerpInTime lastState.vel sim1._carStateLatest.vel lerpAlpha
        pure { sim1 with _carStateCurrent := ⟨pos, vel⟩ })
    else some (.ok sim1)

/-- Line 76 of `PhysicsUpdate`: `1.0f + (_physTimeBalance / _physicsDt).Value()`, the local
`lerpAlpha`, computed on the members as the loop left them. -/
def PhysicsUpdate_lerpAlpha (sim : GameSimulation) : Except Fault ℚ := do
  let q ← sim._physTimeBalance.div sim._physicsDt
  pure (1 + q.Value)

/-- Lines 74-79 of `PhysicsUpdate`: what follows the loop, given the members and the locals
`lastState` and `stepCount` as the loop left them. -/
def PhysicsUpdate_finish (LerpInTime : FloatTime → FloatTime → ℚ → Except Fault FloatTime)
    (sim : GameSimulation) (lastState : CarState) (stepCount : Nat) :
    Except Fault GameSimulation :=
  if stepCount > 0 then do
    let lerpAlpha ← PhysicsUpdate_lerpAlpha sim
    let pos ← LerpInTime lastState.pos sim._carStateLatest.pos lerpAlpha
    let vel ← LerpInTime lastState.vel sim._carStateLatest.vel lerpAlpha
    pure { sim with _carStateCurrent := ⟨pos, vel⟩ }
  else .ok sim

/-- The timestamp relations that the checks inside one loop pass of `PhysicsUpdate` test: the
frame-start samples against the frame delta, and the physics-owned values against the physics
step.  Each line is one `ApproxEqual` with the arguments in the order the code passes them. -/
def LoopConsistent (frameDt : FloatTime) (sim : GameSimulation) : Prop :=
  |sim._carAnimTargetPos.Time - frameDt.Time| < 1 / 10000 ∧
  |sim._inputVal.Time - frameDt.Time| < 1 / 10000 ∧
  |sim._physicsDt.Time - sim._carStateLatest.pos.Time| < 1 / 10000 ∧
  |sim._carStateLatest.pos.Time - sim._carStateLatest.vel.Time| < 1 / 10000 ∧
  |sim._carStateLatest.pos.Time - sim._physicsDt.Time| < 1 / 10000 ∧
  |sim._carStateLatest.vel.Time - sim._physicsDt.Time| < 1 / 10000 ∧
  |sim._physTimeBalance.Time - sim._physicsDt.Time| < 1 / 10000

instance (frameDt : FloatTime) (sim : GameSimulation) : Decidable (LoopConsistent frameDt sim) := by
  unfold LoopConsistent; infer_instance

/-- The part of `LoopConsistent` that concerns the physics-owned members only. -/
def PhysicsConsistent (sim : GameSimulation) : Prop :=
  |sim._physicsDt.Time - sim._carStateLatest.pos.Time| < 1 / 10000 ∧
  |sim._carStateLatest.pos.Time - sim._carStateLatest.vel.Time| < 1 / 10000 ∧
  |sim._carStateLatest.pos.Time - sim._physicsDt.Time| < 1 / 10000 ∧
  |sim._carStateLatest.vel.Time - sim._physicsDt.Time| < 1 / 10000 ∧
  |sim._physTimeBalance.Time - sim._physicsDt.Time| < 1 / 10000

/-- Modelled from the spec: the one-argument constructor `FloatTime( float )` used by the member
initialisers of `GameSimulation` (lines 140-156) is not declared in `FloatTime.h`; following the
spec (entities are created at simulation start with `SimStartValue`, giving time = 0) each
member starts at time `0`, with `_physicsDt` holding `1/64` and every other member `0`. -/
def startState : GameSimulation :=
  { _carStateLatest := ⟨FloatTime.SimStartValue 0, FloatTime.SimStartValue 0⟩
    _carStateCurrent := ⟨FloatTime.SimStartValue 0, FloatTime.SimStartValue 0⟩
    _inputVal := FloatTime.SimStartValue 0
    _inputValLast := FloatTime.SimStartValue 0
    _carAnimTargetPos := FloatTime.SimStartValue 0
    _physTimeBalance := FloatTime.SimStartValue 0
    _physicsDt := FloatTime.SimStartValue (1 / 64)
    _cameraDt := FloatTime.SimStartValue 0
    _cameraPos := FloatTime.SimStartValue 0 }

/-- A run of `PhysicsUpdate` calls, each on samples taken at its frame delta: for each frame
delta `InputsUpdate`, `AnimationUpdate`, `PhysicsUpdate` (lines 28-30 of `Update`), the last one
written as its two parts so that the `stepCount` of every call can be added up.  The result is
the simulation after the last call and the total number of physics steps. -/
def PhysicsUpdateFrames (LerpInTime : FloatTime → FloatTime → ℚ → Except Fault FloatTime)
    (fuel : Nat) : List FloatTime → GameSimulation → Option (Except Fault (GameSimulation × Nat))
  | [], sim => some (.ok (sim, 0))
  | frameDt :: rest, sim =>
    match PhysicsUpdate_drain fuel frameDt (AnimationUpdate frameDt (InputsUpdate frameDt sim)) with
    | none => none
    | some (.error f) => some (.error f)
    | some (.ok (sim1, lastState, stepCount)) =>
      match PhysicsUpdate_finish LerpInTime sim1 lastState stepCount with
      | .error f => some (.error f)
      | .ok sim2 =>
        match PhysicsUpdateFrames LerpInTime fuel rest sim2 with
        | none => none
        | some (.error f) => some (.error f)
        | some (.ok (sim3, total)) => some (.ok (sim3, stepCount + total))

/-- The physics timeline after `K` steps: the four physics-owned timestamps stand at `K * h`,
and balance plus physics time make up the frame time `S` supplied so far. -/
def OnTimeline (K : Nat) (S : ℚ) (sim : GameSimulation) : Prop :=
  sim._physTimeBalance.Time = (K : ℚ) * sim._physicsDt.Value ∧
  sim._physicsDt.Time = (K : ℚ) * sim._physicsDt.Value ∧
  sim._carStateLatest.pos.Time = (K : ℚ) * sim._physicsDt.Value ∧
  sim._carStateLatest.vel.Time = (K : ℚ) * sim._physicsDt.Value ∧
  sim._physTimeBalance.Value + sim._physicsDt.Time = S

/-- Model of `void Init( const FloatTime& firstFrameDt )`. -/
def Init (firstFrameDt : FloatTime) (sim : GameSimulation) : Except Fault GameSimulation := do
  let pos := FloatTime.mkFrom 0 sim._physicsDt
  let vel := FloatTime.mkFrom 0 sim._physicsDt
  let cameraPos ← sim._cameraPos.FinishedUpdate firstFrameDt
  pure { sim with _carStateLatest := ⟨pos, vel⟩, _cameraPos := cameraPos }

/-- Model of `void MainUpdate( const FloatTime& frameDt )`, an empty placeholder. -/
def MainUpdate (_frameDt : FloatTime) (sim : GameSimulation) : GameSimulation := sim

/-- Model of `void CameraUpdate( const FloatTime& frameDt )`; the `printf` at the end writes to
the console only. -/
def CameraUpdate (frameDt : FloatTime) (sim : GameSimulation) : Except Fault GameSimulation := do
  let cameraDt ← AdvanceDtSelf frameDt
  let cameraPos0 := FloatTime.mkFrom sim._cameraPos.Value cameraDt
  let cameraPos1 ← FloatTime.Lerp cameraPos0 sim._carStateCurrent.pos
    (FloatTime.mkFrom (6 * cameraDt.Value) cameraDt)
  let cameraPos2 ←
    if sim._inputVal.Time > sim._inputValLast.Time then do
      let velDep ← Vel sim._inputValLast sim._inputVal
      cameraPos1.addAssign (FloatTime.mkFrom velDep.Value cameraDt)
    else pure cameraPos1
  let slow ← sim._carStateCurrent.vel.mul (FloatTime.mkFrom (1 / 10) cameraDt)
  let cameraPos3 ← cameraPos2.subAssign slow
  let cameraPos4 ← cameraPos3.FinishedUpdate cameraDt
  pure { sim with _cameraDt := cameraDt, _cameraPos := cameraPos4 }

/-- Model of `void Update( const FloatTime& frameDt )`. -/
def Update (LerpInTime : FloatTime → FloatTime → ℚ → Except Fault FloatTime)
    (fuel : Nat) (frameDt : FloatTime) (sim : GameSimulation) :
    Option (Except Fault GameSimulation) :=
  match PhysicsUpdate LerpInTime fuel frameDt
      (AnimationUpdate frameDt (InputsUpdate frameDt sim)) with
  | none => none
  | some (.error f) => some (.error f)
  | some (.ok sim1) => some (CameraUpdate frameDt (MainUpdate frameDt sim1))

/-- One `Update` per frame delta, in order, stopping at the first fault. -/
def UpdateFrames (LerpInTime : FloatTime → FloatTime → ℚ → Except Fault FloatTime)
    (fuel : Nat) : List FloatTime → GameSimulation → Option (Except Fault GameSimulation)
  | [], sim => some (.ok sim)
  | frameDt :: rest, sim =>
    match Update LerpInTime fuel frameDt sim with
    | none => none
    | some (.error f) => some (.error f)
    | some (.ok sim1) => UpdateFrames LerpInTime fuel rest sim1

/-- A session: the member initialisers, `Init( firstFrameDt )`, then one `Update` per frame
delta. -/
def Run (LerpInTime : FloatTime → FloatTime → ℚ → Except Fault FloatTime)
    (fuel : Nat) (firstFrameDt : FloatTime) (frames : List FloatTime) :
    Option (Except Fault GameSimulation) :=
  match Init firstFrameDt startState with
  | .error f => some (.error f)
  | .ok sim => UpdateFrames LerpInTime fuel frames sim

/-- The property of an interpolation that the camera's checks depend on: it raises no fault and
stamps its result with the blend `(1 - alpha) * a.time + alpha * b.time` of the two
timestamps. -/
def BlendsTime (LerpInTime : FloatTime → FloatTime → ℚ → Except Fault FloatTime) : Prop :=
  ∀ a b alpha, ∃ v, LerpInTime a b alpha = .ok ⟨v, (1 - alpha) * a.Time + alpha * b.Time⟩

/-- The members as `Init( 1/60 @ 0 )` leaves them: the member initialisers with the camera
position's timestamp moved on to `1/60`. -/
def afterInit : GameSimulation :=
  { startState with _cameraPos := ⟨0, 0 + 1 / 60⟩ }

/-- The members as the drain loop of the first `Update( 1/60 @ 0 )` after `Init( 1/60 @ 0 )`
leaves them: input `30` and animation target `0` sampled at time `0`, two physics steps made,
the physics-owned clocks at `2/64 = 1/32`, the balance at `1/60 - 2/64 = -7/480`. -/
def afterFirstDrain : GameSimulation :=
  { _carStateLatest := ⟨⟨15 / 2048, 1 / 32⟩, ⟨15 / 16, 1 / 32⟩⟩
    _carStateCurrent := ⟨⟨0, 0⟩, ⟨0, 0⟩⟩
    _inputVal := ⟨30, 0⟩
    _inputValLast := ⟨0, 0⟩
    _carAnimTargetPos := ⟨0, 0⟩
    _physTimeBalance := ⟨-(7 / 480), 1 / 32⟩
    _physicsDt := ⟨1 / 64, 1 / 32⟩
    _cameraDt := ⟨0, 0⟩
    _cameraPos := ⟨0, 1 / 60⟩ }

/-- The members after one loop pass that raised no fault: `_carStateLatest` has taken one Euler
step of size `_physicsDt.Value`, the balance has lost one step, and the three physics-owned
clocks have moved on by one step. -/
def afterBody (sim : GameSimulation) : GameSimulation :=
  { sim with
    _carStateLatest :=
      ⟨⟨sim._carStateLatest.pos.Value + sim._carStateLatest.vel.Value * sim._physicsDt.Value,
         sim._carStateLatest.pos.Time + sim._physicsDt.Value⟩,
       ⟨sim._carStateLatest.vel.Value
          + (sim._inputVal.Value + (sim._carAnimTargetPos.Value - sim._carStateLatest.pos.Value))
            * sim._physicsDt.Value,
         sim._carStateLatest.vel.Time + sim._physicsDt.Value⟩⟩,
    _physTimeBalance :=
      ⟨sim._physTimeBalance.Value - sim._physicsDt.Value,
       sim._physTimeBalance.Time + sim._physicsDt.Value⟩,
    _physicsDt := ⟨sim._physicsDt.Value, sim._physicsDt.Time + sim._physicsDt.Value⟩ }

end GameSimulation

/-! ## The binary32 reading

The same code with every `float` operation rounded as the machine does it.  A `float` is a
rational number that `fl` leaves alone; each `+ - * /` on floats is the exact operation followed
by `fl`; comparisons, `abs` and the constants `0.0f`, `1.0f`, `5.0f`, `30.0f`, `1.0f / 64.0f` are
exact.  Definitions of this reading carry the suffix `32`. -/

/-- Round a rational number to the nearest integer, a tie going to the even neighbour. -/
def roundEven (q : ℚ) : ℤ :=
  if q - ⌊q⌋ < 1 / 2 then ⌊q⌋
  else if 1 / 2 < q - ⌊q⌋ then ⌊q⌋ + 1
  else if ⌊q⌋ % 2 = 0 then ⌊q⌋ else ⌊q⌋ + 1

/-- Exponent of the unit in the last place of binary32 at magnitude `x > 0`: 23 below the binary
exponent of `x` (24 significant bits), and `-149` throughout the subnormal range. -/
def ulpExp (x : ℚ) : ℤ := max (Int.log 2 x - 23) (-149)

/-- Rounding of a positive rational number to binary32: the nearest multiple of the unit in the
last place, a tie going to the even significand. -/
def flAbs (x : ℚ) : ℚ := (roundEven (x / 2 ^ ulpExp x) : ℚ) * 2 ^ ulpExp x

/-- Rounding to binary32 (IEEE 754 single precision, round to nearest, ties to even), the result
of every `float` operation of the source applied to the exact result.  Magnitudes from `2^128` on,
which the machine turns into an infinity, are outside the model, as are NaN and the sign of
zero. -/
def fl (x : ℚ) : ℚ := if 0 < x then flAbs x else if x < 0 then -flAbs (-x) else 0

/-- The default tolerance `0.0001f` as the machine holds it: the binary32 number next to
`1/10000`, which is `13743895 / 2^37`. -/
def eps32 : ℚ := fl (1 / 10000)

/-- Binary32 reading of `ApproxEqual( a, b )`: `abs( a - b ) < eps` with the subtraction
rounded. -/
def ApproxEqual32 (a b : ℚ) : Bool := decide (|fl (a - b)| < eps32)

/-- Binary32 reading of `CheckConsistency`. -/
def CheckConsistency32 (a b : FloatTime) : Except Fault Unit :=
  if ApproxEqual32 a.Time b.Time then .ok () else .error Fault.consistency

namespace FloatTime

/-- Binary32 reading of `operator+`. -/
def add32 (a other : FloatTime) : Except Fault FloatTime := do
  CheckConsistency32 a other
  pure ⟨fl (a._value + other._value), a._time⟩

/-- Binary32 reading of `operator-`. -/
def sub32 (a other : FloatTime) : Except Fault FloatTime := do
  CheckConsistency32 a other
  pure ⟨fl (a._value - other._value), a._time⟩

/-- Binary32 reading of `operator*`. -/
def mul32 (a other : FloatTime) : Except Fault FloatTime := do
  CheckConsistency32 a other
  pure ⟨fl (a._value * other._value), a._time⟩

/-- Binary32 reading of `operator/`. -/
def div32 (a other : FloatTime) : Except Fault FloatTime := do
  CheckConsistency32 a other
  pure ⟨fl (a._value / other._value), a._time⟩

/-- Binary32 reading of `operator+=`. -/
def addAssign32 (a other : FloatTime) : Except Fault FloatTime := do
  CheckConsistency32 a other
  pure ⟨fl (a._value + other.Value), a._time⟩

/-- Binary32 reading of `operator-=`. -/
def subAssign32 (a other : FloatTime) : Except Fault FloatTime := do
  CheckConsistency32 a other
  pure ⟨fl (a._value - other.Value), a._time⟩

/-- Binary32 reading of `Integrate`. -/
def Integrate32 (self rateOfChange dt : FloatTime) : Except Fault FloatTime := do
  CheckConsistency32 self rateOfChange
  CheckConsistency32 self dt
  let prod ← rateOfChange.mul32 dt
  let self1 ← self.addAssign32 prod
  pure ⟨self1._value, fl (self1.Time + dt.Value)⟩

/-- Binary32 reading of `FinishedUpdate`. -/
def FinishedUpdate32 (self dt : FloatTime) : Except Fault FloatTime := do
  CheckConsistency32 self dt
  pure ⟨self._value, fl (self.Time + dt.Value)⟩

end FloatTime

/-- Binary32 reading of the two-argument `AdvanceDt`. -/
def AdvanceDt32 (io_dt newDt : FloatTime) : Except Fault FloatTime := do
  CheckConsistency32 io_dt newDt
  let curDt := io_dt
  let io_dt := newDt
  io_dt.FinishedUpdate32 curDt

/-- The clock of a delta-time chain in binary32: `n` rounded additions of `v` to `t0`. -/
def chainTime32 (v : ℚ) : Nat → ℚ → ℚ
  | 0, t0 => t0
  | n + 1, t0 => chainTime32 v n (fl (t0 + v))

namespace GameSimulation

/-- Binary32 reading of `AnimationUpdate`. -/
def AnimationUpdate32 (frameDt : FloatTime) (sim : GameSimulation) : GameSimulation :=
  { sim with _carAnimTargetPos := FloatTime.mkFrom (fl (5 * frameDt.Time)) frameDt }

/-- Binary32 reading of `PhysicsUpdateStep`. -/
def PhysicsUpdateStep32 (frameDt physicsDt : FloatTime) (sim : GameSimulation) :
    Except Fault GameSimulation := do
  CheckConsistency32 sim._carAnimTargetPos frameDt
  CheckConsistency32 sim._inputVal frameDt
  let carAnimTargetPos_const := FloatTime.mkFrom sim._carAnimTargetPos.Value physicsDt
  let inputVal_const := FloatTime.mkFrom sim._inputVal.Value physicsDt
  let diff ← carAnimTargetPos_const.sub32 sim._carStateLatest.pos
  let accel ← inputVal_const.add32 diff
  let pos ← sim._carStateLatest.pos.Integrate32 sim._carStateLatest.vel physicsDt
  let vel ← sim._carStateLatest.vel.Integrate32 accel physicsDt
  pure { sim with _carStateLatest := ⟨pos, vel⟩ }

/-- Binary32 reading of the first statement of `PhysicsUpdate`. -/
def PhysicsUpdate_accumulate32 (frameDt : FloatTime) (sim : GameSimulation) :
    Except Fault GameSimulation := do
  let bal ← sim._physTimeBalance.addAssign32 (FloatTime.mkFrom frameDt.Value sim._physicsDt)
  pure { sim with _physTimeBalance := bal }

/-- Binary32 reading of one pass through the body of the `while` loop of `PhysicsUpdate`. -/
def PhysicsUpdate_body32 (frameDt : FloatTime) (sim : GameSimulation) :
    Except Fault GameSimulation := do
  let sim1 ← PhysicsUpdateStep32 frameDt sim._physicsDt sim
  let bal1 ← sim1._physTimeBalance.subAssign32 sim1._physicsDt
  let bal2 ← bal1.FinishedUpdate32 sim1._physicsDt
  let dt ← AdvanceDt32 sim1._physicsDt sim1._physicsDt
  pure { sim1 with _physTimeBalance := bal2, _physicsDt := dt }

/-- Binary32 reading of the loop `while( _physTimeBalance.Value() > 0.0f ) { ... }`; the first
argument bounds the number of passes, and `none` means the bound was reached with the loop
condition still true. -/
def PhysicsUpdate_while32 : Nat → FloatTime → GameSimulation → CarState → Nat →
    Option (Except Fault (GameSimulation × CarState × Nat))
  | 0, _, sim, lastState, stepCount =>
    if sim._physTimeBalance.Value > 0 then none
    else some (.ok (sim, lastState, stepCount))
  | fuel + 1, frameDt, sim, lastState, stepCount =>
    if sim._physTimeBalance.Value > 0 then
      match PhysicsUpdate_body32 frameDt sim with
      | .error f => some (.error f)
      | .ok sim1 => PhysicsUpdate_while32 fuel frameDt sim1 sim._carStateLatest (stepCount + 1)
    else some (.ok (sim, lastState, stepCount))

/-- Binary32 reading of lines 54-72 of `PhysicsUpdate`: accumulate the frame delta, then
drain. -/
def PhysicsUpdate_drain32 (fuel : Nat) (frameDt : FloatTime) (sim : GameSimulation) :
    Option (Except Fault (GameSimulation × CarState × Nat)) :=
  match PhysicsUpdate_accumulate32 frameDt sim with
  | .error f => some (.error f)
  | .ok sim1 => PhysicsUpdate_while32 fuel frameDt sim1 sim1._carStateLatest 0

/-- Binary32 reading of line 76 of `PhysicsUpdate`:
`1.0f + (_physTimeBalance / _physicsDt).Value()`. -/
def PhysicsUpdate_lerpAlpha32 (sim : GameSimulation) : Except Fault ℚ := do
  let q ← sim._physTimeBalance.div32 sim._physicsDt
  pure (fl (1 + q.Value))

/-- Binary32 reading of lines 74-79 of `PhysicsUpdate`. -/
def PhysicsUpdate_finish32 (LerpInTime : FloatTime → FloatTime → ℚ → Except Fault FloatTime)
    (sim : GameSimulation) (lastState : CarState) (stepCount : Nat) :
    Except Fault GameSimulation :=
  if stepCount > 0 then do
    let lerpAlpha ← PhysicsUpdate_lerpAlpha32 sim
    let pos ← LerpInTime lastState.pos sim._carStateLatest.pos lerpAlpha
    let vel ← LerpInTime lastState.vel sim._carStateLatest.vel lerpAlpha
    pure { sim with _carStateCurrent := ⟨pos, vel⟩ }
  else .ok sim

/-- Binary32 reading of `PhysicsUpdate`: the accumulation and the loop, then the lines after the
loop.  `FloatTime::LerpInTime` is a parameter, as in `PhysicsUpdate`. -/
def PhysicsUpdate32 (LerpInTime : FloatTime → FloatTime → ℚ → Except Fault FloatTime)
    (fuel : Nat) (frameDt : FloatTime) (sim : GameSimulation) :
    Option (Except Fault GameSimulation) :=
  match PhysicsUpdate_drain32 fuel frameDt sim with
  | none => none
  | some (.error f) => some (.error f)
  | some (.ok (sim1, lastState, stepCount)) =>
    some (PhysicsUpdate_finish32 LerpInTime sim1 lastState stepCount)

/-- Binary32 reading of `Init`. -/
def Init32 (firstFrameDt : FloatTime) (sim : GameSimulation) : Except Fault GameSimulation := do
  let pos := FloatTime.mkFrom 0 sim._physicsDt
  let vel := FloatTime.mkFrom 0 sim._physicsDt
  let cameraPos ← sim._cameraPos.FinishedUpdate32 firstFrameDt
  pure { sim with _carStateLatest := ⟨pos, vel⟩, _cameraPos := cameraPos }

/-- Binary32 reading of a run of `PhysicsUpdate` calls, each on samples taken at its frame delta
(lines 28-30 of `Update`); the result is the simulation after the last call and the total number
of physics steps. -/
def PhysicsUpdateFrames32 (LerpInTime : FloatTime → FloatTime → ℚ → Except Fault FloatTime)
    (fuel : Nat) : List FloatTime → GameSimulation → Option (Except Fault (GameSimulation × Nat))
  | [], sim => some (.ok (sim, 0))
  | frameDt :: rest, sim =>
    match PhysicsUpdate_drain32 fuel frameDt
        (AnimationUpdate32 frameDt (InputsUpdate frameDt sim)) with
    | none => none
    | some (.error f) => some (.error f)
    | some (.ok (sim1, lastState, stepCount)) =>
      match PhysicsUpdate_finish32 LerpInTime sim1 lastState stepCount with
      | .error f => some (.error f)
      | .ok sim2 =>
        match PhysicsUpdateFrames32 LerpInTime fuel rest sim2 with
        | none => none
        | some (.error f) => some (.error f)
        | some (.ok (sim3, total)) => some (.ok (sim3, stepCount + total))

/-- The timestamp tests made inside one loop pass of `PhysicsUpdate` in binary32, in the order of
`LoopConsistent`: each is one `ApproxEqual` on a rounded difference. -/
def LoopConsistent32 (frameDt : FloatTime) (sim : GameSimulation) : Prop :=
  |fl (sim._carAnimTargetPos.Time - frameDt.Time)| < eps32 ∧
  |fl (sim._inputVal.Time - frameDt.Time)| < eps32 ∧
  |fl (sim._physicsDt.Time - sim._carStateLatest.pos.Time)| < eps32 ∧
  |fl (sim._carStateLatest.pos.Time - sim._carStateLatest.vel.Time)| < eps32 ∧
  |fl (sim._carStateLatest.pos.Time - sim._physicsDt.Time)| < eps32 ∧
  |fl (sim._carStateLatest.vel.Time - sim._physicsDt.Time)| < eps32 ∧
  |fl (sim._physTimeBalance.Time - sim._physicsDt.Time)| < eps32

instance (frameDt : FloatTime) (sim : GameSimulation) :
    Decidable (LoopConsistent32 frameDt sim) := by
  unfold LoopConsistent32; infer_instance

/-- The four physics-owned timestamps agree, and the frame-start samples carry the frame delta's
timestamp. -/
def Synced (frameDt : FloatTime) (sim : GameSimulation) : Prop :=
  sim._carAnimTargetPos.Time = frameDt.Time ∧
  sim._inputVal.Time = frameDt.Time ∧
  sim._physTimeBalance.Time = sim._physicsDt.Time ∧
  sim._carStateLatest.pos.Time = sim._physicsDt.Time ∧
  sim._carStateLatest.vel.Time = sim._physicsDt.Time

/-- The part of `Synced` that concerns the physics-owned members only. -/
def PhysicsSynced (sim : GameSimulation) : Prop :=
  sim._physTimeBalance.Time = sim._physicsDt.Time ∧
  sim._carStateLatest.pos.Time = sim._physicsDt.Time ∧
  sim._carStateLatest.vel.Time = sim._physicsDt.Time

/-- The members after one loop pass in binary32 that raised no fault. -/
def afterBody32 (sim : GameSimulation) : GameSimulation :=
  { sim with
    _carStateLatest :=
      ⟨⟨fl (sim._carStateLatest.pos.Value
            + fl (sim._carStateLatest.vel.Value * sim._physicsDt.Value)),
         fl (sim._carStateLatest.pos.Time + sim._physicsDt.Value)⟩,
       ⟨fl (sim._carStateLatest.vel.Value
            + fl (fl (sim._inputVal.Value
                + fl (sim._carAnimTargetPos.Value - sim._carStateLatest.pos.Value))
              * sim._physicsDt.Value)),
         fl (sim._carStateLatest.vel.Time + sim._physicsDt.Value)⟩⟩,
    _physTimeBalance :=
      ⟨fl (sim._physTimeBalance.Value - sim._physicsDt.Value),
       fl (sim._physTimeBalance.Time + sim._physicsDt.Value)⟩,
    _physicsDt := ⟨sim._physicsDt.Value, fl (sim._physicsDt.Time + sim._physicsDt.Value)⟩ }

end GameSimulation

/-! ## Basic facts about the consistency check -/

theorem approxEqual_iff (a b : ℚ) : ApproxEqual a b = true ↔ |a - b| < 1 / 10000 := by
  simp [ApproxEqual, ApproxEqualEps, defaultEps]

theorem checkConsistency_eq (a b : FloatTime) :
    CheckConsistency a b
      = if |a.Time - b.Time| < 1 / 10000 then .ok () else .error Fault.consistency := by
  unfold CheckConsistency
  by_cases h : |a.Time - b.Time| < 1 / 10000
  · rw [if_pos h, if_pos ((approxEqual_iff _ _).2 h)]
  · rw [if_neg h, if_neg (fun hc => h ((approxEqual_iff _ _).1 hc))]

theorem checkConsistency_ok {a b : FloatTime} (h : |a.Time - b.Time| < 1 / 10000) :
    CheckConsistency a b = .ok () := by
  rw [checkConsistency_eq, if_pos h]

theorem checkConsistency_error {a b : FloatTime} (h : ¬ |a.Time - b.Time| < 1 / 10000) :
    CheckConsistency a b = .error Fault.consistency := by
  rw [checkConsistency_eq, if_neg h]

/-- Every checked binary operator is the check followed by a pure result. -/
theorem binop_eq (f : ℚ → ℚ → ℚ) (a b : FloatTime) :
    (do CheckConsistency a b; pure (⟨f a._value b._value, a._time⟩ : FloatTime)
        : Except Fault FloatTime)
      = if |a.Time - b.Time| < 1 / 10000 then .ok ⟨f a._value b._value, a._time⟩
        else .error Fault.consistency := by
  by_cases h : |a.Time - b.Time| < 1 / 10000
  · rw [if_pos h, checkConsistency_ok h]; rfl
  · rw [if_neg h, checkConsistency_error h]; rfl

namespace FloatTime

theorem add_eq (a b : FloatTime) :
    a.add b = if |a.Time - b.Time| < 1 / 10000 then .ok ⟨a.Value + b.Value, a.Time⟩
      else .error Fault.consistency := binop_eq (· + ·) a b

theorem sub_eq (a b : FloatTime) :
    a.sub b = if |a.Time - b.Time| < 1 / 10000 then .ok ⟨a.Value - b.Value, a.Time⟩
      else .error Fault.consistency := binop_eq (· - ·) a b

theorem mul_eq (a b : FloatTime) :
    a.mul b = if |a.Time - b.Time| < 1 / 10000 then .ok ⟨a.Value * b.Value, a.Time⟩
      else .error Fault.consistency := binop_eq (· * ·) a b

theorem div_eq (a b : FloatTime) :
    a.div b = if |a.Time - b.Time| < 1 / 10000 then .ok ⟨a.Value / b.Value, a.Time⟩
      else .error Fault.consistency := binop_eq (· / ·) a b

theorem addAssign_eq (a b : FloatTime) :
    a.addAssign b = if |a.Time - b.Time| < 1 / 10000 then .ok ⟨a.Value + b.Value, a.Time⟩
      else .error Fault.consistency := binop_eq (· + ·) a b

theorem subAssign_eq (a b : FloatTime) :
    a.subAssign b = if |a.Time - b.Time| < 1 / 10000 then .ok ⟨a.Value - b.Value, a.Time⟩
      else .error Fault.consistency := binop_eq (· - ·) a b

theorem mulAssign_eq (a b : FloatTime) :
    a.mulAssign b = if |a.Time - b.Time| < 1 / 10000 then .ok ⟨a.Value * b.Value, a.Time⟩
      else .error Fault.consistency := binop_eq (· * ·) a b

end FloatTime

/-- A result that is `ok` under a tolerance test and the consistency fault otherwise. -/
theorem ite_fault_iff (d : ℚ) (x : FloatTime) :
    ((if d < 1 / 10000 then Except.ok x else Except.error Fault.consistency)
        = (Except.error Fault.consistency : Except Fault FloatTime) ↔ 1 / 10000 ≤ d) ∧
    ((∃ r, (if d < 1 / 10000 then Except.ok x else Except.error Fault.consistency)
        = (Except.ok r : Except Fault FloatTime)) ↔ d < 1 / 10000) := by
  by_cases h : d < 1 / 10000
  · rw [if_pos h]
    exact ⟨⟨fun hc => (by cases hc), fun hc => absurd h (not_lt.2 hc)⟩,
      ⟨fun _ => h, fun _ => ⟨x, rfl⟩⟩⟩
  · rw [if_neg h]
    exact ⟨⟨fun _ => not_lt.1 h, fun _ => rfl⟩,
      ⟨fun ⟨r, hr⟩ => (by cases hr), fun hc => absurd hc h⟩⟩

/-- `Integrate` as a cascade of its three distinct checks. -/
theorem integrate_eq (self rateOfChange dt : FloatTime) :
    self.Integrate rateOfChange dt =
      if |self.Time - rateOfChange.Time| < 1 / 10000 then
        if |self.Time - dt.Time| < 1 / 10000 then
          if |rateOfChange.Time - dt.Time| < 1 / 10000 then
            .ok ⟨self.Value + rateOfChange.Value * dt.Value, self.Time + dt.Value⟩
          else .error Fault.consistency
        else .error Fault.consistency
      else .error Fault.consistency := by
  by_cases h1 : |self.Time - rateOfChange.Time| < 1 / 10000 <;>
  by_cases h2 : |self.Time - dt.Time| < 1 / 10000 <;>
  by_cases h3 : |rateOfChange.Time - dt.Time| < 1 / 10000 <;>
  simp only [FloatTime.Integrate, checkConsistency_eq, FloatTime.mul_eq, FloatTime.addAssign_eq,
    FloatTime.Time, FloatTime.Value, h1, h2, h3, if_true, if_false, bind, Except.bind, pure,
    Except.pure]

/-- `Integrate` on three mutually consistent timestamps raises no fault. -/
theorem integrate_ok {self rateOfChange dt : FloatTime}
    (h1 : |self.Time - rateOfChange.Time| < 1 / 10000)
    (h2 : |self.Time - dt.Time| < 1 / 10000)
    (h3 : |rateOfChange.Time - dt.Time| < 1 / 10000) :
    self.Integrate rateOfChange dt
      = .ok ⟨self.Value + rateOfChange.Value * dt.Value, self.Time + dt.Value⟩ := by
  unfold FloatTime.Integrate
  rw [checkConsistency_ok h1, checkConsistency_ok h2, FloatTime.mul_eq, if_pos h3]
  simp only [bind, Except.bind]
  rw [FloatTime.addAssign_eq, if_pos h1]
  rfl

/-! ## The checked operators -/

/-- C1: when `a.time == b.time`, each of `a+b`, `a-b`, `a*b`, `a/b` returns (no fault) a value
stamped with `a.time` whose value is the corresponding combination of the two values. -/
theorem binary_ops_same_time (a b : FloatTime) (h : a.Time = b.Time) :
    a.add b = .ok ⟨a.Value + b.Value, a.Time⟩ ∧
    a.sub b = .ok ⟨a.Value - b.Value, a.Time⟩ ∧
    a.mul b = .ok ⟨a.Value * b.Value, a.Time⟩ ∧
    a.div b = .ok ⟨a.Value / b.Value, a.Time⟩ := by
  have h0 : |a.Time - b.Time| < 1 / 10000 := by rw [h]; norm_num
  rw [FloatTime.add_eq, FloatTime.sub_eq, FloatTime.mul_eq, FloatTime.div_eq]
  simp only [if_pos h0, and_self]

theorem binary_ops_same_time_witness :
    (⟨6, 2⟩ : FloatTime).Time = (⟨3, 2⟩ : FloatTime).Time ∧
    (FloatTime.add ⟨6, 2⟩ ⟨3, 2⟩ = .ok ⟨6 + 3, 2⟩ ∧
     FloatTime.sub ⟨6, 2⟩ ⟨3, 2⟩ = .ok ⟨6 - 3, 2⟩ ∧
     FloatTime.mul ⟨6, 2⟩ ⟨3, 2⟩ = .ok ⟨6 * 3, 2⟩ ∧
     FloatTime.div ⟨6, 2⟩ ⟨3, 2⟩ = .ok ⟨6 / 3, 2⟩) :=
  ⟨rfl, binary_ops_same_time ⟨6, 2⟩ ⟨3, 2⟩ rfl⟩

/-- C2: each of `+ - * / += -= *=` raises the consistency fault exactly when
`|a.time - b.time| >= 1e-4`, and produces a result exactly when `|a.time - b.time| < 1e-4`. -/
theorem binary_ops_fault_iff (a b : FloatTime) :
    ∀ op ∈ [FloatTime.add, FloatTime.sub, FloatTime.mul, FloatTime.div,
        FloatTime.addAssign, FloatTime.subAssign, FloatTime.mulAssign],
      (op a b = .error Fault.consistency ↔ 1 / 10000 ≤ |a.Time - b.Time|) ∧
      ((∃ r, op a b = .ok r) ↔ |a.Time - b.Time| < 1 / 10000) := by
  intro op hop
  simp only [List.mem_cons, List.mem_singleton, List.not_mem_nil, or_false] at hop
  rcases hop with rfl | rfl | rfl | rfl | rfl | rfl | rfl
  · rw [FloatTime.add_eq]; exact ite_fault_iff _ _
  · rw [FloatTime.sub_eq]; exact ite_fault_iff _ _
  · rw [FloatTime.mul_eq]; exact ite_fault_iff _ _
  · rw [FloatTime.div_eq]; exact ite_fault_iff _ _
  · rw [FloatTime.addAssign_eq]; exact ite_fault_iff _ _
  · rw [FloatTime.subAssign_eq]; exact ite_fault_iff _ _
  · rw [FloatTime.mulAssign_eq]; exact ite_fault_iff _ _

theorem binary_ops_fault_iff_witness :
    FloatTime.div ∈ [FloatTime.add, FloatTime.sub, FloatTime.mul, FloatTime.div,
        FloatTime.addAssign, FloatTime.subAssign, FloatTime.mulAssign] ∧
    (FloatTime.div ⟨6, 0⟩ ⟨3, 1⟩ = .error Fault.consistency ↔
      1 / 10000 ≤ |(⟨6, 0⟩ : FloatTime).Time - (⟨3, 1⟩ : FloatTime).Time|) ∧
    ((∃ r, FloatTime.div ⟨6, 0⟩ ⟨3, 1⟩ = .ok r) ↔
      |(⟨6, 0⟩ : FloatTime).Time - (⟨3, 1⟩ : FloatTime).Time| < 1 / 10000) :=
  have hm : FloatTime.div ∈ [FloatTime.add, FloatTime.sub, FloatTime.mul, FloatTime.div,
      FloatTime.addAssign, FloatTime.subAssign, FloatTime.mulAssign] := by
    simp only [List.mem_cons, true_or, or_true]
  ⟨hm, binary_ops_fault_iff ⟨6, 0⟩ ⟨3, 1⟩ FloatTime.div hm⟩

/-- C3: `Integrate` returns exactly when the three timestamps are pairwise within `1e-4`, and
then the new value is `old value + rateOfChange.value * dt.value` and the new time is
`old time + dt.value`; otherwise it raises the consistency fault. -/
theorem integrate_spec (self rateOfChange dt : FloatTime) :
    self.Integrate rateOfChange dt =
      if |self.Time - rateOfChange.Time| < 1 / 10000 ∧ |self.Time - dt.Time| < 1 / 10000 ∧
          |rateOfChange.Time - dt.Time| < 1 / 10000
      then .ok ⟨self.Value + rateOfChange.Value * dt.Value, self.Time + dt.Value⟩
      else .error Fault.consistency := by
  unfold FloatTime.Integrate
  by_cases h1 : |self.Time - rateOfChange.Time| < 1 / 10000
  · by_cases h2 : |self.Time - dt.Time| < 1 / 10000
    · by_cases h3 : |rateOfChange.Time - dt.Time| < 1 / 10000
      · rw [if_pos ⟨h1, h2, h3⟩]
        exact integrate_ok h1 h2 h3
      · rw [if_neg (fun hc => h3 hc.2.2), checkConsistency_ok h1, checkConsistency_ok h2,
          FloatTime.mul_eq, if_neg h3]
        rfl
    · rw [if_neg (fun hc => h2 hc.2.1), checkConsistency_ok h1, checkConsistency_error h2]
      rfl
  · rw [if_neg (fun hc => h1 hc.1), checkConsistency_error h1]
    rfl

/-! ## Finite-difference velocity -/

/-- C4: with `v1.time > v0.time`, `Vel( v0, v1 )` returns (no fault) the difference quotient
`(v1.value - v0.value) / (v1.time - v0.time)` stamped with `v1.time`. -/
theorem vel_ordered (v0 v1 : FloatTime) (h : v0.Time < v1.Time) :
    Vel v0 v1 = .ok ⟨(v1.Value - v0.Value) / (v1.Time - v0.Time), v1.Time⟩ := by
  unfold Vel
  rw [if_neg (not_lt.2 h.le)]
  rfl

theorem vel_ordered_witness :
    (⟨1, 0⟩ : FloatTime).Time < (⟨7, 2⟩ : FloatTime).Time ∧
    Vel ⟨1, 0⟩ ⟨7, 2⟩ = .ok ⟨(7 - 1) / (2 - 0), 2⟩ :=
  ⟨by norm_num, vel_ordered ⟨1, 0⟩ ⟨7, 2⟩ (by norm_num)⟩

/-- C5 fails at equal timestamps: `Vel` applied to two samples that both carry time `0` raises
no fault and hands back a result. -/
theorem vel_equal_time_no_fault :
    (⟨5, 0⟩ : FloatTime).Time ≤ (⟨3, 0⟩ : FloatTime).Time ∧
    Vel ⟨3, 0⟩ ⟨5, 0⟩ ≠ .error Fault.ordering ∧
    ∃ r, Vel ⟨3, 0⟩ ⟨5, 0⟩ = .ok r := by
  refine ⟨le_refl _, ?_, ?_⟩
  · simp [Vel]
  · simp [Vel]

/-- C5 (amended): `Vel( v0, v1 )` raises the ordering fault exactly when `v1.time < v0.time`,
and returns a result exactly when `v0.time <= v1.time` (equal timestamps included). -/
theorem vel_fault_iff (v0 v1 : FloatTime) :
    (Vel v0 v1 = .error Fault.ordering ↔ v1.Time < v0.Time) ∧
    ((∃ r, Vel v0 v1 = .ok r) ↔ v0.Time ≤ v1.Time) := by
  unfold Vel
  by_cases h : v1.Time < v0.Time
  · simp [h]
  · simp [h, not_lt.1 h]

/-! ## Interpolation -/

/-- Closed form of `Lerp`: the two checks that can fail compare the parameter's timestamp with
the timestamp of each endpoint; the result carries the parameter's timestamp. -/
theorem lerp_eq (a b t : FloatTime) :
    FloatTime.Lerp a b t =
      if |t.Time - a.Time| < 1 / 10000 ∧ |t.Time - b.Time| < 1 / 10000
      then .ok ⟨(1 - t.Value) * a.Value + t.Value * b.Value, t.Time⟩
      else .error Fault.consistency := by
  have h0 : (0 : ℚ) < 1 / 10000 := by norm_num
  by_cases h1 : |t._time - a._time| < 1 / 10000
  · by_cases h2 : |t._time - b._time| < 1 / 10000
    · simp only [FloatTime.Lerp, FloatTime.sub_eq, FloatTime.mul_eq, FloatTime.add_eq,
        FloatTime.mkFrom, FloatTime.Time, FloatTime.Value, sub_self, abs_zero, h0, h1, h2,
        bind, Except.bind, and_self, if_true]
    · simp only [FloatTime.Lerp, FloatTime.sub_eq, FloatTime.mul_eq, FloatTime.add_eq,
        FloatTime.mkFrom, FloatTime.Time, FloatTime.Value, sub_self, abs_zero, h0, h1, h2,
        bind, Except.bind, and_false, if_true, if_false]
  · simp only [FloatTime.Lerp, FloatTime.sub_eq, FloatTime.mul_eq, FloatTime.add_eq,
      FloatTime.mkFrom, FloatTime.Time, FloatTime.Value, sub_self, abs_zero, h0, h1,
      bind, Except.bind, false_and, if_true, if_false]

/-- C7 fails: with `a` at time `0`, `b` at time `3/20000` and the parameter half-way between at
`3/40000`, `Lerp` returns a result although `|a.time - b.time| = 1.5e-4` is outside the
tolerance and `a + b` raises the consistency fault. -/
theorem lerp_endpoints_apart :
    FloatTime.Lerp ⟨10, 0⟩ ⟨20, 3 / 20000⟩ ⟨1 / 2, 3 / 40000⟩ = .ok ⟨15, 3 / 40000⟩ ∧
    ¬ |(⟨10, 0⟩ : FloatTime).Time - (⟨20, 3 / 20000⟩ : FloatTime).Time| < 1 / 10000 ∧
    FloatTime.add ⟨10, 0⟩ ⟨20, 3 / 20000⟩ = .error Fault.consistency := by
  refine ⟨?_, ?_, ?_⟩
  · rw [lerp_eq, if_pos]
    · norm_num
    · constructor
      · show |(3 / 40000 : ℚ) - 0| < 1 / 10000
        rw [abs_lt]; constructor <;> norm_num
      · show |(3 / 40000 : ℚ) - 3 / 20000| < 1 / 10000
        rw [abs_lt]; constructor <;> norm_num
  · show ¬ |(0 : ℚ) - 3 / 20000| < 1 / 10000
    rw [abs_lt]; norm_num
  · rw [FloatTime.add_eq, if_neg]
    show ¬ |(0 : ℚ) - 3 / 20000| < 1 / 10000
    rw [abs_lt]; norm_num

/-- C7 (amended): `Lerp( a, b, t )` raises the consistency fault exactly when the timestamp of
`a` or the timestamp of `b` is not within `1e-4` of the timestamp of `t`; it returns a result
exactly when both are, and then the two endpoints are within `2e-4` of each other. -/
theorem lerp_fault_iff (a b t : FloatTime) :
    (FloatTime.Lerp a b t = .error Fault.consistency ↔
      ¬ (|t.Time - a.Time| < 1 / 10000 ∧ |t.Time - b.Time| < 1 / 10000)) ∧
    ((∃ r, FloatTime.Lerp a b t = .ok r) ↔
      (|t.Time - a.Time| < 1 / 10000 ∧ |t.Time - b.Time| < 1 / 10000)) ∧
    (FloatTime.Lerp a b t = .error Fault.consistency ∨ |a.Time - b.Time| < 2 / 10000) := by
  rw [lerp_eq]
  by_cases h : |t.Time - a.Time| < 1 / 10000 ∧ |t.Time - b.Time| < 1 / 10000
  · rw [if_pos h]
    refine ⟨⟨fun hc => (by cases hc), fun hc => absurd h hc⟩,
      ⟨fun _ => h, fun _ => ⟨_, rfl⟩⟩, Or.inr ?_⟩
    obtain ⟨h1, h2⟩ := h
    rw [abs_lt] at h1 h2 ⊢
    constructor <;> linarith [h1.1, h1.2, h2.1, h2.2]
  · rw [if_neg h]
    exact ⟨⟨fun _ => h, fun _ => rfl⟩, ⟨fun ⟨r, hr⟩ => (by cases hr), fun hc => absurd hc h⟩,
      Or.inl rfl⟩

namespace GameSimulation

theorem finishedUpdate_eq (a dt : FloatTime) :
    a.FinishedUpdate dt = if |a.Time - dt.Time| < 1 / 10000
      then .ok ⟨a.Value, a.Time + dt.Value⟩ else .error Fault.consistency := by
  unfold FloatTime.FinishedUpdate
  by_cases h : |a.Time - dt.Time| < 1 / 10000
  · rw [if_pos h, checkConsistency_ok h]; rfl
  · rw [if_neg h, checkConsistency_error h]; rfl

/-- One loop pass under `LoopConsistent` raises no fault and produces `afterBody`. -/
theorem body_ok (frameDt : FloatTime) (sim : GameSimulation) (hc : LoopConsistent frameDt sim) :
    PhysicsUpdate_body frameDt sim = .ok (afterBody sim) := by
  obtain ⟨⟨⟨pv, pt⟩, ⟨vv, vt⟩⟩, cur, ⟨iv, it⟩, il, ⟨av, at_⟩, ⟨bv, bt⟩, ⟨h, dtt⟩, cd, cp⟩ := sim
  obtain ⟨fv, ft⟩ := frameDt
  obtain ⟨h1, h2, h3, h4, h5, h6, h7⟩ := hc
  simp only [FloatTime.Time, FloatTime.Value] at h1 h2 h3 h4 h5 h6 h7
  have h0 : (0 : ℚ) < 1 / 10000 := by norm_num
  have i1 := @integrate_ok ⟨pv, pt⟩ ⟨vv, vt⟩ ⟨h, dtt⟩ h4 h5 h6
  have i2 := fun x : ℚ => @integrate_ok ⟨vv, vt⟩ ⟨x, dtt⟩ ⟨h, dtt⟩ h6 h6
    (by show |dtt - dtt| < 1 / 10000; rw [sub_self, abs_zero]; exact h0)
  simp only [PhysicsUpdate_body, PhysicsUpdateStep, afterBody, checkConsistency_eq,
    i1, i2, finishedUpdate_eq, AdvanceDt, FloatTime.sub_eq, FloatTime.add_eq,
    FloatTime.subAssign_eq, FloatTime.mkFrom, FloatTime.Time, FloatTime.Value, sub_self,
    abs_zero, h0, h1, h2, h3, h4, h5, h6, h7, bind, Except.bind, pure, Except.pure, and_self,
    if_true]

/-- One loop pass raises the consistency fault as soon as `LoopConsistent` fails. -/
theorem body_error (frameDt : FloatTime) (sim : GameSimulation)
    (hc : ¬ LoopConsistent frameDt sim) :
    PhysicsUpdate_body frameDt sim = .error Fault.consistency := by
  obtain ⟨⟨⟨pv, pt⟩, ⟨vv, vt⟩⟩, cur, ⟨iv, it⟩, il, ⟨av, at_⟩, ⟨bv, bt⟩, ⟨h, dtt⟩, cd, cp⟩ := sim
  obtain ⟨fv, ft⟩ := frameDt
  have h0 : (0 : ℚ) < 1 / 10000 := by norm_num
  simp only [LoopConsistent, FloatTime.Time, FloatTime.Value] at hc
  by_cases h1 : |at_ - ft| < 1 / 10000 <;>
  by_cases h2 : |it - ft| < 1 / 10000 <;>
  by_cases h3 : |dtt - pt| < 1 / 10000 <;>
  by_cases h4 : |pt - vt| < 1 / 10000 <;>
  by_cases h5 : |pt - dtt| < 1 / 10000 <;>
  by_cases h6 : |vt - dtt| < 1 / 10000 <;>
  by_cases h7 : |bt - dtt| < 1 / 10000 <;>
  first
  | (simp only [PhysicsUpdate_body, PhysicsUpdateStep, checkConsistency_eq,
      integrate_eq, finishedUpdate_eq, AdvanceDt, FloatTime.sub_eq, FloatTime.add_eq,
      FloatTime.subAssign_eq, FloatTime.mkFrom, FloatTime.Time, FloatTime.Value, sub_self,
      abs_zero, h0, h1, h2, h3, h4, h5, h6, h7, bind, Except.bind, pure, Except.pure,
      if_true, if_false]; done)
  | exact absurd (And.intro h1 (And.intro h2 (And.intro h3 (And.intro h4 (And.intro h5
      (And.intro h6 h7)))))) hc

/-- One loop pass: `afterBody` when the timestamps are consistent, the consistency fault
otherwise. -/
theorem body_eq (frameDt : FloatTime) (sim : GameSimulation) :
    PhysicsUpdate_body frameDt sim
      = if LoopConsistent frameDt sim then .ok (afterBody sim)
        else .error Fault.consistency := by
  by_cases hc : LoopConsistent frameDt sim
  · rw [if_pos hc, body_ok frameDt sim hc]
  · rw [if_neg hc, body_error frameDt sim hc]

theorem afterBody_consistent (frameDt : FloatTime) (sim : GameSimulation)
    (hc : LoopConsistent frameDt sim) : LoopConsistent frameDt (afterBody sim) := by
  obtain ⟨h1, h2, h3, h4, h5, h6, h7⟩ := hc
  refine ⟨h1, h2, ?_, ?_, ?_, ?_, ?_⟩ <;>
    simp only [afterBody, FloatTime.Time, FloatTime.Value, add_sub_add_right_eq_sub] <;>
    assumption

/-- The accumulation statement raises no fault when the balance and the physics step carry
consistent timestamps; it adds the frame delta's value to the balance and nothing else. -/
theorem accumulate_ok (frameDt : FloatTime) (sim : GameSimulation)
    (h : |sim._physTimeBalance.Time - sim._physicsDt.Time| < 1 / 10000) :
    PhysicsUpdate_accumulate frameDt sim
      = .ok { sim with _physTimeBalance :=
          ⟨sim._physTimeBalance.Value + frameDt.Value, sim._physTimeBalance.Time⟩ } := by
  have h' : |sim._physTimeBalance.Time
      - (FloatTime.mkFrom frameDt.Value sim._physicsDt).Time| < 1 / 10000 := h
  unfold PhysicsUpdate_accumulate
  rw [FloatTime.addAssign_eq, if_pos h']
  rfl

/-- Number of passes needed to bring a balance `x` to `<= 0` in steps of `h`: none are needed
when `x <= 0`. -/
theorem ceil_toNat_of_nonpos (x h : ℚ) (hh : 0 < h) (hx : x ≤ 0) : ⌈x / h⌉.toNat = 0 := by
  have h1 : x / h ≤ 0 := div_nonpos_of_nonpos_of_nonneg hx hh.le
  have h2 : ⌈x / h⌉ ≤ 0 := Int.ceil_le.2 (by simpa using h1)
  omega

/-- One pass lowers the number of passes still needed by one. -/
theorem ceil_toNat_step (x h : ℚ) (hh : 0 < h) (hx : 0 < x) :
    ⌈x / h⌉.toNat = ⌈(x - h) / h⌉.toNat + 1 := by
  have h1 : (x - h) / h = x / h - 1 := by field_simp
  have h2 : 0 < ⌈x / h⌉ := Int.ceil_pos.2 (div_pos hx hh)
  rw [h1, Int.ceil_sub_one]
  omega

theorem while_zero (frameDt : FloatTime) (sim : GameSimulation) (lastState : CarState)
    (stepCount : Nat) :
    PhysicsUpdate_while 0 frameDt sim lastState stepCount
      = if sim._physTimeBalance.Value > 0 then none
        else some (.ok (sim, lastState, stepCount)) := rfl

theorem while_succ (fuel : Nat) (frameDt : FloatTime) (sim : GameSimulation)
    (lastState : CarState) (stepCount : Nat) :
    PhysicsUpdate_while (fuel + 1) frameDt sim lastState stepCount
      = if sim._physTimeBalance.Value > 0 then
          match PhysicsUpdate_body frameDt sim with
          | .error f => some (.error f)
          | .ok sim1 => PhysicsUpdate_while fuel frameDt sim1 sim._carStateLatest (stepCount + 1)
        else some (.ok (sim, lastState, stepCount)) := rfl

/-- The loop of `PhysicsUpdate`, started under `LoopConsistent` with a positive step, ends
after `⌈x / h⌉` passes (`x` the balance on entry, `h` the step; no pass when `x <= 0`) once the
bound on the number of passes allows as many. -/
theorem while_spec (frameDt : FloatTime) :
    ∀ (fuel : Nat) (sim : GameSimulation) (lastState : CarState) (stepCount : Nat),
      0 < sim._physicsDt.Value → LoopConsistent frameDt sim →
      ⌈sim._physTimeBalance.Value / sim._physicsDt.Value⌉.toNat ≤ fuel →
      ∃ sim1 lastState1,
        PhysicsUpdate_while fuel frameDt sim lastState stepCount
          = some (.ok (sim1, lastState1,
              stepCount + ⌈sim._physTimeBalance.Value / sim._physicsDt.Value⌉.toNat)) ∧
        sim1._physTimeBalance.Value = sim._physTimeBalance.Value
          - (⌈sim._physTimeBalance.Value / sim._physicsDt.Value⌉.toNat : ℚ)
            * sim._physicsDt.Value ∧
        sim1._physicsDt.Value = sim._physicsDt.Value ∧
        LoopConsistent frameDt sim1 := by
  intro fuel
  induction fuel with
  | zero =>
    intro sim lastState stepCount hh hc hf
    have hn : ⌈sim._physTimeBalance.Value / sim._physicsDt.Value⌉.toNat = 0 := by omega
    have hx : ¬ sim._physTimeBalance.Value > 0 := by
      intro hx
      have := ceil_toNat_step _ _ hh hx
      omega
    generalize ⌈sim._physTimeBalance.Value / sim._physicsDt.Value⌉.toNat = n at hn ⊢
    subst hn
    refine ⟨sim, lastState, ?_, ?_, rfl, hc⟩
    · rw [while_zero, if_neg hx, Nat.add_zero]
    · simp only [Nat.cast_zero, zero_mul, sub_zero]
  | succ k ih =>
    intro sim lastState stepCount hh hc hf
    by_cases hx : sim._physTimeBalance.Value > 0
    · have hstep := ceil_toNat_step _ _ hh hx
      have hh1 : 0 < (afterBody sim)._physicsDt.Value := hh
      have hbal : (afterBody sim)._physTimeBalance.Value
          = sim._physTimeBalance.Value - sim._physicsDt.Value := rfl
      have hdt : (afterBody sim)._physicsDt.Value = sim._physicsDt.Value := rfl
      have hf1 : ⌈(afterBody sim)._physTimeBalance.Value
          / (afterBody sim)._physicsDt.Value⌉.toNat ≤ k := by
        rw [hbal, hdt]; omega
      obtain ⟨sim1, last1, hrun, hb1, hd1, hc1⟩ :=
        ih (afterBody sim) sim._carStateLatest (stepCount + 1) hh1
          (afterBody_consistent frameDt sim hc) hf1
      rw [hbal, hdt] at hrun hb1
      rw [hdt] at hd1
      generalize ⌈(sim._physTimeBalance.Value - sim._physicsDt.Value)
        / sim._physicsDt.Value⌉.toNat = m at hstep hrun hb1
      generalize ⌈sim._physTimeBalance.Value / sim._physicsDt.Value⌉.toNat = n at hstep ⊢
      subst hstep
      refine ⟨sim1, last1, ?_, ?_, hd1, hc1⟩
      · rw [while_succ, if_pos hx, body_ok frameDt sim hc]
        simp only []
        rw [hrun, Nat.add_assoc, Nat.add_comm 1 m]
      · rw [hb1]
        push_cast
        ring
    · have hn := ceil_toNat_of_nonpos _ _ hh (not_lt.1 hx)
      generalize ⌈sim._physTimeBalance.Value / sim._physicsDt.Value⌉.toNat = n at hn ⊢
      subst hn
      refine ⟨sim, lastState, ?_, ?_, rfl, hc⟩
      · rw [while_succ, if_neg hx, Nat.add_zero]
      · simp only [Nat.cast_zero, zero_mul, sub_zero]

/-- Every run of the loop that ends without fault has made `⌈x / h⌉` passes, whatever the
bound and whatever the timestamps. -/
theorem while_result (frameDt : FloatTime) :
    ∀ (fuel : Nat) (sim : GameSimulation) (lastState : CarState) (stepCount : Nat)
      (sim1 : GameSimulation) (lastState1 : CarState) (m : Nat),
      0 < sim._physicsDt.Value →
      PhysicsUpdate_while fuel frameDt sim lastState stepCount
        = some (.ok (sim1, lastState1, m)) →
      m = stepCount + ⌈sim._physTimeBalance.Value / sim._physicsDt.Value⌉.toNat ∧
      sim1._physTimeBalance.Value = sim._physTimeBalance.Value
        - (⌈sim._physTimeBalance.Value / sim._physicsDt.Value⌉.toNat : ℚ)
          * sim._physicsDt.Value ∧
      sim1._physicsDt.Value = sim._physicsDt.Value := by
  intro fuel
  induction fuel with
  | zero =>
    intro sim lastState stepCount sim1 lastState1 m hh hrun
    rw [while_zero] at hrun
    by_cases hx : sim._physTimeBalance.Value > 0
    · rw [if_pos hx] at hrun; cases hrun
    · rw [if_neg hx] at hrun
      have hn := ceil_toNat_of_nonpos _ _ hh (not_lt.1 hx)
      generalize ⌈sim._physTimeBalance.Value / sim._physicsDt.Value⌉.toNat = n at hn ⊢
      subst hn
      cases hrun
      refine ⟨rfl, ?_, rfl⟩
      simp only [Nat.cast_zero, zero_mul, sub_zero]
  | succ k ih =>
    intro sim lastState stepCount sim1 lastState1 m hh hrun
    rw [while_succ] at hrun
    by_cases hx : sim._physTimeBalance.Value > 0
    · rw [if_pos hx, body_eq] at hrun
      by_cases hc : LoopConsistent frameDt sim
      · rw [if_pos hc] at hrun
        simp only [] at hrun
        have hstep := ceil_toNat_step _ _ hh hx
        have hh1 : 0 < (afterBody sim)._physicsDt.Value := hh
        obtain ⟨hm, hb, hd⟩ := ih (afterBody sim) sim._carStateLatest (stepCount + 1)
          sim1 lastState1 m hh1 hrun
        have hbal : (afterBody sim)._physTimeBalance.Value
            = sim._physTimeBalance.Value - sim._physicsDt.Value := rfl
        have hdt : (afterBody sim)._physicsDt.Value = sim._physicsDt.Value := rfl
        rw [hbal, hdt] at hm hb
        rw [hdt] at hd
        generalize ⌈(sim._physTimeBalance.Value - sim._physicsDt.Value)
          / sim._physicsDt.Value⌉.toNat = j at hstep hm hb
        generalize ⌈sim._physTimeBalance.Value / sim._physicsDt.Value⌉.toNat = n at hstep ⊢
        subst hstep
        refine ⟨?_, ?_, hd⟩
        · omega
        · rw [hb]
          push_cast
          ring
      · rw [if_neg hc] at hrun
        cases hrun
    · rw [if_neg hx] at hrun
      have hn := ceil_toNat_of_nonpos _ _ hh (not_lt.1 hx)
      generalize ⌈sim._physTimeBalance.Value / sim._physicsDt.Value⌉.toNat = n at hn ⊢
      subst hn
      cases hrun
      refine ⟨rfl, ?_, rfl⟩
      simp only [Nat.cast_zero, zero_mul, sub_zero]

/-- A larger bound on the number of passes does not change a result already reached. -/
theorem while_mono_succ (frameDt : FloatTime) :
    ∀ (fuel : Nat) (sim : GameSimulation) (lastState : CarState) (stepCount : Nat)
      (r : Except Fault (GameSimulation × CarState × Nat)),
      PhysicsUpdate_while fuel frameDt sim lastState stepCount = some r →
      PhysicsUpdate_while (fuel + 1) frameDt sim lastState stepCount = some r := by
  intro fuel
  induction fuel with
  | zero =>
    intro sim lastState stepCount r hr
    rw [while_zero] at hr
    rw [while_succ]
    by_cases hx : sim._physTimeBalance.Value > 0
    · rw [if_pos hx] at hr; cases hr
    · rw [if_neg hx] at hr; rw [if_neg hx]; exact hr
  | succ k ih =>
    intro sim lastState stepCount r hr
    rw [while_succ] at hr
    rw [while_succ]
    by_cases hx : sim._physTimeBalance.Value > 0
    · rw [if_pos hx] at hr
      rw [if_pos hx]
      cases hb : PhysicsUpdate_body frameDt sim with
      | error f => rw [hb] at hr; exact hr
      | ok sim1 =>
        rw [hb] at hr
        exact ih sim1 sim._carStateLatest (stepCount + 1) r hr
    · rw [if_neg hx] at hr; rw [if_neg hx]; exact hr

theorem while_mono (frameDt : FloatTime) (sim : GameSimulation) (lastState : CarState)
    (stepCount : Nat) (r : Except Fault (GameSimulation × CarState × Nat)) (fuel : Nat)
    (hr : PhysicsUpdate_while fuel frameDt sim lastState stepCount = some r) :
    ∀ fuel1, fuel ≤ fuel1 → PhysicsUpdate_while fuel1 frameDt sim lastState stepCount = some r := by
  intro fuel1 hle
  induction hle with
  | refl => exact hr
  | step _ ih => exact while_mono_succ frameDt _ sim lastState stepCount r ih

/-- Accumulate-and-drain under `LoopConsistent` with a positive step: with `x` the balance after
accumulation, the loop makes `⌈x / h⌉` passes (none when `x <= 0`) and raises no fault; the
result is the same for every bound that allows as many passes. -/
theorem drain_spec (frameDt : FloatTime) (sim : GameSimulation)
    (hh : 0 < sim._physicsDt.Value) (hc : LoopConsistent frameDt sim) :
    ∃ sim1 lastState1,
      (∀ fuel,
        ⌈(sim._physTimeBalance.Value + frameDt.Value) / sim._physicsDt.Value⌉.toNat ≤ fuel →
        PhysicsUpdate_drain fuel frameDt sim
          = some (.ok (sim1, lastState1,
              ⌈(sim._physTimeBalance.Value + frameDt.Value) / sim._physicsDt.Value⌉.toNat))) ∧
      sim1._physTimeBalance.Value = sim._physTimeBalance.Value + frameDt.Value
        - (⌈(sim._physTimeBalance.Value + frameDt.Value) / sim._physicsDt.Value⌉.toNat : ℚ)
          * sim._physicsDt.Value ∧
      sim1._physicsDt.Value = sim._physicsDt.Value ∧
      LoopConsistent frameDt sim1 := by
  have hacc := accumulate_ok frameDt sim hc.2.2.2.2.2.2
  have hc1 : LoopConsistent frameDt { sim with _physTimeBalance :=
      ⟨sim._physTimeBalance.Value + frameDt.Value, sim._physTimeBalance.Time⟩ } := hc
  obtain ⟨sim1, last1, hrun, hb, hd, hcs⟩ :=
    while_spec frameDt
      ⌈(sim._physTimeBalance.Value + frameDt.Value) / sim._physicsDt.Value⌉.toNat
      { sim with _physTimeBalance :=
        ⟨sim._physTimeBalance.Value + frameDt.Value, sim._physTimeBalance.Time⟩ }
      sim._carStateLatest 0 hh hc1 (le_refl _)
  refine ⟨sim1, last1, ?_, hb, hd, hcs⟩
  intro fuel hf
  unfold PhysicsUpdate_drain
  rw [hacc]
  simp only []
  rw [while_mono frameDt _ _ _ _ _ hrun fuel hf, Nat.zero_add]

theorem accumulate_error (frameDt : FloatTime) (sim : GameSimulation)
    (h : ¬ |sim._physTimeBalance.Time - sim._physicsDt.Time| < 1 / 10000) :
    PhysicsUpdate_accumulate frameDt sim = .error Fault.consistency := by
  have h' : ¬ |sim._physTimeBalance.Time
      - (FloatTime.mkFrom frameDt.Value sim._physicsDt).Time| < 1 / 10000 := h
  unfold PhysicsUpdate_accumulate
  rw [FloatTime.addAssign_eq, if_neg h']
  rfl

/-- Every accumulate-and-drain that ends without fault has made `⌈(b + D) / h⌉` passes and has
taken that many steps off the accumulated balance, whatever the bound and the timestamps. -/
theorem drain_result (frameDt : FloatTime) (sim : GameSimulation)
    (hh : 0 < sim._physicsDt.Value) (fuel : Nat) (sim1 : GameSimulation)
    (lastState1 : CarState) (m : Nat)
    (hrun : PhysicsUpdate_drain fuel frameDt sim = some (.ok (sim1, lastState1, m))) :
    m = ⌈(sim._physTimeBalance.Value + frameDt.Value) / sim._physicsDt.Value⌉.toNat ∧
    sim1._physTimeBalance.Value = sim._physTimeBalance.Value + frameDt.Value
      - (⌈(sim._physTimeBalance.Value + frameDt.Value) / sim._physicsDt.Value⌉.toNat : ℚ)
        * sim._physicsDt.Value ∧
    sim1._physicsDt.Value = sim._physicsDt.Value := by
  unfold PhysicsUpdate_drain at hrun
  by_cases hbt : |sim._physTimeBalance.Time - sim._physicsDt.Time| < 1 / 10000
  · rw [accumulate_ok frameDt sim hbt] at hrun
    simp only [] at hrun
    obtain ⟨hm, hb, hd⟩ := while_result frameDt fuel
      { sim with _physTimeBalance :=
        ⟨sim._physTimeBalance.Value + frameDt.Value, sim._physTimeBalance.Time⟩ }
      sim._carStateLatest 0 sim1 lastState1 m hh hrun
    rw [Nat.zero_add] at hm
    exact ⟨hm, hb, hd⟩
  · rw [accumulate_error frameDt sim hbt] at hrun
    cases hrun

/-- The balance left by `⌈x / h⌉` passes lies in `(-h, 0]` as soon as `x > -h`. -/
theorem residual_bounds (x h : ℚ) (hh : 0 < h) (hx : -h < x) :
    -h < x - (⌈x / h⌉.toNat : ℚ) * h ∧ x - (⌈x / h⌉.toNat : ℚ) * h ≤ 0 := by
  by_cases hpos : 0 < x
  · have hc0 : 0 ≤ ⌈x / h⌉ := (Int.ceil_pos.2 (div_pos hpos hh)).le
    have hcast : ((⌈x / h⌉.toNat : ℕ) : ℚ) = ((⌈x / h⌉ : ℤ) : ℚ) := by
      have := Int.toNat_of_nonneg hc0
      exact_mod_cast this
    rw [hcast]
    have h1 : x / h ≤ (⌈x / h⌉ : ℚ) := Int.le_ceil _
    have h2 : (⌈x / h⌉ : ℚ) < x / h + 1 := Int.ceil_lt_add_one _
    have h3 : x ≤ (⌈x / h⌉ : ℚ) * h := (div_le_iff₀ hh).1 h1
    have h4 : (⌈x / h⌉ : ℚ) * h < (x / h + 1) * h := mul_lt_mul_of_pos_right h2 hh
    have h5 : (x / h + 1) * h = x + h := by field_simp
    rw [h5] at h4
    constructor <;> linarith
  · rw [ceil_toNat_of_nonpos x h hh (not_lt.1 hpos)]
    simp only [Nat.cast_zero, zero_mul, sub_zero]
    exact ⟨hx, not_lt.1 hpos⟩

/-- After `InputsUpdate` and `AnimationUpdate` the frame-start samples carry the frame delta's
timestamp, so the loop's checks against `frameDt` cannot fail. -/
theorem loopConsistent_after_sampling (frameDt : FloatTime) (sim : GameSimulation)
    (hp : PhysicsConsistent sim) :
    LoopConsistent frameDt (AnimationUpdate frameDt (InputsUpdate frameDt sim)) := by
  refine ⟨?_, ?_, hp⟩
  · show |frameDt.Time - frameDt.Time| < 1 / 10000
    norm_num
  · show |frameDt.Time - frameDt.Time| < 1 / 10000
    norm_num

end GameSimulation

/-! ## Compound forms and `AdvanceDt` -/

/-- C16: each compound form `+=`, `-=`, `*=` has exactly the outcome of the binary operator:
the same fault in the same cases, and otherwise the value of `a op b` with the timestamp of `a`
unchanged.  (The right operand is a `const` reference; the model has no way to change it.) -/
theorem compound_ops_agree (a b : FloatTime) :
    (a.addAssign b = a.add b ∧ a.subAssign b = a.sub b ∧ a.mulAssign b = a.mul b) ∧
    (a.addAssign b = if |a.Time - b.Time| < 1 / 10000
      then .ok ⟨a.Value + b.Value, a.Time⟩ else .error Fault.consistency) ∧
    (a.subAssign b = if |a.Time - b.Time| < 1 / 10000
      then .ok ⟨a.Value - b.Value, a.Time⟩ else .error Fault.consistency) ∧
    (a.mulAssign b = if |a.Time - b.Time| < 1 / 10000
      then .ok ⟨a.Value * b.Value, a.Time⟩ else .error Fault.consistency) := by
  refine ⟨⟨?_, ?_, ?_⟩, FloatTime.addAssign_eq a b, FloatTime.subAssign_eq a b,
    FloatTime.mulAssign_eq a b⟩
  · rw [FloatTime.addAssign_eq, FloatTime.add_eq]
  · rw [FloatTime.subAssign_eq, FloatTime.sub_eq]
  · rw [FloatTime.mulAssign_eq, FloatTime.mul_eq]

theorem advanceDt_eq (io_dt newDt : FloatTime) :
    AdvanceDt io_dt newDt = if |io_dt.Time - newDt.Time| < 1 / 10000
      then .ok ⟨newDt.Value, newDt.Time + io_dt.Value⟩ else .error Fault.consistency := by
  unfold AdvanceDt
  by_cases h : |io_dt.Time - newDt.Time| < 1 / 10000
  · have h2 : |newDt.Time - io_dt.Time| < 1 / 10000 := by rw [abs_sub_comm]; exact h
    rw [if_pos h, checkConsistency_ok h]
    simp only [bind, Except.bind]
    rw [GameSimulation.finishedUpdate_eq, if_pos h2]
  · rw [if_neg h, checkConsistency_error h]
    rfl

theorem advanceDtSelf_eq (io_dt : FloatTime) :
    AdvanceDtSelf io_dt = .ok ⟨io_dt.Value, io_dt.Time + io_dt.Value⟩ := by
  unfold AdvanceDtSelf
  rw [advanceDt_eq, if_pos]
  rw [sub_self, abs_zero]
  norm_num

/-! ## More on the drain loop: untouched members, clocks, the interpolation fraction -/

namespace GameSimulation

/-- With a balance that is not positive the loop returns at once, for every bound. -/
theorem while_no_pass (fuel : Nat) (frameDt : FloatTime) (sim : GameSimulation)
    (lastState : CarState) (stepCount : Nat) (hx : ¬ sim._physTimeBalance.Value > 0) :
    PhysicsUpdate_while fuel frameDt sim lastState stepCount
      = some (.ok (sim, lastState, stepCount)) := by
  cases fuel with
  | zero => rw [while_zero, if_neg hx]
  | succ k => rw [while_succ, if_neg hx]

/-- What a run of the loop that ends without fault does to the clocks and to the other
members: the four physics-owned timestamps move on by the simulated time `(m - stepCount) * h`,
and nothing outside `_carStateLatest`, `_physTimeBalance` and `_physicsDt` is written. -/
theorem while_frame (frameDt : FloatTime) :
    ∀ (fuel : Nat) (sim : GameSimulation) (lastState : CarState) (stepCount : Nat)
      (sim1 : GameSimulation) (lastState1 : CarState) (m : Nat),
      PhysicsUpdate_while fuel frameDt sim lastState stepCount
        = some (.ok (sim1, lastState1, m)) →
      stepCount ≤ m ∧
      sim1._physicsDt.Value = sim._physicsDt.Value ∧
      sim1._physTimeBalance.Value = sim._physTimeBalance.Value
        - ((m - stepCount : ℕ) : ℚ) * sim._physicsDt.Value ∧
      sim1._physTimeBalance.Time = sim._physTimeBalance.Time
        + ((m - stepCount : ℕ) : ℚ) * sim._physicsDt.Value ∧
      sim1._physicsDt.Time = sim._physicsDt.Time
        + ((m - stepCount : ℕ) : ℚ) * sim._physicsDt.Value ∧
      sim1._carStateLatest.pos.Time = sim._carStateLatest.pos.Time
        + ((m - stepCount : ℕ) : ℚ) * sim._physicsDt.Value ∧
      sim1._carStateLatest.vel.Time = sim._carStateLatest.vel.Time
        + ((m - stepCount : ℕ) : ℚ) * sim._physicsDt.Value ∧
      sim1._carStateCurrent = sim._carStateCurrent ∧
      sim1._inputVal = sim._inputVal ∧ sim1._inputValLast = sim._inputValLast ∧
      sim1._carAnimTargetPos = sim._carAnimTargetPos ∧
      sim1._cameraDt = sim._cameraDt ∧ sim1._cameraPos = sim._cameraPos ∧
      (m = stepCount → sim1 = sim ∧ lastState1 = lastState) := by
  intro fuel
  induction fuel with
  | zero =>
    intro sim lastState stepCount sim1 lastState1 m hrun
    rw [while_zero] at hrun
    by_cases hx : sim._physTimeBalance.Value > 0
    · rw [if_pos hx] at hrun; cases hrun
    · rw [if_neg hx] at hrun
      cases hrun
      simp only [Nat.sub_self, Nat.cast_zero, zero_mul, sub_zero, add_zero, le_refl, and_self,
        implies_true]
  | succ k ih =>
    intro sim lastState stepCount sim1 lastState1 m hrun
    rw [while_succ] at hrun
    by_cases hx : sim._physTimeBalance.Value > 0
    · rw [if_pos hx, body_eq] at hrun
      by_cases hc : LoopConsistent frameDt sim
      · rw [if_pos hc] at hrun
        simp only [] at hrun
        obtain ⟨hle, hd, hb, hbt, hdt, hpt, hvt, hcur, hin, hil, han, hcd, hcp, _⟩ :=
          ih (afterBody sim) sim._carStateLatest (stepCount + 1) sim1 lastState1 m hrun
        have hcast : ((m - stepCount : ℕ) : ℚ) = ((m - (stepCount + 1) : ℕ) : ℚ) + 1 := by
          have : m - stepCount = (m - (stepCount + 1)) + 1 := by omega
          rw [this]; push_cast; ring
        refine ⟨by omega, hd, ?_, ?_, ?_, ?_, ?_, hcur, hin, hil, han, hcd, hcp, ?_⟩
        · rw [hb, hcast]
          show sim._physTimeBalance.Value - sim._physicsDt.Value
            - ((m - (stepCount + 1) : ℕ) : ℚ) * sim._physicsDt.Value = _
          ring
        · rw [hbt, hcast]
          show sim._physTimeBalance.Time + sim._physicsDt.Value
            + ((m - (stepCount + 1) : ℕ) : ℚ) * sim._physicsDt.Value = _
          ring
        · rw [hdt, hcast]
          show sim._physicsDt.Time + sim._physicsDt.Value
            + ((m - (stepCount + 1) : ℕ) : ℚ) * sim._physicsDt.Value = _
          ring
        · rw [hpt, hcast]
          show sim._carStateLatest.pos.Time + sim._physicsDt.Value
            + ((m - (stepCount + 1) : ℕ) : ℚ) * sim._physicsDt.Value = _
          ring
        · rw [hvt, hcast]
          show sim._carStateLatest.vel.Time + sim._physicsDt.Value
            + ((m - (stepCount + 1) : ℕ) : ℚ) * sim._physicsDt.Value = _
          ring
        · intro hm
          omega
      · rw [if_neg hc] at hrun
        cases hrun
    · rw [if_neg hx] at hrun
      cases hrun
      simp only [Nat.sub_self, Nat.cast_zero, zero_mul, sub_zero, add_zero, le_refl, and_self,
        implies_true]

/-- What an accumulate-and-drain that ends without fault does: the accumulation check passed,
the balance gained the frame delta and lost `n` steps, the four physics-owned timestamps moved
on by `n * h`, and nothing outside `_carStateLatest`, `_physTimeBalance` and `_physicsDt` was
written; with `n = 0` only the value of the balance changed. -/
theorem drain_frame (fuel : Nat) (frameDt : FloatTime) (sim sim1 : GameSimulation)
    (lastState1 : CarState) (n : Nat)
    (hrun : PhysicsUpdate_drain fuel frameDt sim = some (.ok (sim1, lastState1, n))) :
    |sim._physTimeBalance.Time - sim._physicsDt.Time| < 1 / 10000 ∧
    sim1._physicsDt.Value = sim._physicsDt.Value ∧
    sim1._physTimeBalance.Value = sim._physTimeBalance.Value + frameDt.Value
      - (n : ℚ) * sim._physicsDt.Value ∧
    sim1._physTimeBalance.Time = sim._physTimeBalance.Time + (n : ℚ) * sim._physicsDt.Value ∧
    sim1._physicsDt.Time = sim._physicsDt.Time + (n : ℚ) * sim._physicsDt.Value ∧
    sim1._carStateLatest.pos.Time
      = sim._carStateLatest.pos.Time + (n : ℚ) * sim._physicsDt.Value ∧
    sim1._carStateLatest.vel.Time
      = sim._carStateLatest.vel.Time + (n : ℚ) * sim._physicsDt.Value ∧
    sim1._carStateCurrent = sim._carStateCurrent ∧
    sim1._inputVal = sim._inputVal ∧ sim1._inputValLast = sim._inputValLast ∧
    sim1._carAnimTargetPos = sim._carAnimTargetPos ∧
    sim1._cameraDt = sim._cameraDt ∧ sim1._cameraPos = sim._cameraPos ∧
    (n = 0 → sim1 = { sim with _physTimeBalance :=
        ⟨sim._physTimeBalance.Value + frameDt.Value, sim._physTimeBalance.Time⟩ } ∧
      lastState1 = sim._carStateLatest) := by
  unfold PhysicsUpdate_drain at hrun
  by_cases hbt : |sim._physTimeBalance.Time - sim._physicsDt.Time| < 1 / 10000
  · rw [accumulate_ok frameDt sim hbt] at hrun
    simp only [] at hrun
    obtain ⟨_, hd, hb, hbt1, hdt, hpt, hvt, hcur, hin, hil, han, hcd, hcp, hz⟩ :=
      while_frame frameDt fuel
        { sim with _physTimeBalance :=
          ⟨sim._physTimeBalance.Value + frameDt.Value, sim._physTimeBalance.Time⟩ }
        sim._carStateLatest 0 sim1 lastState1 n hrun
    rw [Nat.sub_zero] at hb hbt1 hdt hpt hvt
    exact ⟨hbt, hd, hb, hbt1, hdt, hpt, hvt, hcur, hin, hil, han, hcd, hcp, hz⟩
  · rw [accumulate_error frameDt sim hbt] at hrun
    cases hrun

/-- `PhysicsUpdate` is its accumulate-and-drain part followed by lines 74-79. -/
theorem physicsUpdate_eq (LerpInTime : FloatTime → FloatTime → ℚ → Except Fault FloatTime)
    (fuel : Nat) (frameDt : FloatTime) (sim : GameSimulation) :
    PhysicsUpdate LerpInTime fuel frameDt sim
      = (match PhysicsUpdate_drain fuel frameDt sim with
        | none => none
        | some (Except.error f) => some (Except.error f)
        | some (Except.ok (sim1, lastState, stepCount)) =>
          some (PhysicsUpdate_finish LerpInTime sim1 lastState stepCount)) := by
  unfold PhysicsUpdate
  cases hd : PhysicsUpdate_drain fuel frameDt sim with
  | none => rfl
  | some r =>
    cases r with
    | error f => rfl
    | ok t =>
      obtain ⟨sim1, last1, n⟩ := t
      simp only [PhysicsUpdate_finish, PhysicsUpdate_lerpAlpha]
      by_cases hn : n > 0
      · rw [if_pos hn, if_pos hn]
        cases hq : sim1._physTimeBalance.div sim1._physicsDt with
        | error f => rfl
        | ok q => rfl
      · rw [if_neg hn, if_neg hn]

/-- The interpolation fraction is `1 + balance / step` whenever the balance and the step carry
consistent timestamps. -/
theorem lerpAlpha_eq (sim : GameSimulation)
    (h : |sim._physTimeBalance.Time - sim._physicsDt.Time| < 1 / 10000) :
    PhysicsUpdate_lerpAlpha sim
      = .ok (1 + sim._physTimeBalance.Value / sim._physicsDt.Value) := by
  unfold PhysicsUpdate_lerpAlpha
  rw [FloatTime.div_eq, if_pos h]
  rfl

/-- With `balance + D <= 0` the loop makes no pass, so `PhysicsUpdate` is the accumulation
alone. -/
theorem physicsUpdate_no_pass
    (LerpInTime : FloatTime → FloatTime → ℚ → Except Fault FloatTime)
    (fuel : Nat) (frameDt : FloatTime) (sim : GameSimulation)
    (hle : sim._physTimeBalance.Value + frameDt.Value ≤ 0) :
    PhysicsUpdate LerpInTime fuel frameDt sim
      = if |sim._physTimeBalance.Time - sim._physicsDt.Time| < 1 / 10000
        then some (.ok { sim with _physTimeBalance :=
          ⟨sim._physTimeBalance.Value + frameDt.Value, sim._physTimeBalance.Time⟩ })
        else some (.error Fault.consistency) := by
  rw [physicsUpdate_eq]
  unfold PhysicsUpdate_drain
  by_cases hbt : |sim._physTimeBalance.Time - sim._physicsDt.Time| < 1 / 10000
  · rw [if_pos hbt, accumulate_ok frameDt sim hbt]
    simp only []
    rw [while_no_pass fuel frameDt _ _ _ (not_lt.2 hle)]
    simp only [PhysicsUpdate_finish]
    rw [if_neg (by omega : ¬ 0 > 0)]
  · rw [if_neg hbt, accumulate_error frameDt sim hbt]

/-- C14: when the balance stays `<= 0` after accumulation (`balance_before + D <= 0`),
`PhysicsUpdate` makes no step: if the accumulation check passes it returns the simulation with
the value of `_physTimeBalance` raised by `D` and every other member, `_carStateCurrent` and
`_carStateLatest` among them, exactly as before; otherwise it raises the consistency fault. -/
theorem zero_step_frame (LerpInTime : FloatTime → FloatTime → ℚ → Except Fault FloatTime)
    (fuel : Nat) (frameDt : FloatTime) (sim : GameSimulation)
    (hle : sim._physTimeBalance.Value + frameDt.Value ≤ 0) :
    (PhysicsUpdate LerpInTime fuel frameDt sim
      = if |sim._physTimeBalance.Time - sim._physicsDt.Time| < 1 / 10000
        then some (.ok { sim with _physTimeBalance :=
          ⟨sim._physTimeBalance.Value + frameDt.Value, sim._physTimeBalance.Time⟩ })
        else some (.error Fault.consistency)) ∧
    (∀ s, PhysicsUpdate LerpInTime fuel frameDt sim = some (.ok s) →
      s._carStateCurrent = sim._carStateCurrent ∧ s._carStateLatest = sim._carStateLatest ∧
      s._physTimeBalance.Time = sim._physTimeBalance.Time ∧
      s._physicsDt = sim._physicsDt) := by
  have hmain : PhysicsUpdate LerpInTime fuel frameDt sim
      = if |sim._physTimeBalance.Time - sim._physicsDt.Time| < 1 / 10000
        then some (.ok { sim with _physTimeBalance :=
          ⟨sim._physTimeBalance.Value + frameDt.Value, sim._physTimeBalance.Time⟩ })
        else some (.error Fault.consistency) :=
    physicsUpdate_no_pass LerpInTime fuel frameDt sim hle
  refine ⟨hmain, ?_⟩
  intro s hs
  rw [hmain] at hs
  by_cases hbt : |sim._physTimeBalance.Time - sim._physicsDt.Time| < 1 / 10000
  · rw [if_pos hbt] at hs
    cases hs
    exact ⟨rfl, rfl, rfl, rfl⟩
  · rw [if_neg hbt] at hs
    cases hs

theorem zero_step_frame_witness :
    ({ startState with _physTimeBalance := ⟨-(1 / 100), 0⟩ } : GameSimulation)._physTimeBalance.Value
      + (⟨1 / 200, 0⟩ : FloatTime).Value ≤ 0 ∧
    PhysicsUpdate (fun _ b _ => .ok b) 0 ⟨1 / 200, 0⟩
        { startState with _physTimeBalance := ⟨-(1 / 100), 0⟩ }
      = some (.ok { startState with _physTimeBalance := ⟨-(1 / 100) + 1 / 200, 0⟩ }) :=
  have h : ({ startState with _physTimeBalance := ⟨-(1 / 100), 0⟩ } :
      GameSimulation)._physTimeBalance.Value + (⟨1 / 200, 0⟩ : FloatTime).Value ≤ 0 := by
    show -(1 / 100 : ℚ) + 1 / 200 ≤ 0
    norm_num
  ⟨h, by
    have h2 := (zero_step_frame (fun _ b _ => .ok b) 0 ⟨1 / 200, 0⟩
      { startState with _physTimeBalance := ⟨-(1 / 100), 0⟩ } h).1
    rw [if_pos (by show |(0 : ℚ) - 0| < 1 / 10000; norm_num)] at h2
    exact h2⟩

/-- The number `⌈x / h⌉` (taken as `0` when negative) is the least number of steps of size
`h > 0` that bring `x` to `<= 0`. -/
theorem ceil_toNat_least (x h : ℚ) (hh : 0 < h) :
    x - (⌈x / h⌉.toNat : ℚ) * h ≤ 0 ∧ ∀ m : ℕ, x - (m : ℚ) * h ≤ 0 → ⌈x / h⌉.toNat ≤ m := by
  constructor
  · by_cases hx : 0 < x
    · exact (residual_bounds x h hh (by linarith)).2
    · rw [ceil_toNat_of_nonpos x h hh (not_lt.1 hx)]
      simp only [Nat.cast_zero, zero_mul, sub_zero]
      exact not_lt.1 hx
  · intro m hm
    have h1 : x / h ≤ (m : ℚ) := by
      rw [div_le_iff₀ hh]; linarith
    have h2 : ⌈x / h⌉ ≤ (m : ℤ) := Int.ceil_le.2 (by exact_mod_cast h1)
    omega

/-! ## Runs of `PhysicsUpdate` calls -/

/-- Lines 74-79 write `_carStateCurrent` and nothing else. -/
theorem finish_fields (LerpInTime : FloatTime → FloatTime → ℚ → Except Fault FloatTime)
    (sim sim2 : GameSimulation) (lastState : CarState) (n : Nat)
    (h : PhysicsUpdate_finish LerpInTime sim lastState n = .ok sim2) :
    ∃ cur, sim2 = { sim with _carStateCurrent := cur } := by
  unfold PhysicsUpdate_finish at h
  by_cases hn : n > 0
  · rw [if_pos hn] at h
    cases ha : PhysicsUpdate_lerpAlpha sim with
    | error f => rw [ha] at h; cases h
    | ok alpha =>
      rw [ha] at h
      simp only [bind, Except.bind] at h
      cases hp : LerpInTime lastState.pos sim._carStateLatest.pos alpha with
      | error f => rw [hp] at h; cases h
      | ok pos =>
        rw [hp] at h
        simp only [] at h
        cases hv : LerpInTime lastState.vel sim._carStateLatest.vel alpha with
        | error f => rw [hv] at h; cases h
        | ok vel =>
          rw [hv] at h
          simp only [pure, Except.pure] at h
          cases h
          exact ⟨_, rfl⟩
  · rw [if_neg hn] at h
    cases h
    exact ⟨sim._carStateCurrent, rfl⟩

/-- Lines 74-79 raise no fault when the balance and the step carry consistent timestamps and the
interpolation itself raises none. -/
theorem finish_ok (LerpInTime : FloatTime → FloatTime → ℚ → Except Fault FloatTime)
    (hL : ∀ a b alpha, ∃ r, LerpInTime a b alpha = .ok r)
    (sim : GameSimulation) (lastState : CarState) (n : Nat)
    (hcons : |sim._physTimeBalance.Time - sim._physicsDt.Time| < 1 / 10000) :
    ∃ cur, PhysicsUpdate_finish LerpInTime sim lastState n
      = .ok { sim with _carStateCurrent := cur } := by
  unfold PhysicsUpdate_finish
  by_cases hn : n > 0
  · rw [if_pos hn, lerpAlpha_eq sim hcons]
    obtain ⟨pos, hp⟩ := hL lastState.pos sim._carStateLatest.pos
      (1 + sim._physTimeBalance.Value / sim._physicsDt.Value)
    obtain ⟨vel, hv⟩ := hL lastState.vel sim._carStateLatest.vel
      (1 + sim._physTimeBalance.Value / sim._physicsDt.Value)
    refine ⟨⟨pos, vel⟩, ?_⟩
    simp only [bind, Except.bind, hp, hv, pure, Except.pure]
  · rw [if_neg hn]
    exact ⟨sim._carStateCurrent, rfl⟩

theorem updateFrames_cons (LerpInTime : FloatTime → FloatTime → ℚ → Except Fault FloatTime)
    (fuel : Nat) (frameDt : FloatTime) (rest : List FloatTime) (sim : GameSimulation) :
    PhysicsUpdateFrames LerpInTime fuel (frameDt :: rest) sim
      = (match PhysicsUpdate_drain fuel frameDt
            (AnimationUpdate frameDt (InputsUpdate frameDt sim)) with
        | none => none
        | some (Except.error f) => some (Except.error f)
        | some (Except.ok (sim1, lastState, stepCount)) =>
          match PhysicsUpdate_finish LerpInTime sim1 lastState stepCount with
          | Except.error f => some (Except.error f)
          | Except.ok sim2 =>
            match PhysicsUpdateFrames LerpInTime fuel rest sim2 with
            | none => none
            | some (Except.error f) => some (Except.error f)
            | some (Except.ok (sim3, total)) => some (Except.ok (sim3, stepCount + total))) := rfl

/-- On the timeline every check of the loop passes, whatever the frame delta, once the
frame-start samples have been taken. -/
theorem loopConsistent_of_timeline (frameDt : FloatTime) (sim : GameSimulation) (K : Nat) (S : ℚ)
    (ht : OnTimeline K S sim) :
    LoopConsistent frameDt (AnimationUpdate frameDt (InputsUpdate frameDt sim)) := by
  obtain ⟨h1, h2, h3, h4, _⟩ := ht
  have h0 : |(K : ℚ) * sim._physicsDt.Value - (K : ℚ) * sim._physicsDt.Value| < 1 / 10000 := by
    rw [sub_self, abs_zero]; norm_num
  apply loopConsistent_after_sampling
  refine ⟨?_, ?_, ?_, ?_, ?_⟩
  · rw [h2, h3]; exact h0
  · rw [h3, h4]; exact h0
  · rw [h3, h2]; exact h0
  · rw [h4, h2]; exact h0
  · rw [h1, h2]; exact h0

/-- A balance that is `<= 0` before the frame needs no more passes than the frame delta alone
would. -/
theorem ceil_toNat_le_of_nonpos (b D h : ℚ) (hh : 0 < h) (hb : b ≤ 0) :
    ⌈(b + D) / h⌉.toNat ≤ ⌈D / h⌉.toNat := by
  have h1 : (b + D) / h ≤ D / h := by
    apply div_le_div_of_nonneg_right _ hh.le
    linarith
  have h2 : ⌈(b + D) / h⌉ ≤ ⌈D / h⌉ := Int.ceil_mono h1
  omega

/-- From a state on the timeline with a balance `<= 0`, a run of `PhysicsUpdate` calls raises
no fault (provided the interpolation raises none) and stays on the timeline: after `total` steps
in all, the clocks stand at `(K + total) * h` and balance plus physics time equal the frame time
supplied. -/
theorem updateFrames_timeline (LerpInTime : FloatTime → FloatTime → ℚ → Except Fault FloatTime)
    (hL : ∀ a b alpha, ∃ r, LerpInTime a b alpha = .ok r) :
    ∀ (frames : List FloatTime) (sim : GameSimulation) (K : Nat) (S : ℚ) (fuel : Nat),
      0 < sim._physicsDt.Value → OnTimeline K S sim → sim._physTimeBalance.Value ≤ 0 →
      (∀ d ∈ frames, ⌈d.Value / sim._physicsDt.Value⌉.toNat ≤ fuel) →
      ∃ s total,
        PhysicsUpdateFrames LerpInTime fuel frames sim = some (.ok (s, total)) ∧
        s._physicsDt.Value = sim._physicsDt.Value ∧
        OnTimeline (K + total) (S + (frames.map FloatTime.Value).sum) s ∧
        s._physTimeBalance.Value ≤ 0 := by
  intro frames
  induction frames with
  | nil =>
    intro sim K S fuel _ ht hb _
    refine ⟨sim, 0, rfl, rfl, ?_, hb⟩
    simpa using ht
  | cons d rest ih =>
    intro sim K S fuel hh ht hb hfuel
    have hc := loopConsistent_of_timeline d sim K S ht
    have hn : ⌈(sim._physTimeBalance.Value + d.Value) / sim._physicsDt.Value⌉.toNat ≤ fuel :=
      le_trans (ceil_toNat_le_of_nonpos _ _ _ hh hb) (hfuel d (List.mem_cons_self _ _))
    obtain ⟨s1, l1, hrun, hbal1, hdt1, hc1⟩ :=
      drain_spec d (AnimationUpdate d (InputsUpdate d sim)) hh hc
    have hrun1 : PhysicsUpdate_drain fuel d (AnimationUpdate d (InputsUpdate d sim))
        = some (.ok (s1, l1,
            ⌈(sim._physTimeBalance.Value + d.Value) / sim._physicsDt.Value⌉.toNat)) :=
      hrun fuel hn
    obtain ⟨_, _, hbv, hbt, hdtt, hpt, hvt, _⟩ := drain_frame fuel d _ s1 l1 _ hrun1
    have hdt : s1._physicsDt.Value = sim._physicsDt.Value := hdt1
    have hbv' : s1._physTimeBalance.Value = sim._physTimeBalance.Value + d.Value
        - (⌈(sim._physTimeBalance.Value + d.Value) / sim._physicsDt.Value⌉.toNat : ℚ)
          * sim._physicsDt.Value := hbv
    have hbt' : s1._physTimeBalance.Time = sim._physTimeBalance.Time
        + (⌈(sim._physTimeBalance.Value + d.Value) / sim._physicsDt.Value⌉.toNat : ℚ)
          * sim._physicsDt.Value := hbt
    have hdtt' : s1._physicsDt.Time = sim._physicsDt.Time
        + (⌈(sim._physTimeBalance.Value + d.Value) / sim._physicsDt.Value⌉.toNat : ℚ)
          * sim._physicsDt.Value := hdtt
    have hpt' : s1._carStateLatest.pos.Time = sim._carStateLatest.pos.Time
        + (⌈(sim._physTimeBalance.Value + d.Value) / sim._physicsDt.Value⌉.toNat : ℚ)
          * sim._physicsDt.Value := hpt
    have hvt' : s1._carStateLatest.vel.Time = sim._carStateLatest.vel.Time
        + (⌈(sim._physTimeBalance.Value + d.Value) / sim._physicsDt.Value⌉.toNat : ℚ)
          * sim._physicsDt.Value := hvt
    have hle := (ceil_toNat_least (sim._physTimeBalance.Value + d.Value)
      sim._physicsDt.Value hh).1
    generalize ⌈(sim._physTimeBalance.Value + d.Value) / sim._physicsDt.Value⌉.toNat = n
      at hrun1 hbv' hbt' hdtt' hpt' hvt' hle
    obtain ⟨cur, hfin⟩ := finish_ok LerpInTime hL s1 l1 n hc1.2.2.2.2.2.2
    obtain ⟨t1, t2, t3, t4, t5⟩ := ht
    have ht2 : OnTimeline (K + n) (S + d.Value) { s1 with _carStateCurrent := cur } := by
      refine ⟨?_, ?_, ?_, ?_, ?_⟩
      · show s1._physTimeBalance.Time = ((K + n : ℕ) : ℚ) * s1._physicsDt.Value
        rw [hbt', hdt, t1]; push_cast; ring
      · show s1._physicsDt.Time = ((K + n : ℕ) : ℚ) * s1._physicsDt.Value
        rw [hdtt', hdt, t2]; push_cast; ring
      · show s1._carStateLatest.pos.Time = ((K + n : ℕ) : ℚ) * s1._physicsDt.Value
        rw [hpt', hdt, t3]; push_cast; ring
      · show s1._carStateLatest.vel.Time = ((K + n : ℕ) : ℚ) * s1._physicsDt.Value
        rw [hvt', hdt, t4]; push_cast; ring
      · show s1._physTimeBalance.Value + s1._physicsDt.Time = S + d.Value
        rw [hbv', hdtt', ← t5]; ring
    have hh2 : 0 < ({ s1 with _carStateCurrent := cur } : GameSimulation)._physicsDt.Value := by
      show 0 < s1._physicsDt.Value
      rw [hdt]; exact hh
    have hb2 : ({ s1 with _carStateCurrent := cur } : GameSimulation)._physTimeBalance.Value
        ≤ 0 := by
      show s1._physTimeBalance.Value ≤ 0
      rw [hbv']; exact hle
    have hfuel2 : ∀ e ∈ rest, ⌈e.Value
        / ({ s1 with _carStateCurrent := cur } : GameSimulation)._physicsDt.Value⌉.toNat
        ≤ fuel := by
      intro e he
      show ⌈e.Value / s1._physicsDt.Value⌉.toNat ≤ fuel
      rw [hdt]
      exact hfuel e (List.mem_cons_of_mem _ he)
    obtain ⟨s, total, hrest, hsd, hst, hsb⟩ :=
      ih { s1 with _carStateCurrent := cur } (K + n) (S + d.Value) fuel hh2 ht2 hb2 hfuel2
    refine ⟨s, n + total, ?_, ?_, ?_, hsb⟩
    · rw [updateFrames_cons, hrun1]
      simp only []
      rw [hfin]
      simp only []
      rw [hrest]
    · rw [hsd]; exact hdt
    · have e1 : K + n + total = K + (n + total) := by omega
      have e2 : S + d.Value + (rest.map FloatTime.Value).sum
          = S + ((d :: rest).map FloatTime.Value).sum := by
        rw [List.map_cons, List.sum_cons]; ring
      rw [e1, e2] at hst
      exact hst

/-- `Init` on the member initialisers: it passes its one check exactly when the first frame
delta is stamped within `1e-4` of time `0`, and then only moves the camera position's timestamp
on by the first frame delta. -/
theorem init_startState (firstFrameDt : FloatTime) :
    Init firstFrameDt startState
      = if |0 - firstFrameDt.Time| < 1 / 10000
        then .ok { startState with _cameraPos := ⟨0, 0 + firstFrameDt.Value⟩ }
        else .error Fault.consistency := by
  unfold Init
  rw [finishedUpdate_eq]
  by_cases h : |0 - firstFrameDt.Time| < 1 / 10000
  · have h' : |startState._cameraPos.Time - firstFrameDt.Time| < 1 / 10000 := h
    rw [if_pos h, if_pos h']
    rfl
  · have h' : ¬ |startState._cameraPos.Time - firstFrameDt.Time| < 1 / 10000 := h
    rw [if_neg h, if_neg h']
    rfl

/-- The state that `Init` leaves is at the origin of the physics timeline, with the step
`1/64` and an empty balance. -/
theorem init_onTimeline (firstFrameDt : FloatTime) (s0 : GameSimulation)
    (hinit : Init firstFrameDt startState = .ok s0) :
    s0._physicsDt.Value = 1 / 64 ∧ OnTimeline 0 0 s0 ∧ s0._physTimeBalance.Value = 0 := by
  rw [init_startState] at hinit
  by_cases h : |0 - firstFrameDt.Time| < 1 / 10000
  · rw [if_pos h] at hinit
    cases hinit
    refine ⟨rfl, ⟨?_, ?_, ?_, ?_, ?_⟩, rfl⟩ <;>
    · simp only [startState, FloatTime.SimStartValue, FloatTime.Time, FloatTime.Value]
      norm_num
  · rw [if_neg h] at hinit
    cases hinit

theorem ceil_frame_60 : ⌈(1 / 60 : ℚ) / (1 / 64)⌉.toNat ≤ 2 := by
  have h : ⌈(1 / 60 : ℚ) / (1 / 64)⌉ ≤ 2 := Int.ceil_le.2 (by norm_num)
  omega

/-- Every run of `PhysicsUpdate` calls with non-negative frame deltas that ends without fault
ends with the balance in `(-h, 0]` and the step unchanged. -/
theorem updateFrames_balance (LerpInTime : FloatTime → FloatTime → ℚ → Except Fault FloatTime) :
    ∀ (frames : List FloatTime) (sim : GameSimulation) (fuel : Nat) (s : GameSimulation)
      (total : Nat),
      0 < sim._physicsDt.Value → -sim._physicsDt.Value < sim._physTimeBalance.Value →
      (∀ d ∈ frames, 0 ≤ d.Value) →
      PhysicsUpdateFrames LerpInTime fuel frames sim = some (.ok (s, total)) →
      -sim._physicsDt.Value < s._physTimeBalance.Value ∧
      s._physicsDt.Value = sim._physicsDt.Value := by
  intro frames
  induction frames with
  | nil =>
    intro sim fuel s total _ hb1 _ hrun
    have h : (sim, 0) = (s, total) := Except.ok.inj (Option.some.inj hrun)
    cases h
    exact ⟨hb1, rfl⟩
  | cons d rest ih =>
    intro sim fuel s total hh hb1 hD hrun
    have hd0 : 0 ≤ d.Value := hD d (List.mem_cons_self _ _)
    rw [updateFrames_cons] at hrun
    cases hdr : PhysicsUpdate_drain fuel d (AnimationUpdate d (InputsUpdate d sim)) with
    | none => rw [hdr] at hrun; cases hrun
    | some r =>
      cases r with
      | error f => rw [hdr] at hrun; cases hrun
      | ok t =>
        obtain ⟨s1, l1, n⟩ := t
        rw [hdr] at hrun
        simp only [] at hrun
        cases hfin : PhysicsUpdate_finish LerpInTime s1 l1 n with
        | error f => rw [hfin] at hrun; cases hrun
        | ok s2 =>
          rw [hfin] at hrun
          simp only [] at hrun
          cases hrest : PhysicsUpdateFrames LerpInTime fuel rest s2 with
          | none => rw [hrest] at hrun; cases hrun
          | some r2 =>
            cases r2 with
            | error f => rw [hrest] at hrun; cases hrun
            | ok t2 =>
              obtain ⟨s3, total2⟩ := t2
              rw [hrest] at hrun
              have h : (s3, n + total2) = (s, total) := Except.ok.inj (Option.some.inj hrun)
              cases h
              obtain ⟨_, hbal1, hdt1⟩ :=
                drain_result d (AnimationUpdate d (InputsUpdate d sim)) hh fuel s1 l1 n hdr
              have hbal : s1._physTimeBalance.Value = sim._physTimeBalance.Value + d.Value
                  - (⌈(sim._physTimeBalance.Value + d.Value)
                      / sim._physicsDt.Value⌉.toNat : ℚ) * sim._physicsDt.Value := hbal1
              have hdt : s1._physicsDt.Value = sim._physicsDt.Value := hdt1
              have hbd := residual_bounds (sim._physTimeBalance.Value + d.Value)
                sim._physicsDt.Value hh (by linarith)
              obtain ⟨cur, hs2⟩ := finish_fields LerpInTime s1 s2 l1 n hfin
              subst hs2
              have hh2 : 0 < ({ s1 with _carStateCurrent := cur } :
                  GameSimulation)._physicsDt.Value := by
                show 0 < s1._physicsDt.Value
                rw [hdt]; exact hh
              have hb2 : -({ s1 with _carStateCurrent := cur } :
                  GameSimulation)._physicsDt.Value
                  < ({ s1 with _carStateCurrent := cur } :
                    GameSimulation)._physTimeBalance.Value := by
                show -s1._physicsDt.Value < s1._physTimeBalance.Value
                rw [hdt, hbal]; exact hbd.1
              obtain ⟨h1, h2⟩ := ih _ fuel s total2 hh2 hb2
                (fun e he => hD e (List.mem_cons_of_mem _ he)) hrest
              have h1' : -s1._physicsDt.Value < s._physTimeBalance.Value := h1
              have h2' : s._physicsDt.Value = s1._physicsDt.Value := h2
              exact ⟨by rw [← hdt]; exact h1', by rw [h2', hdt]⟩

theorem startState_onTimeline : OnTimeline 0 0 startState := by
  refine ⟨?_, ?_, ?_, ?_, ?_⟩ <;>
  · simp only [startState, FloatTime.SimStartValue, FloatTime.Time, FloatTime.Value]
    norm_num

/-- Sixty-four frame deltas of `1/60` from the start state (step `1/64`, empty balance) make
`69` physics steps in all. -/
theorem frames_total_69 (LerpInTime : FloatTime → FloatTime → ℚ → Except Fault FloatTime)
    (hL : ∀ a b alpha, ∃ r, LerpInTime a b alpha = .ok r)
    (frames : List FloatTime) (hlen : frames.length = 64)
    (hval : ∀ d ∈ frames, d.Value = 1 / 60) (fuel : Nat) (hfuel : 2 ≤ fuel) :
    ∃ s, PhysicsUpdateFrames LerpInTime fuel frames startState = some (.ok (s, 69)) := by
  have hh : 0 < startState._physicsDt.Value := by
    show (0 : ℚ) < 1 / 64
    norm_num
  have hf : ∀ d ∈ frames, ⌈d.Value / startState._physicsDt.Value⌉.toNat ≤ fuel := by
    intro d hd
    rw [hval d hd]
    exact le_trans ceil_frame_60 hfuel
  obtain ⟨s, total, hrun, hsd, ⟨_, t2, _, _, t5⟩, hle⟩ :=
    updateFrames_timeline LerpInTime hL frames startState 0 0 fuel hh startState_onTimeline
      (le_refl _) hf
  have hD : ∀ d ∈ frames, 0 ≤ d.Value := by
    intro d hd
    rw [hval d hd]; norm_num
  obtain ⟨hlo, _⟩ := updateFrames_balance LerpInTime frames startState fuel s total hh
    (by show -(1 / 64 : ℚ) < 0; norm_num) hD hrun
  have hsum : (frames.map FloatTime.Value).sum = 64 * (1 / 60) := by
    have hrep : frames.map FloatTime.Value = List.replicate 64 (1 / 60 : ℚ) := by
      rw [List.eq_replicate_iff]
      refine ⟨by rw [List.length_map, hlen], ?_⟩
      intro b hb
      obtain ⟨d, hd, rfl⟩ := List.mem_map.1 hb
      exact hval d hd
    rw [hrep, List.sum_replicate]
    norm_num
  have hstep : s._physicsDt.Value = 1 / 64 := hsd
  have hlo' : -(1 / 64 : ℚ) < s._physTimeBalance.Value := hlo
  rw [hstep] at t2
  rw [hsum, t2] at t5
  have e1 : (4096 : ℚ) ≤ (total : ℚ) * 60 := by
    push_cast at t5
    linarith
  have e2 : (total : ℚ) * 60 < 4156 := by
    push_cast at t5
    linarith
  have e1' : 4096 ≤ total * 60 := by exact_mod_cast e1
  have e2' : total * 60 < 4156 := by exact_mod_cast e2
  have ht : total = 69 := by omega
  subst ht
  exact ⟨s, hrun⟩

/-- C12 fails: with step `1/64`, the balance initially `0` and a frame delta of `1/60` on each
of 64 consecutive `PhysicsUpdate` calls, `69` physics steps are made in all, which is not within
`1` of `60`. -/
theorem sixty_four_frames_not_60 :
    startState._physTimeBalance.Value = 0 ∧ startState._physicsDt.Value = 1 / 64 ∧
    (∃ s, PhysicsUpdateFrames FloatTime.LerpInTime 2 (List.replicate 64 ⟨1 / 60, 0⟩) startState
      = some (.ok (s, 69))) ∧
    ¬ (59 ≤ 69 ∧ 69 ≤ 61) := by
  refine ⟨rfl, rfl, ?_, by omega⟩
  apply frames_total_69 FloatTime.LerpInTime (fun _ _ _ => ⟨_, rfl⟩) _ (List.length_replicate _ _)
  · intro d hd
    rw [List.eq_of_mem_replicate hd]
  · exact le_refl 2

/-- C12 (amended): with step `1/64`, the balance initially `0` and a frame delta of value `1/60`
on each of 64 consecutive `PhysicsUpdate` calls, the total number of physics steps made over the
64 frames is `69`, the least whole number of steps covering `64/60` seconds. -/
theorem steps_64_frames (LerpInTime : FloatTime → FloatTime → ℚ → Except Fault FloatTime)
    (hL : ∀ a b alpha, ∃ r, LerpInTime a b alpha = .ok r)
    (frames : List FloatTime) (hlen : frames.length = 64)
    (hval : ∀ d ∈ frames, d.Value = 1 / 60) (fuel : Nat) (hfuel : 2 ≤ fuel) :
    (∃ s, PhysicsUpdateFrames LerpInTime fuel frames startState = some (.ok (s, 69))) ∧
    ((69 : ℚ) - 1) * startState._physicsDt.Value < (frames.map FloatTime.Value).sum ∧
    (frames.map FloatTime.Value).sum ≤ (69 : ℚ) * startState._physicsDt.Value := by
  have hsum : (frames.map FloatTime.Value).sum = 64 * (1 / 60) := by
    have hrep : frames.map FloatTime.Value = List.replicate 64 (1 / 60 : ℚ) := by
      rw [List.eq_replicate_iff]
      refine ⟨by rw [List.length_map, hlen], ?_⟩
      intro b hb
      obtain ⟨d, hd, rfl⟩ := List.mem_map.1 hb
      exact hval d hd
    rw [hrep, List.sum_replicate]
    norm_num
  refine ⟨frames_total_69 LerpInTime hL frames hlen hval fuel hfuel, ?_, ?_⟩
  · rw [hsum]
    show ((69 : ℚ) - 1) * (1 / 64) < 64 * (1 / 60)
    norm_num
  · rw [hsum]
    show (64 : ℚ) * (1 / 60) ≤ 69 * (1 / 64)
    norm_num

theorem steps_64_frames_witness :
    ((∀ a b alpha, ∃ r, FloatTime.LerpInTime a b alpha = .ok r) ∧
     (List.replicate 64 (⟨1 / 60, 0⟩ : FloatTime)).length = 64 ∧
     (∀ d ∈ List.replicate 64 (⟨1 / 60, 0⟩ : FloatTime), d.Value = 1 / 60) ∧
     2 ≤ 3) ∧
    ∃ s, PhysicsUpdateFrames FloatTime.LerpInTime 3 (List.replicate 64 ⟨1 / 60, 0⟩) startState
      = some (.ok (s, 69)) :=
  have hL : ∀ a b alpha, ∃ r, FloatTime.LerpInTime a b alpha = .ok r :=
    fun _ _ _ => ⟨_, rfl⟩
  have hlen : (List.replicate 64 (⟨1 / 60, 0⟩ : FloatTime)).length = 64 :=
    List.length_replicate _ _
  have hval : ∀ d ∈ List.replicate 64 (⟨1 / 60, 0⟩ : FloatTime), d.Value = 1 / 60 := by
    intro d hd
    rw [List.eq_of_mem_replicate hd]
  ⟨⟨hL, hlen, hval, by omega⟩,
    (steps_64_frames FloatTime.LerpInTime hL _ hlen hval 3 (by omega)).1⟩

/-! ## `CameraUpdate` and `Update` -/

/-- Closed form of `CameraUpdate`.  With `T = frameDt.time + frameDt.value` the time to which
the camera's delta-time is advanced, the checks that can fail compare `T` with the timestamps of
`_carStateCurrent.pos` and `_carStateCurrent.vel`; when they pass, `_cameraDt` is the frame delta
at time `T` and `_cameraPos` ends at time `T + frameDt.value`. -/
theorem cameraUpdate_eq (frameDt : FloatTime) (sim : GameSimulation) :
    CameraUpdate frameDt sim
      = if |(frameDt.Time + frameDt.Value) - sim._carStateCurrent.pos.Time| < 1 / 10000 ∧
            |sim._carStateCurrent.vel.Time - (frameDt.Time + frameDt.Value)| < 1 / 10000
        then .ok { sim with
          _cameraDt := ⟨frameDt.Value, frameDt.Time + frameDt.Value⟩
          _cameraPos :=
            ⟨(if sim._inputVal.Time > sim._inputValLast.Time
                then (1 - 6 * frameDt.Value) * sim._cameraPos.Value
                    + 6 * frameDt.Value * sim._carStateCurrent.pos.Value
                    + (sim._inputVal.Value - sim._inputValLast.Value)
                      / (sim._inputVal.Time - sim._inputValLast.Time)
                else (1 - 6 * frameDt.Value) * sim._cameraPos.Value
                    + 6 * frameDt.Value * sim._carStateCurrent.pos.Value)
                - sim._carStateCurrent.vel.Value * (1 / 10),
              frameDt.Time + frameDt.Value + frameDt.Value⟩ }
        else .error Fault.consistency := by
  obtain ⟨lat, ⟨⟨cpv, cpt⟩, ⟨cvv, cvt⟩⟩, ⟨iv, it⟩, ⟨ilv, ilt⟩, an, bal, dt, cd, ⟨camv, camt⟩⟩ := sim
  obtain ⟨fv, ft⟩ := frameDt
  have h0 : (0 : ℚ) < 1 / 10000 := by norm_num
  by_cases c1 : |ft + fv - cpt| < 1 / 10000
  · by_cases c2 : |cvt - (ft + fv)| < 1 / 10000
    · have c2' : |ft + fv - cvt| < 1 / 10000 := by rw [abs_sub_comm]; exact c2
      by_cases hgt : it > ilt
      · have hnlt : ¬ it < ilt := not_lt.2 (le_of_lt hgt)
        simp only [CameraUpdate, advanceDtSelf_eq, lerp_eq, Vel, FloatTime.mul_eq,
          FloatTime.addAssign_eq, FloatTime.subAssign_eq, finishedUpdate_eq, FloatTime.mkFrom,
          FloatTime.Time, FloatTime.Value, sub_self, abs_zero, h0, c1, c2, c2', hgt, hnlt,
          bind, Except.bind, pure, Except.pure, and_self, if_true, if_false]
      · simp only [CameraUpdate, advanceDtSelf_eq, lerp_eq, Vel, FloatTime.mul_eq,
          FloatTime.addAssign_eq, FloatTime.subAssign_eq, finishedUpdate_eq, FloatTime.mkFrom,
          FloatTime.Time, FloatTime.Value, sub_self, abs_zero, h0, c1, c2, c2', hgt,
          bind, Except.bind, pure, Except.pure, and_self, if_true, if_false]
    · by_cases hgt : it > ilt
      · have hnlt : ¬ it < ilt := not_lt.2 (le_of_lt hgt)
        simp only [CameraUpdate, advanceDtSelf_eq, lerp_eq, Vel, FloatTime.mul_eq,
          FloatTime.addAssign_eq, FloatTime.subAssign_eq, finishedUpdate_eq, FloatTime.mkFrom,
          FloatTime.Time, FloatTime.Value, sub_self, abs_zero, h0, c1, c2, hgt, hnlt,
          bind, Except.bind, pure, Except.pure, and_self, and_false, if_true, if_false]
      · simp only [CameraUpdate, advanceDtSelf_eq, lerp_eq, Vel, FloatTime.mul_eq,
          FloatTime.addAssign_eq, FloatTime.subAssign_eq, finishedUpdate_eq, FloatTime.mkFrom,
          FloatTime.Time, FloatTime.Value, sub_self, abs_zero, h0, c1, c2, hgt,
          bind, Except.bind, pure, Except.pure, and_self, and_false, if_true, if_false]
  · simp only [CameraUpdate, advanceDtSelf_eq, lerp_eq, Vel, FloatTime.mul_eq,
      FloatTime.addAssign_eq, FloatTime.subAssign_eq, finishedUpdate_eq, FloatTime.mkFrom,
      FloatTime.Time, FloatTime.Value, sub_self, abs_zero, h0, c1,
      bind, Except.bind, pure, Except.pure, and_self, false_and, and_false, if_true, if_false]

theorem init_first : Init ⟨1 / 60, 0⟩ startState = .ok afterInit := by
  rw [init_startState, if_pos]
  · rfl
  · show |(0 : ℚ) - 0| < 1 / 10000
    norm_num

theorem afterInit_onTimeline : OnTimeline 0 0 afterInit :=
  (init_onTimeline _ _ init_first).2.1

/-- A bound on the number of passes that was enough stays enough when raised. -/
theorem drain_mono (frameDt : FloatTime) (sim : GameSimulation)
    (r : Except Fault (GameSimulation × CarState × Nat)) (fuel fuel1 : Nat)
    (hr : PhysicsUpdate_drain fuel frameDt sim = some r) (hle : fuel ≤ fuel1) :
    PhysicsUpdate_drain fuel1 frameDt sim = some r := by
  unfold PhysicsUpdate_drain at hr ⊢
  cases ha : PhysicsUpdate_accumulate frameDt sim with
  | error f => rw [ha] at hr; exact hr
  | ok sim1 =>
    rw [ha] at hr
    exact while_mono frameDt sim1 _ 0 r fuel hr fuel1 hle

/-- The drain loop of the first frame: two passes, ending in `afterFirstDrain`, with the state
after the first pass as `lastState`. -/
theorem drain_first_frame (fuel : Nat) (hfuel : 2 ≤ fuel) :
    PhysicsUpdate_drain fuel ⟨1 / 60, 0⟩
        (AnimationUpdate ⟨1 / 60, 0⟩ (InputsUpdate ⟨1 / 60, 0⟩ afterInit))
      = some (.ok (afterFirstDrain, ⟨⟨0, 1 / 64⟩, ⟨15 / 32, 1 / 64⟩⟩, 2)) := by
  have hc : LoopConsistent ⟨1 / 60, 0⟩
      (AnimationUpdate ⟨1 / 60, 0⟩ (InputsUpdate ⟨1 / 60, 0⟩ afterInit)) :=
    loopConsistent_of_timeline _ _ 0 0 afterInit_onTimeline
  have hc1 : LoopConsistent ⟨1 / 60, 0⟩
      { AnimationUpdate ⟨1 / 60, 0⟩ (InputsUpdate ⟨1 / 60, 0⟩ afterInit) with
        _physTimeBalance :=
          ⟨(AnimationUpdate ⟨1 / 60, 0⟩
              (InputsUpdate ⟨1 / 60, 0⟩ afterInit))._physTimeBalance.Value
            + (⟨1 / 60, 0⟩ : FloatTime).Value,
           (AnimationUpdate ⟨1 / 60, 0⟩
              (InputsUpdate ⟨1 / 60, 0⟩ afterInit))._physTimeBalance.Time⟩ } := hc
  have hc2 := afterBody_consistent _ _ hc1
  refine drain_mono _ _ _ 2 fuel ?_ hfuel
  unfold PhysicsUpdate_drain
  rw [accumulate_ok _ _ hc.2.2.2.2.2.2]
  simp only []
  rw [while_succ, if_pos, body_ok _ _ hc1]
  · simp only []
    rw [while_succ, if_pos, body_ok _ _ hc2]
    · simp only []
      rw [while_zero, if_neg]
      · simp only [afterBody, afterInit, afterFirstDrain, startState, InputsUpdate,
          AnimationUpdate, FloatTime.mkFrom, FloatTime.SimStartValue, FloatTime.Value,
          FloatTime.Time]
        norm_num
      · simp only [afterBody, afterInit, startState, InputsUpdate, AnimationUpdate,
          FloatTime.mkFrom, FloatTime.SimStartValue, FloatTime.Value, FloatTime.Time]
        norm_num
    · simp only [afterBody, afterInit, startState, InputsUpdate, AnimationUpdate,
        FloatTime.mkFrom, FloatTime.SimStartValue, FloatTime.Value, FloatTime.Time]
      norm_num
  · simp only [afterInit, startState, InputsUpdate, AnimationUpdate,
      FloatTime.mkFrom, FloatTime.SimStartValue, FloatTime.Value, FloatTime.Time]
    norm_num

/-- The first `Update( 1/60 @ 0 )` after `Init( 1/60 @ 0 )`, up to the two calls of
`LerpInTime`: the loop makes two steps, the fraction is `1/15`, and the camera runs on the
result of the interpolation. -/
theorem update_first_frame (LerpInTime : FloatTime → FloatTime → ℚ → Except Fault FloatTime)
    (fuel : Nat) (hfuel : 2 ≤ fuel) :
    Update LerpInTime fuel ⟨1 / 60, 0⟩ afterInit
      = some (match LerpInTime ⟨0, 1 / 64⟩ ⟨15 / 2048, 1 / 32⟩ (1 / 15) with
          | Except.error f => Except.error f
          | Except.ok pos =>
            match LerpInTime ⟨15 / 32, 1 / 64⟩ ⟨15 / 16, 1 / 32⟩ (1 / 15) with
            | Except.error f => Except.error f
            | Except.ok vel =>
              CameraUpdate ⟨1 / 60, 0⟩ { afterFirstDrain with _carStateCurrent := ⟨pos, vel⟩ }) := by
  have halpha : PhysicsUpdate_lerpAlpha afterFirstDrain = .ok (1 / 15) := by
    rw [lerpAlpha_eq]
    · simp only [afterFirstDrain, FloatTime.Value]
      norm_num
    · show |(1 / 32 : ℚ) - 1 / 32| < 1 / 10000
      norm_num
  unfold Update
  rw [physicsUpdate_eq, drain_first_frame fuel hfuel]
  simp only [PhysicsUpdate_finish]
  rw [if_pos (by omega : 2 > 0), halpha]
  simp only [bind, Except.bind]
  have e1 : afterFirstDrain._carStateLatest.pos = ⟨15 / 2048, 1 / 32⟩ := rfl
  have e2 : afterFirstDrain._carStateLatest.vel = ⟨15 / 16, 1 / 32⟩ := rfl
  rw [e1, e2]
  cases hp : LerpInTime ⟨0, 1 / 64⟩ ⟨15 / 2048, 1 / 32⟩ (1 / 15) with
  | error f => rfl
  | ok pos =>
    simp only []
    cases hv : LerpInTime ⟨15 / 32, 1 / 64⟩ ⟨15 / 16, 1 / 32⟩ (1 / 15) with
    | error f => rfl
    | ok vel => rfl

theorem run_first (LerpInTime : FloatTime → FloatTime → ℚ → Except Fault FloatTime)
    (fuel : Nat) (frames : List FloatTime) :
    Run LerpInTime fuel ⟨1 / 60, 0⟩ frames = UpdateFrames LerpInTime fuel frames afterInit := by
  unfold Run
  rw [init_first]

theorem updateFrames_step (LerpInTime : FloatTime → FloatTime → ℚ → Except Fault FloatTime)
    (fuel : Nat) (frameDt : FloatTime) (rest : List FloatTime) (sim : GameSimulation) :
    UpdateFrames LerpInTime fuel (frameDt :: rest) sim
      = (match Update LerpInTime fuel frameDt sim with
        | none => none
        | some (Except.error f) => some (Except.error f)
        | some (Except.ok sim1) => UpdateFrames LerpInTime fuel rest sim1) := rfl

theorem updateFrames_nil (LerpInTime : FloatTime → FloatTime → ℚ → Except Fault FloatTime)
    (fuel : Nat) (sim : GameSimulation) :
    UpdateFrames LerpInTime fuel [] sim = some (.ok sim) := rfl

/-- The first frame of a session with frame delta `1/60`, for an interpolation that puts the
"current" state at time `1/60`: no fault; the camera's delta-time ends at time `1/60` and the
camera position one camera step later, at `1/30`. -/
theorem run_first_frame (LerpInTime : FloatTime → FloatTime → ℚ → Except Fault FloatTime)
    (vp vv : ℚ)
    (hp : LerpInTime ⟨0, 1 / 64⟩ ⟨15 / 2048, 1 / 32⟩ (1 / 15) = .ok ⟨vp, 1 / 60⟩)
    (hv : LerpInTime ⟨15 / 32, 1 / 64⟩ ⟨15 / 16, 1 / 32⟩ (1 / 15) = .ok ⟨vv, 1 / 60⟩)
    (fuel : Nat) (hfuel : 2 ≤ fuel) :
    Run LerpInTime fuel ⟨1 / 60, 0⟩ [⟨1 / 60, 0⟩]
      = some (.ok { afterFirstDrain with
          _carStateCurrent := ⟨⟨vp, 1 / 60⟩, ⟨vv, 1 / 60⟩⟩
          _cameraDt := ⟨1 / 60, 1 / 60⟩
          _cameraPos := ⟨1 / 10 * vp - vv * (1 / 10), 1 / 30⟩ }) := by
  rw [run_first, updateFrames_step, update_first_frame LerpInTime fuel hfuel, hp, hv]
  simp only [MainUpdate]
  rw [cameraUpdate_eq, if_pos]
  · simp only []
    rw [updateFrames_nil]
    simp only [afterFirstDrain, FloatTime.Value, FloatTime.Time]
    norm_num
  · constructor
    · show |(0 : ℚ) + 1 / 60 - 1 / 60| < 1 / 10000
      norm_num
    · show |(1 / 60 : ℚ) - (0 + 1 / 60)| < 1 / 10000
      norm_num

/-- A frame of `1/200` stamped at `1/60` that finds a balance of at most `-1/200` makes no
physics step and leaves `_carStateCurrent` as it is; when that state is stamped within `1e-4` of
`1/60`, the camera, now at `1/60 + 1/200`, finds it out of date: the consistency fault. -/
theorem second_frame_fault (LerpInTime : FloatTime → FloatTime → ℚ → Except Fault FloatTime)
    (fuel : Nat) (sim : GameSimulation)
    (hbal : sim._physTimeBalance.Value + 1 / 200 ≤ 0)
    (hbt : |sim._physTimeBalance.Time - sim._physicsDt.Time| < 1 / 10000)
    (hcl : |0 + 1 / 60 - sim._carStateCurrent.pos.Time| < 1 / 10000) :
    Update LerpInTime fuel ⟨1 / 200, 1 / 60⟩ sim = some (.error Fault.consistency) := by
  unfold Update
  rw [physicsUpdate_no_pass, if_pos]
  · simp only [MainUpdate]
    rw [cameraUpdate_eq, if_neg]
    intro hc
    have h1 : |(1 / 60 : ℚ) + 1 / 200 - sim._carStateCurrent.pos.Time| < 1 / 10000 := hc.1
    rw [abs_lt] at h1 hcl
    linarith [h1.1, h1.2, hcl.1, hcl.2]
  · exact hbt
  · exact hbal

/-- What a `CameraUpdate` that returns has checked and written: `_carStateCurrent.pos` was
stamped within `1e-4` of the advanced camera time; only `_cameraDt` and `_cameraPos` are written;
the camera position ends one camera step after the advanced camera time. -/
theorem camera_ok_fields (frameDt : FloatTime) (sim s : GameSimulation)
    (h : CameraUpdate frameDt sim = .ok s) :
    |(frameDt.Time + frameDt.Value) - sim._carStateCurrent.pos.Time| < 1 / 10000 ∧
    s._carStateCurrent = sim._carStateCurrent ∧
    s._physTimeBalance = sim._physTimeBalance ∧ s._physicsDt = sim._physicsDt ∧
    s._cameraDt = ⟨frameDt.Value, frameDt.Time + frameDt.Value⟩ ∧
    s._cameraPos.Time = frameDt.Time + frameDt.Value + frameDt.Value := by
  rw [cameraUpdate_eq] at h
  by_cases hc : |(frameDt.Time + frameDt.Value) - sim._carStateCurrent.pos.Time| < 1 / 10000 ∧
      |sim._carStateCurrent.vel.Time - (frameDt.Time + frameDt.Value)| < 1 / 10000
  · rw [if_pos hc] at h
    cases h
    exact ⟨hc.1, rfl, rfl, rfl, rfl, rfl⟩
  · rw [if_neg hc] at h
    cases h

/-- The only fault `CameraUpdate` raises is the consistency fault. -/
theorem camera_error (frameDt : FloatTime) (sim : GameSimulation) (f : Fault)
    (h : CameraUpdate frameDt sim = .error f) : f = Fault.consistency := by
  rw [cameraUpdate_eq] at h
  by_cases hc : |(frameDt.Time + frameDt.Value) - sim._carStateCurrent.pos.Time| < 1 / 10000 ∧
      |sim._carStateCurrent.vel.Time - (frameDt.Time + frameDt.Value)| < 1 / 10000
  · rw [if_pos hc] at h
    cases h
  · rw [if_neg hc] at h
    cases h
    rfl

/-- The session `Init( 1/60 @ 0 )`, `Update( 1/60 @ 0 )`, `Update( 1/200 @ 1/60 )` ends in a
fault whatever the interpolation returns; when the interpolation raises none, it is the
consistency fault. -/
theorem run_two_frames (LerpInTime : FloatTime → FloatTime → ℚ → Except Fault FloatTime) :
    (∃ f, Run LerpInTime 2 ⟨1 / 60, 0⟩ [⟨1 / 60, 0⟩, ⟨1 / 200, 1 / 60⟩] = some (.error f)) ∧
    ((∃ pos vel, LerpInTime ⟨0, 1 / 64⟩ ⟨15 / 2048, 1 / 32⟩ (1 / 15) = .ok pos ∧
        LerpInTime ⟨15 / 32, 1 / 64⟩ ⟨15 / 16, 1 / 32⟩ (1 / 15) = .ok vel) →
      Run LerpInTime 2 ⟨1 / 60, 0⟩ [⟨1 / 60, 0⟩, ⟨1 / 200, 1 / 60⟩]
        = some (.error Fault.consistency)) := by
  have key : ∀ pos vel, LerpInTime ⟨0, 1 / 64⟩ ⟨15 / 2048, 1 / 32⟩ (1 / 15) = .ok pos →
      LerpInTime ⟨15 / 32, 1 / 64⟩ ⟨15 / 16, 1 / 32⟩ (1 / 15) = .ok vel →
      Run LerpInTime 2 ⟨1 / 60, 0⟩ [⟨1 / 60, 0⟩, ⟨1 / 200, 1 / 60⟩]
        = some (.error Fault.consistency) := by
    intro pos vel hp hv
    rw [run_first, updateFrames_step, update_first_frame LerpInTime 2 (le_refl 2), hp, hv]
    simp only [MainUpdate]
    cases hcam : CameraUpdate ⟨1 / 60, 0⟩
        { afterFirstDrain with _carStateCurrent := ⟨pos, vel⟩ } with
    | error f =>
      rw [camera_error _ _ f hcam]
    | ok sC =>
      simp only []
      obtain ⟨hcl, hcur, hb, hd, _, _⟩ := camera_ok_fields _ _ sC hcam
      rw [updateFrames_step, second_frame_fault LerpInTime 2 sC]
      · rw [hb]
        show -(7 / 480 : ℚ) + 1 / 200 ≤ 0
        norm_num
      · rw [hb, hd]
        show |(1 / 32 : ℚ) - 1 / 32| < 1 / 10000
        norm_num
      · rw [hcur]
        exact hcl
  constructor
  · cases hp : LerpInTime ⟨0, 1 / 64⟩ ⟨15 / 2048, 1 / 32⟩ (1 / 15) with
    | error f =>
      refine ⟨f, ?_⟩
      rw [run_first, updateFrames_step, update_first_frame LerpInTime 2 (le_refl 2), hp]
    | ok pos =>
      cases hv : LerpInTime ⟨15 / 32, 1 / 64⟩ ⟨15 / 16, 1 / 32⟩ (1 / 15) with
      | error f =>
        refine ⟨f, ?_⟩
        rw [run_first, updateFrames_step, update_first_frame LerpInTime 2 (le_refl 2), hp, hv]
      | ok vel => exact ⟨Fault.consistency, key pos vel hp hv⟩
  · rintro ⟨pos, vel, hp, hv⟩
    exact key pos vel hp hv

/-- Whatever the interpolation returns, a first frame `Update( 1/60 @ 0 )` that raises no fault
leaves the camera's delta-time at time `1/60` and the camera position at time `1/30`. -/
theorem run_first_frame_times (LerpInTime : FloatTime → FloatTime → ℚ → Except Fault FloatTime)
    (fuel : Nat) (hfuel : 2 ≤ fuel) (s : GameSimulation)
    (hrun : Run LerpInTime fuel ⟨1 / 60, 0⟩ [⟨1 / 60, 0⟩] = some (.ok s)) :
    s._cameraDt.Time = 1 / 60 ∧ s._cameraPos.Time = 1 / 30 := by
  rw [run_first, updateFrames_step, update_first_frame LerpInTime fuel hfuel] at hrun
  cases hp : LerpInTime ⟨0, 1 / 64⟩ ⟨15 / 2048, 1 / 32⟩ (1 / 15) with
  | error f => rw [hp] at hrun; cases hrun
  | ok pos =>
    rw [hp] at hrun
    simp only [] at hrun
    cases hv : LerpInTime ⟨15 / 32, 1 / 64⟩ ⟨15 / 16, 1 / 32⟩ (1 / 15) with
    | error f => rw [hv] at hrun; cases hrun
    | ok vel =>
      rw [hv] at hrun
      simp only [] at hrun
      cases hcam : CameraUpdate ⟨1 / 60, 0⟩
          { afterFirstDrain with _carStateCurrent := ⟨pos, vel⟩ } with
      | error f => rw [hcam] at hrun; cases hrun
      | ok sC =>
        rw [hcam] at hrun
        simp only [] at hrun
        rw [updateFrames_nil] at hrun
        have hs : sC = s := Except.ok.inj (Option.some.inj hrun)
        subst hs
        obtain ⟨_, _, _, _, hcd, hcp⟩ := camera_ok_fields _ _ sC hcam
        constructor
        · rw [hcd]
          show (0 : ℚ) + 1 / 60 = 1 / 60
          norm_num
        · rw [hcp]
          show (0 : ℚ) + 1 / 60 + 1 / 60 = 1 / 30
          norm_num

/-- C13 fails on the code: the well-formed session `Init( 1/60 @ 0 )`, `Update( 1/60 @ 0 )`,
`Update( 1/200 @ 1/60 )` (positive frame deltas, each stamped at the sum of the deltas before it)
passes its first frame and raises the consistency fault in the camera phase of the second, in
which no physics step is made; and it ends in a fault whatever `LerpInTime` returns. -/
theorem update_faults_on_idle_frame :
    ((⟨1 / 200, 1 / 60⟩ : FloatTime).Time
        = (⟨1 / 60, 0⟩ : FloatTime).Time + (⟨1 / 60, 0⟩ : FloatTime).Value ∧
      0 < (⟨1 / 60, 0⟩ : FloatTime).Value ∧ 0 < (⟨1 / 200, 1 / 60⟩ : FloatTime).Value) ∧
    (∃ s, Run FloatTime.LerpInTime 2 ⟨1 / 60, 0⟩ [⟨1 / 60, 0⟩] = some (.ok s)) ∧
    Run FloatTime.LerpInTime 2 ⟨1 / 60, 0⟩ [⟨1 / 60, 0⟩, ⟨1 / 200, 1 / 60⟩]
      = some (.error Fault.consistency) ∧
    (∀ LerpInTime : FloatTime → FloatTime → ℚ → Except Fault FloatTime,
      ∃ f, Run LerpInTime 2 ⟨1 / 60, 0⟩ [⟨1 / 60, 0⟩, ⟨1 / 200, 1 / 60⟩] = some (.error f)) := by
  have hp : FloatTime.LerpInTime ⟨0, 1 / 64⟩ ⟨15 / 2048, 1 / 32⟩ (1 / 15)
      = .ok ⟨1 / 2048, 1 / 60⟩ := by
    simp only [FloatTime.LerpInTime, FloatTime.Value, FloatTime.Time]
    norm_num
  have hv : FloatTime.LerpInTime ⟨15 / 32, 1 / 64⟩ ⟨15 / 16, 1 / 32⟩ (1 / 15)
      = .ok ⟨1 / 2, 1 / 60⟩ := by
    simp only [FloatTime.LerpInTime, FloatTime.Value, FloatTime.Time]
    norm_num
  refine ⟨⟨?_, ?_, ?_⟩, ?_, ?_, ?_⟩
  · show (1 / 60 : ℚ) = 0 + 1 / 60
    norm_num
  · show (0 : ℚ) < 1 / 60
    norm_num
  · show (0 : ℚ) < 1 / 200
    norm_num
  · exact ⟨_, run_first_frame FloatTime.LerpInTime _ _ hp hv 2 (le_refl 2)⟩
  · exact (run_two_frames FloatTime.LerpInTime).2 ⟨_, _, hp, hv⟩
  · intro L
    exact (run_two_frames L).1

/-- C15 fails: after `Init( 1/60 @ 0 )` and one `Update( 1/60 @ 0 )` no fault has occurred, the
camera's delta-time has been advanced to time `1/60`, and the camera position is stamped `1/30`,
which is not the advanced time of the camera's delta-time; and whatever `LerpInTime` returns,
a first `Update` that raises no fault leaves these two timestamps different. -/
theorem camera_time_not_chain_time :
    Run FloatTime.LerpInTime 2 ⟨1 / 60, 0⟩ [⟨1 / 60, 0⟩]
      = some (.ok { afterFirstDrain with
          _carStateCurrent := ⟨⟨1 / 2048, 1 / 60⟩, ⟨1 / 2, 1 / 60⟩⟩
          _cameraDt := ⟨1 / 60, 1 / 60⟩
          _cameraPos := ⟨-(1023 / 20480), 1 / 30⟩ }) ∧
    ({ afterFirstDrain with
          _carStateCurrent := ⟨⟨1 / 2048, 1 / 60⟩, ⟨1 / 2, 1 / 60⟩⟩
          _cameraDt := ⟨1 / 60, 1 / 60⟩
          _cameraPos := ⟨-(1023 / 20480), 1 / 30⟩ } : GameSimulation)._cameraPos.Time
      ≠ ({ afterFirstDrain with
          _carStateCurrent := ⟨⟨1 / 2048, 1 / 60⟩, ⟨1 / 2, 1 / 60⟩⟩
          _cameraDt := ⟨1 / 60, 1 / 60⟩
          _cameraPos := ⟨-(1023 / 20480), 1 / 30⟩ } : GameSimulation)._cameraDt.Time ∧
    (∀ (LerpInTime : FloatTime → FloatTime → ℚ → Except Fault FloatTime) (s : GameSimulation),
      Run LerpInTime 2 ⟨1 / 60, 0⟩ [⟨1 / 60, 0⟩] = some (.ok s) →
      s._cameraPos.Time ≠ s._cameraDt.Time) := by
  have hp : FloatTime.LerpInTime ⟨0, 1 / 64⟩ ⟨15 / 2048, 1 / 32⟩ (1 / 15)
      = .ok ⟨1 / 2048, 1 / 60⟩ := by
    simp only [FloatTime.LerpInTime, FloatTime.Value, FloatTime.Time]
    norm_num
  have hv : FloatTime.LerpInTime ⟨15 / 32, 1 / 64⟩ ⟨15 / 16, 1 / 32⟩ (1 / 15)
      = .ok ⟨1 / 2, 1 / 60⟩ := by
    simp only [FloatTime.LerpInTime, FloatTime.Value, FloatTime.Time]
    norm_num
  refine ⟨?_, ?_, ?_⟩
  · rw [run_first_frame FloatTime.LerpInTime _ _ hp hv 2 (le_refl 2)]
    norm_num
  · show (1 / 30 : ℚ) ≠ 1 / 60
    norm_num
  · intro L s hrun
    obtain ⟨h1, h2⟩ := run_first_frame_times L 2 (le_refl 2) s hrun
    rw [h1, h2]
    norm_num

/-- C15 (amended): after `Init( 1/60 @ 0 )` and one `Update( 1/60 @ 0 )`, with an interpolation
that blends the timestamps, no fault has occurred; the camera's delta-time holds `1/60` and has
been advanced to time `1/60`; the camera position's timestamp is that advanced time plus the
camera delta, `1/30`, and differs from the input frame time `0`. -/
theorem camera_first_update (LerpInTime : FloatTime → FloatTime → ℚ → Except Fault FloatTime)
    (hL : BlendsTime LerpInTime) (fuel : Nat) (hfuel : 2 ≤ fuel) :
    ∃ s, Run LerpInTime fuel ⟨1 / 60, 0⟩ [⟨1 / 60, 0⟩] = some (.ok s) ∧
      s._cameraDt.Value = 1 / 60 ∧ s._cameraDt.Time = 1 / 60 ∧
      s._cameraPos.Time = s._cameraDt.Time + s._cameraDt.Value ∧
      s._cameraPos.Time = 1 / 30 ∧
      s._cameraPos.Time ≠ (⟨1 / 60, 0⟩ : FloatTime).Time := by
  obtain ⟨vp, hp⟩ := hL ⟨0, 1 / 64⟩ ⟨15 / 2048, 1 / 32⟩ (1 / 15)
  obtain ⟨vv, hv⟩ := hL ⟨15 / 32, 1 / 64⟩ ⟨15 / 16, 1 / 32⟩ (1 / 15)
  have e1 : (1 - 1 / 15 : ℚ) * (⟨0, 1 / 64⟩ : FloatTime).Time
      + 1 / 15 * (⟨15 / 2048, 1 / 32⟩ : FloatTime).Time = 1 / 60 := by
    show (1 - 1 / 15 : ℚ) * (1 / 64) + 1 / 15 * (1 / 32) = 1 / 60
    norm_num
  have e2 : (1 - 1 / 15 : ℚ) * (⟨15 / 32, 1 / 64⟩ : FloatTime).Time
      + 1 / 15 * (⟨15 / 16, 1 / 32⟩ : FloatTime).Time = 1 / 60 := by
    show (1 - 1 / 15 : ℚ) * (1 / 64) + 1 / 15 * (1 / 32) = 1 / 60
    norm_num
  rw [e1] at hp
  rw [e2] at hv
  refine ⟨_, run_first_frame LerpInTime vp vv hp hv fuel hfuel, rfl, rfl, ?_, rfl, ?_⟩
  · show (1 / 30 : ℚ) = 1 / 60 + 1 / 60
    norm_num
  · show (1 / 30 : ℚ) ≠ 0
    norm_num

theorem camera_first_update_witness :
    (BlendsTime FloatTime.LerpInTime ∧ 2 ≤ 2) ∧
    ∃ s, Run FloatTime.LerpInTime 2 ⟨1 / 60, 0⟩ [⟨1 / 60, 0⟩] = some (.ok s) ∧
      s._cameraDt.Value = 1 / 60 ∧ s._cameraDt.Time = 1 / 60 ∧
      s._cameraPos.Time = s._cameraDt.Time + s._cameraDt.Value ∧
      s._cameraPos.Time = 1 / 30 ∧
      s._cameraPos.Time ≠ (⟨1 / 60, 0⟩ : FloatTime).Time :=
  have hL : BlendsTime FloatTime.LerpInTime := fun _ _ _ => ⟨_, rfl⟩
  ⟨⟨hL, le_refl 2⟩, camera_first_update FloatTime.LerpInTime hL 2 (le_refl 2)⟩

end GameSimulation

/-! ## Binary32: the rounding function -/

theorem roundEven_intCast (n : ℤ) : roundEven (n : ℚ) = n := by
  unfold roundEven
  rw [Int.floor_intCast]
  simp

theorem floor_le_roundEven (q : ℚ) : ⌊q⌋ ≤ roundEven q := by
  unfold roundEven
  split_ifs <;> omega

theorem roundEven_le_floor_add_one (q : ℚ) : roundEven q ≤ ⌊q⌋ + 1 := by
  unfold roundEven
  split_ifs <;> omega

theorem le_roundEven_of_le (q : ℚ) (N : ℤ) (h : (N : ℚ) ≤ q) : N ≤ roundEven q :=
  le_trans (Int.le_floor.2 h) (floor_le_roundEven q)

theorem roundEven_le_of_le (q : ℚ) (N : ℤ) (h : q ≤ (N : ℚ)) : roundEven q ≤ N := by
  rcases eq_or_lt_of_le h with h1 | h1
  · rw [h1, roundEven_intCast]
  · have : ⌊q⌋ < N := Int.floor_lt.2 h1
    have := roundEven_le_floor_add_one q
    omega

theorem roundEven_mono {p q : ℚ} (h : p ≤ q) : roundEven p ≤ roundEven q := by
  have hfl : ⌊p⌋ ≤ ⌊q⌋ := Int.floor_mono h
  rcases eq_or_lt_of_le hfl with he | hl
  · unfold roundEven
    rw [he]
    have hpq : p - ⌊q⌋ ≤ q - ⌊q⌋ := by linarith
    split_ifs <;> first | omega | (exfalso; linarith)
  · have h1 := roundEven_le_floor_add_one p
    have h2 := floor_le_roundEven q
    omega

theorem roundEven_nonneg {q : ℚ} (h : 0 ≤ q) : 0 ≤ roundEven q :=
  le_roundEven_of_le q 0 (by simpa using h)

theorem log2_eq {x : ℚ} {e : ℤ} (hx : 0 < x) (h1 : (2 : ℚ) ^ e ≤ x) (h2 : x < (2 : ℚ) ^ (e + 1)) :
    Int.log 2 x = e := by
  have a : e ≤ Int.log 2 x := by
    rw [← Int.zpow_le_iff_le_log (by norm_num) hx]
    simpa using h1
  have b : Int.log 2 x < e + 1 := by
    rw [← Int.lt_zpow_iff_log_lt (by norm_num) hx]
    simpa using h2
  omega

theorem log2_le_self {x : ℚ} (hx : 0 < x) : (2 : ℚ) ^ Int.log 2 x ≤ x := by
  simpa using Int.zpow_log_le_self (b := 2) (by norm_num) hx

theorem self_lt_log2_succ (x : ℚ) : x < (2 : ℚ) ^ (Int.log 2 x + 1) := by
  simpa using Int.lt_zpow_succ_log_self (b := 2) (by norm_num) x

theorem log2_lt_of_lt {x : ℚ} {e : ℤ} (hx : 0 < x) (h : x < (2 : ℚ) ^ e) : Int.log 2 x < e := by
  rw [← Int.lt_zpow_iff_log_lt (by norm_num) hx]
  simpa using h

theorem le_log2_of_le {x : ℚ} {e : ℤ} (hx : 0 < x) (h : (2 : ℚ) ^ e ≤ x) : e ≤ Int.log 2 x := by
  rw [← Int.zpow_le_iff_le_log (by norm_num) hx]
  simpa using h

theorem two_zpow_pos (k : ℤ) : (0 : ℚ) < 2 ^ k := zpow_pos (by norm_num) k

/-- An integer power of two with a natural exponent, as the cast of an integer. -/
theorem two_zpow_natCast (n : ℕ) : (2 : ℚ) ^ (n : ℤ) = (((2 : ℤ) ^ n : ℤ) : ℚ) := by
  rw [zpow_natCast]; push_cast; rfl

theorem ulpExp_ge (x : ℚ) : -149 ≤ ulpExp x := le_max_right _ _

theorem ulpExp_ge_log (x : ℚ) : Int.log 2 x - 23 ≤ ulpExp x := le_max_left _ _

theorem ulpExp_mono {x y : ℚ} (hx : 0 < x) (h : x ≤ y) : ulpExp x ≤ ulpExp y :=
  max_le_max (sub_le_sub_right (Int.log_mono_right hx h) _) le_rfl

/-- The scaled magnitude stays below `2^24`. -/
theorem quot_lt (x : ℚ) : x / 2 ^ ulpExp x < 2 ^ (24 : ℤ) := by
  rw [div_lt_iff₀ (two_zpow_pos _), ← zpow_add₀ (by norm_num)]
  refine lt_of_lt_of_le (self_lt_log2_succ x) (zpow_le_zpow_right₀ (by norm_num) ?_)
  have := ulpExp_ge_log x
  omega

theorem roundEven_quot_le (x : ℚ) : roundEven (x / 2 ^ ulpExp x) ≤ 2 ^ 24 := by
  apply roundEven_le_of_le
  have := quot_lt x
  have h2 : (2 : ℚ) ^ (24 : ℤ) = (((2 ^ 24 : ℤ)) : ℚ) := by norm_num
  rw [h2] at this
  exact le_of_lt this

theorem flAbs_nonneg {x : ℚ} (hx : 0 ≤ x) : 0 ≤ flAbs x := by
  unfold flAbs
  apply mul_nonneg
  · exact_mod_cast roundEven_nonneg (div_nonneg hx (le_of_lt (two_zpow_pos _)))
  · exact le_of_lt (two_zpow_pos _)

theorem fl_zero : fl 0 = 0 := by simp [fl]

theorem fl_of_pos {x : ℚ} (h : 0 < x) : fl x = flAbs x := if_pos h

theorem fl_of_neg {x : ℚ} (h : x < 0) : fl x = -flAbs (-x) := by
  unfold fl; rw [if_neg (not_lt.2 h.le), if_pos h]

theorem fl_neg (x : ℚ) : fl (-x) = -fl x := by
  rcases lt_trichotomy x 0 with h | h | h
  · rw [fl_of_pos (neg_pos.2 h), fl_of_neg h, neg_neg]
  · subst h; simp [fl_zero]
  · rw [fl_of_neg (neg_neg_of_pos h), fl_of_pos h, neg_neg]

theorem fl_nonneg {x : ℚ} (h : 0 ≤ x) : 0 ≤ fl x := by
  rcases eq_or_lt_of_le h with h0 | h0
  · rw [← h0, fl_zero]
  · rw [fl_of_pos h0]; exact flAbs_nonneg h

theorem fl_nonpos {x : ℚ} (h : x ≤ 0) : fl x ≤ 0 := by
  have := fl_nonneg (neg_nonneg.2 h)
  rw [fl_neg] at this
  linarith

theorem flAbs_mono {x y : ℚ} (hx : 0 < x) (h : x ≤ y) : flAbs x ≤ flAbs y := by
  have hy : 0 < y := lt_of_lt_of_le hx h
  rcases eq_or_lt_of_le (ulpExp_mono hx h) with he | hl
  · unfold flAbs
    rw [he]
    apply mul_le_mul_of_nonneg_right _ (le_of_lt (two_zpow_pos _))
    exact_mod_cast roundEven_mono (div_le_div_of_nonneg_right h (le_of_lt (two_zpow_pos _)))
  · have hky : ulpExp y = Int.log 2 y - 23 := by
      have h149 := ulpExp_ge x
      unfold ulpExp at hl ⊢
      rcases max_cases (Int.log 2 y - 23) (-149) with ⟨h1, _⟩ | ⟨h1, _⟩
      · exact h1
      · rw [h1] at hl; omega
    have hlx := ulpExp_ge_log x
    -- the middle power of two
    have hmid1 : flAbs x ≤ 2 ^ (ulpExp y + 23) := by
      obtain ⟨n, hn⟩ := Int.eq_ofNat_of_zero_le (show 0 ≤ ulpExp y + 23 - ulpExp x by omega)
      have hq : x / 2 ^ ulpExp x ≤ (((2 : ℤ) ^ n : ℤ) : ℚ) := by
        rw [← two_zpow_natCast, ← hn, div_le_iff₀ (two_zpow_pos _), ← zpow_add₀ (by norm_num)]
        refine le_trans (le_of_lt (self_lt_log2_succ x)) (zpow_le_zpow_right₀ (by norm_num) ?_)
        omega
      have hr := roundEven_le_of_le _ _ hq
      unfold flAbs
      have hr2 : (roundEven (x / 2 ^ ulpExp x) : ℚ) ≤ (((2 : ℤ) ^ n : ℤ) : ℚ) := by exact_mod_cast hr
      calc (roundEven (x / 2 ^ ulpExp x) : ℚ) * 2 ^ ulpExp x
          ≤ (((2 : ℤ) ^ n : ℤ) : ℚ) * 2 ^ ulpExp x :=
            mul_le_mul_of_nonneg_right hr2 (le_of_lt (two_zpow_pos _))
        _ = 2 ^ (ulpExp y + 23) := by
            rw [← two_zpow_natCast, ← hn, ← zpow_add₀ (by norm_num)]
            congr 1; omega
    have hmid2 : (2 : ℚ) ^ (ulpExp y + 23) ≤ flAbs y := by
      have hq : (((2 : ℤ) ^ 23 : ℤ) : ℚ) ≤ y / 2 ^ ulpExp y := by
        rw [le_div_iff₀ (two_zpow_pos _)]
        have h23 : (((2 : ℤ) ^ 23 : ℤ) : ℚ) = (2 : ℚ) ^ (23 : ℤ) := by norm_num
        rw [h23, ← zpow_add₀ (by norm_num), hky]
        have : (23 : ℤ) + (Int.log 2 y - 23) = Int.log 2 y := by omega
        rw [this]
        exact log2_le_self hy
      have hr := le_roundEven_of_le _ _ hq
      have hr2 : (((2 : ℤ) ^ 23 : ℤ) : ℚ) ≤ (roundEven (y / 2 ^ ulpExp y) : ℚ) := by
        exact_mod_cast hr
      unfold flAbs
      calc (2 : ℚ) ^ (ulpExp y + 23) = (((2 : ℤ) ^ 23 : ℤ) : ℚ) * 2 ^ ulpExp y := by
            have h23 : (((2 : ℤ) ^ 23 : ℤ) : ℚ) = (2 : ℚ) ^ (23 : ℤ) := by norm_num
            rw [h23, ← zpow_add₀ (by norm_num)]
            congr 1; omega
        _ ≤ (roundEven (y / 2 ^ ulpExp y) : ℚ) * 2 ^ ulpExp y :=
            mul_le_mul_of_nonneg_right hr2 (le_of_lt (two_zpow_pos _))
    exact le_trans hmid1 hmid2

/-- Rounding is monotone. -/
theorem fl_mono {x y : ℚ} (h : x ≤ y) : fl x ≤ fl y := by
  rcases lt_trichotomy x 0 with hx | hx | hx
  · rcases lt_trichotomy y 0 with hy | hy | hy
    · rw [fl_of_neg hx, fl_of_neg hy]
      have := flAbs_mono (neg_pos.2 hy) (neg_le_neg h)
      linarith
    · subst hy; rw [fl_zero]; exact fl_nonpos hx.le
    · exact le_trans (fl_nonpos hx.le) (fl_nonneg hy.le)
  · subst hx; rw [fl_zero]; exact fl_nonneg h
  · have hy : 0 < y := lt_of_lt_of_le hx h
    rw [fl_of_pos hx, fl_of_pos hy]
    exact flAbs_mono hx h

/-- A positive integer below `2^24` scaled by a power of two within the exponent range is a
binary32 number: rounding leaves it alone. -/
theorem fl_repr_pos (m k : ℤ) (hk : -149 ≤ k) (hm0 : 0 < m) (hm : m < 2 ^ 24) :
    fl ((m : ℚ) * 2 ^ k) = (m : ℚ) * 2 ^ k := by
  have hmq : (0 : ℚ) < m := by exact_mod_cast hm0
  have hx : (0 : ℚ) < (m : ℚ) * 2 ^ k := mul_pos hmq (two_zpow_pos k)
  have hlt : (m : ℚ) * 2 ^ k < 2 ^ (24 + k) := by
    rw [zpow_add₀ (by norm_num)]
    apply mul_lt_mul_of_pos_right _ (two_zpow_pos k)
    have : (m : ℚ) < ((2 ^ 24 : ℤ) : ℚ) := by exact_mod_cast hm
    norm_num at this ⊢
    exact this
  have hlog := log2_lt_of_lt hx hlt
  have hk2 : ulpExp ((m : ℚ) * 2 ^ k) ≤ k := by
    unfold ulpExp
    apply max_le <;> omega
  obtain ⟨n, hn⟩ := Int.eq_ofNat_of_zero_le (show 0 ≤ k - ulpExp ((m : ℚ) * 2 ^ k) by omega)
  have hq : (m : ℚ) * 2 ^ k / 2 ^ ulpExp ((m : ℚ) * 2 ^ k) = ((m * 2 ^ n : ℤ) : ℚ) := by
    rw [mul_div_assoc, ← zpow_sub₀ (by norm_num), hn, zpow_natCast]
    push_cast; rfl
  rw [fl_of_pos hx]
  unfold flAbs
  rw [hq, roundEven_intCast]
  push_cast
  rw [← zpow_natCast, ← hn, mul_assoc, ← zpow_add₀ (by norm_num)]
  congr 2; omega

theorem fl_repr (m k : ℤ) (hk : -149 ≤ k) (hm : |m| < 2 ^ 24) :
    fl ((m : ℚ) * 2 ^ k) = (m : ℚ) * 2 ^ k := by
  rcases lt_trichotomy m 0 with h | h | h
  · have h1 : 0 < -m := by omega
    have h2 : -m < 2 ^ 24 := by rw [abs_of_neg h] at hm; exact hm
    have := fl_repr_pos (-m) k hk h1 h2
    push_cast at this
    rw [neg_mul, fl_neg] at this
    linarith
  · subst h; simp [fl_zero]
  · rw [abs_of_pos h] at hm
    exact fl_repr_pos m k hk h hm

/-- Rounding a rounded number changes nothing. -/
theorem fl_idem_pos {x : ℚ} (hx : 0 < x) : fl (flAbs x) = flAbs x := by
  have hle := roundEven_quot_le x
  have h0 := roundEven_nonneg (div_nonneg hx.le (le_of_lt (two_zpow_pos (ulpExp x))))
  have hk := ulpExp_ge x
  unfold flAbs
  rcases eq_or_lt_of_le hle with he | hl
  · rw [he]
    have : (((2 ^ 24 : ℤ)) : ℚ) * 2 ^ ulpExp x = (((2 ^ 23 : ℤ)) : ℚ) * 2 ^ (ulpExp x + 1) := by
      rw [zpow_add₀ (by norm_num)]; norm_num; ring
    rw [this]
    exact fl_repr_pos _ _ (by omega) (by norm_num) (by norm_num)
  · rcases eq_or_lt_of_le h0 with hz | hp
    · rw [← hz]; simp [fl_zero]
    · exact fl_repr_pos _ _ hk hp hl

theorem fl_idem (x : ℚ) : fl (fl x) = fl x := by
  rcases lt_trichotomy x 0 with h | h | h
  · rw [fl_of_neg h, fl_neg, fl_idem_pos (neg_pos.2 h)]
  · subst h; rw [fl_zero, fl_zero]
  · rw [fl_of_pos h, fl_idem_pos h]

/-- A binary32 number is its significand times its unit in the last place. -/
theorem repr_pos_form {x : ℚ} (hx : 0 < x) (hr : fl x = x) :
    x = (roundEven (x / 2 ^ ulpExp x) : ℚ) * 2 ^ ulpExp x := by
  rw [fl_of_pos hx] at hr
  exact hr.symm

/-- Below `2^18` a binary32 number that is at least `1/64` loses exactly `1/64` under the
rounded subtraction. -/
theorem fl_sub_step {x : ℚ} (hr : fl x = x) (h1 : 1 / 64 ≤ x) (h2 : x < 2 ^ 18) :
    fl (x - 1 / 64) = x - 1 / 64 := by
  have hx : 0 < x := by linarith
  have hl1 : -6 ≤ Int.log 2 x := le_log2_of_le hx (by norm_num; linarith)
  have hl2 : Int.log 2 x < 18 := log2_lt_of_lt hx (by norm_num; linarith)
  have hk : ulpExp x = Int.log 2 x - 23 := by
    unfold ulpExp; apply max_eq_left; omega
  have hform := repr_pos_form hx hr
  obtain ⟨j, hj⟩ := Int.eq_ofNat_of_zero_le (show 0 ≤ -6 - ulpExp x by omega)
  have hn := roundEven_quot_le x
  have hsub : x - 1 / 64 = ((roundEven (x / 2 ^ ulpExp x) - 2 ^ j : ℤ) : ℚ) * 2 ^ ulpExp x := by
    push_cast
    rw [sub_mul, ← hform, ← zpow_natCast, ← hj, ← zpow_add₀ (by norm_num)]
    have : -6 - ulpExp x + ulpExp x = -6 := by omega
    rw [this]; norm_num
  rcases eq_or_lt_of_le h1 with he | hgt
  · rw [← he]; norm_num [fl_zero]
  · rw [hsub]
    apply fl_repr_pos _ _ (ulpExp_ge x)
    · have : (0 : ℚ) < ((roundEven (x / 2 ^ ulpExp x) - 2 ^ j : ℤ) : ℚ) * 2 ^ ulpExp x := by
        rw [← hsub]; linarith
      have h3 := (pos_iff_pos_of_mul_pos this).2 (two_zpow_pos _)
      exact_mod_cast h3
    · have : (0 : ℤ) < 2 ^ j := by positivity
      omega

/-- Rounding in the normal range, by the exponent of the unit in the last place. -/
theorem fl_normal (x : ℚ) (k : ℤ) (hk : -149 ≤ k) (h1 : (2 : ℚ) ^ (k + 23) ≤ x)
    (h2 : x < (2 : ℚ) ^ (k + 24)) : fl x = (roundEven (x / 2 ^ k) : ℚ) * 2 ^ k := by
  have hx : 0 < x := lt_of_lt_of_le (two_zpow_pos _) h1
  have hlog : Int.log 2 x = k + 23 := log2_eq hx h1 (by rw [show k + 23 + 1 = k + 24 by omega]; exact h2)
  have hu : ulpExp x = k := by
    unfold ulpExp; rw [hlog, show k + 23 - 23 = k by omega]; exact max_eq_left hk
  rw [fl_of_pos hx]; unfold flAbs; rw [hu]

theorem roundEven_eval (q : ℚ) (f : ℤ) (h1 : (f : ℚ) ≤ q) (h2 : q < f + 1) :
    roundEven q = if q - f < 1 / 2 then f else if 1 / 2 < q - f then f + 1
      else if f % 2 = 0 then f else f + 1 := by
  have hf : ⌊q⌋ = f := Int.floor_eq_iff.2 ⟨h1, h2⟩
  unfold roundEven; rw [hf]

/-- Evaluation of the rounding at a given positive number in the normal range: `k` is the
exponent of the unit in the last place, `f` the integer part of the scaled number and `r` the
significand chosen. -/
theorem fl_eval (x : ℚ) (k f r : ℤ) (hk : -149 ≤ k) (h1 : (2 : ℚ) ^ (k + 23) ≤ x)
    (h2 : x < (2 : ℚ) ^ (k + 24)) (hf1 : (f : ℚ) ≤ x / 2 ^ k) (hf2 : x / 2 ^ k < f + 1)
    (hr : (if x / 2 ^ k - f < 1 / 2 then f else if 1 / 2 < x / 2 ^ k - f then f + 1
      else if f % 2 = 0 then f else f + 1) = r) : fl x = (r : ℚ) * 2 ^ k := by
  rw [fl_normal x k hk h1 h2, roundEven_eval _ f hf1 hf2, hr]

/-! ## Binary32: the consistency check and the operators -/

theorem eps32_eq : eps32 = 13743895 / 137438953472 := by
  unfold eps32
  rw [fl_eval (1 / 10000) (-37) 13743895 13743895 (by norm_num) (by norm_num) (by norm_num)
    (by norm_num) (by norm_num) (by norm_num)]
  norm_num

theorem eps32_pos : 0 < eps32 := by rw [eps32_eq]; norm_num

theorem checkConsistency32_eq (a b : FloatTime) :
    CheckConsistency32 a b
      = if |fl (a.Time - b.Time)| < eps32 then .ok () else .error Fault.consistency := by
  unfold CheckConsistency32 ApproxEqual32
  by_cases h : |fl (a.Time - b.Time)| < eps32
  · rw [if_pos h, if_pos (decide_eq_true h)]
  · rw [if_neg h, if_neg (fun hc => h (of_decide_eq_true hc))]

/-- Equal timestamps pass the binary32 test. -/
theorem near32_of_eq {s t : ℚ} (h : s = t) : |fl (s - t)| < eps32 := by
  rw [h, sub_self, fl_zero, abs_zero]; exact eps32_pos

theorem binop32_eq (f : ℚ → ℚ → ℚ) (a b : FloatTime) :
    (do CheckConsistency32 a b; pure (⟨f a._value b._value, a._time⟩ : FloatTime)
        : Except Fault FloatTime)
      = if |fl (a.Time - b.Time)| < eps32 then .ok ⟨f a._value b._value, a._time⟩
        else .error Fault.consistency := by
  rw [checkConsistency32_eq]
  by_cases h : |fl (a.Time - b.Time)| < eps32
  · rw [if_pos h, if_pos h]; rfl
  · rw [if_neg h, if_neg h]; rfl

namespace FloatTime

theorem add32_eq (a b : FloatTime) :
    a.add32 b = if |fl (a.Time - b.Time)| < eps32 then .ok ⟨fl (a.Value + b.Value), a.Time⟩
      else .error Fault.consistency := binop32_eq (fun x y => fl (x + y)) a b

theorem sub32_eq (a b : FloatTime) :
    a.sub32 b = if |fl (a.Time - b.Time)| < eps32 then .ok ⟨fl (a.Value - b.Value), a.Time⟩
      else .error Fault.consistency := binop32_eq (fun x y => fl (x - y)) a b

theorem mul32_eq (a b : FloatTime) :
    a.mul32 b = if |fl (a.Time - b.Time)| < eps32 then .ok ⟨fl (a.Value * b.Value), a.Time⟩
      else .error Fault.consistency := binop32_eq (fun x y => fl (x * y)) a b

theorem div32_eq (a b : FloatTime) :
    a.div32 b = if |fl (a.Time - b.Time)| < eps32 then .ok ⟨fl (a.Value / b.Value), a.Time⟩
      else .error Fault.consistency := binop32_eq (fun x y => fl (x / y)) a b

theorem addAssign32_eq (a b : FloatTime) :
    a.addAssign32 b = if |fl (a.Time - b.Time)| < eps32 then .ok ⟨fl (a.Value + b.Value), a.Time⟩
      else .error Fault.consistency := binop32_eq (fun x y => fl (x + y)) a b

theorem subAssign32_eq (a b : FloatTime) :
    a.subAssign32 b = if |fl (a.Time - b.Time)| < eps32 then .ok ⟨fl (a.Value - b.Value), a.Time⟩
      else .error Fault.consistency := binop32_eq (fun x y => fl (x - y)) a b

end FloatTime

/-- `Integrate` in binary32 as a cascade of its three distinct checks. -/
theorem integrate32_eq (self rateOfChange dt : FloatTime) :
    self.Integrate32 rateOfChange dt =
      if |fl (self.Time - rateOfChange.Time)| < eps32 then
        if |fl (self.Time - dt.Time)| < eps32 then
          if |fl (rateOfChange.Time - dt.Time)| < eps32 then
            .ok ⟨fl (self.Value + fl (rateOfChange.Value * dt.Value)), fl (self.Time + dt.Value)⟩
          else .error Fault.consistency
        else .error Fault.consistency
      else .error Fault.consistency := by
  by_cases h1 : |fl (self.Time - rateOfChange.Time)| < eps32 <;>
  by_cases h2 : |fl (self.Time - dt.Time)| < eps32 <;>
  by_cases h3 : |fl (rateOfChange.Time - dt.Time)| < eps32 <;>
  simp only [FloatTime.Integrate32, checkConsistency32_eq, FloatTime.mul32_eq,
    FloatTime.addAssign32_eq, FloatTime.Time, FloatTime.Value, h1, h2, h3, if_true, if_false,
    bind, Except.bind, pure, Except.pure]

theorem finishedUpdate32_eq (a dt : FloatTime) :
    a.FinishedUpdate32 dt = if |fl (a.Time - dt.Time)| < eps32
      then .ok ⟨a.Value, fl (a.Time + dt.Value)⟩ else .error Fault.consistency := by
  unfold FloatTime.FinishedUpdate32
  rw [checkConsistency32_eq]
  by_cases h : |fl (a.Time - dt.Time)| < eps32
  · rw [if_pos h, if_pos h]; rfl
  · rw [if_neg h, if_neg h]; rfl

/-- The rounded difference changes sign with the order of its operands, so the test of
`ApproxEqual` does not depend on the order. -/
theorem near32_comm (s t : ℚ) : |fl (s - t)| = |fl (t - s)| := by
  rw [← neg_sub t s, fl_neg, abs_neg]

theorem advanceDt32_eq (io_dt newDt : FloatTime) :
    AdvanceDt32 io_dt newDt = if |fl (io_dt.Time - newDt.Time)| < eps32
      then .ok ⟨newDt.Value, fl (newDt.Time + io_dt.Value)⟩ else .error Fault.consistency := by
  unfold AdvanceDt32
  rw [checkConsistency32_eq]
  by_cases h : |fl (io_dt.Time - newDt.Time)| < eps32
  · have h' : |fl (newDt.Time - io_dt.Time)| < eps32 := by rw [near32_comm]; exact h
    rw [if_pos h, if_pos h]
    show newDt.FinishedUpdate32 io_dt = _
    rw [finishedUpdate32_eq, if_pos h']
  · rw [if_neg h, if_neg h]; rfl

namespace GameSimulation

theorem loopConsistent32_of_synced {frameDt : FloatTime} {sim : GameSimulation}
    (h : Synced frameDt sim) : LoopConsistent32 frameDt sim := by
  obtain ⟨h1, h2, h3, h4, h5⟩ := h
  exact ⟨near32_of_eq h1, near32_of_eq h2, near32_of_eq h4.symm, near32_of_eq (h4.trans h5.symm),
    near32_of_eq h4, near32_of_eq h5, near32_of_eq h3⟩

/-- One loop pass in binary32: `afterBody32` when the timestamps pass the tests, the consistency
fault otherwise. -/
theorem body32_eq (frameDt : FloatTime) (sim : GameSimulation) :
    PhysicsUpdate_body32 frameDt sim
      = if LoopConsistent32 frameDt sim then .ok (afterBody32 sim)
        else .error Fault.consistency := by
  obtain ⟨⟨⟨pv, pt⟩, ⟨vv, vt⟩⟩, cur, ⟨iv, it⟩, il, ⟨av, at_⟩, ⟨bv, bt⟩, ⟨h, dtt⟩, cd, cp⟩ := sim
  obtain ⟨fv, ft⟩ := frameDt
  have h0 : |fl (dtt - dtt)| < eps32 := near32_of_eq rfl
  by_cases h1 : |fl (at_ - ft)| < eps32 <;>
  by_cases h2 : |fl (it - ft)| < eps32 <;>
  by_cases h3 : |fl (dtt - pt)| < eps32 <;>
  by_cases h4 : |fl (pt - vt)| < eps32 <;>
  by_cases h5 : |fl (pt - dtt)| < eps32 <;>
  by_cases h6 : |fl (vt - dtt)| < eps32 <;>
  by_cases h7 : |fl (bt - dtt)| < eps32 <;>
  simp only [PhysicsUpdate_body32, PhysicsUpdateStep32, LoopConsistent32, afterBody32,
      checkConsistency32_eq, integrate32_eq, finishedUpdate32_eq, advanceDt32_eq,
      FloatTime.sub32_eq, FloatTime.add32_eq,
      FloatTime.subAssign32_eq, FloatTime.mkFrom, FloatTime.Time, FloatTime.Value,
      h0, h1, h2, h3, h4, h5, h6, h7, bind, Except.bind, pure, Except.pure,
      if_true, if_false, and_self, and_true, true_and, and_false, false_and]

theorem afterBody32_synced (frameDt : FloatTime) (sim : GameSimulation)
    (hc : Synced frameDt sim) : Synced frameDt (afterBody32 sim) := by
  obtain ⟨h1, h2, h3, h4, h5⟩ := hc
  refine ⟨h1, h2, ?_, ?_, ?_⟩
  · show fl (sim._physTimeBalance.Time + _) = fl (sim._physicsDt.Time + _); rw [h3]
  · show fl (sim._carStateLatest.pos.Time + _) = fl (sim._physicsDt.Time + _); rw [h4]
  · show fl (sim._carStateLatest.vel.Time + _) = fl (sim._physicsDt.Time + _); rw [h5]

theorem while32_zero (frameDt : FloatTime) (sim : GameSimulation) (lastState : CarState)
    (stepCount : Nat) :
    PhysicsUpdate_while32 0 frameDt sim lastState stepCount
      = if sim._physTimeBalance.Value > 0 then none
        else some (.ok (sim, lastState, stepCount)) := rfl

theorem while32_succ (fuel : Nat) (frameDt : FloatTime) (sim : GameSimulation)
    (lastState : CarState) (stepCount : Nat) :
    PhysicsUpdate_while32 (fuel + 1) frameDt sim lastState stepCount
      = if sim._physTimeBalance.Value > 0 then
          match PhysicsUpdate_body32 frameDt sim with
          | .error f => some (.error f)
          | .ok sim1 =>
            PhysicsUpdate_while32 fuel frameDt sim1 sim._carStateLatest (stepCount + 1)
        else some (.ok (sim, lastState, stepCount)) := rfl

end GameSimulation

/-! ## Binary32: the drain loop -/

namespace GameSimulation

/-- Numbers that rounding leaves alone, for the constants of the loop. -/
theorem fl_step : fl (1 / 64) = 1 / 64 := by
  have := fl_repr 1 (-6) (by norm_num) (by norm_num)
  norm_num at this ⊢
  exact this

theorem fl_one : fl 1 = 1 := by
  have := fl_repr 1 0 (by norm_num) (by norm_num)
  norm_num at this ⊢
  exact this

/-- Arithmetic of one loop pass at the step `1/64`, from a positive binary32 balance `x` below
`2^18`: the new balance is again a binary32 number below `2^18`, one pass fewer is needed from
it, and the balance left at the end is the same. -/
theorem pass32 (x : ℚ) (hr : fl x = x) (hx : 0 < x) (h2 : x < 2 ^ 18) :
    fl (x - 1 / 64) < 2 ^ 18 ∧
    ⌈x / (1 / 64)⌉.toNat = ⌈fl (x - 1 / 64) / (1 / 64)⌉.toNat + 1 ∧
    fl (fl (x - 1 / 64) - (⌈fl (x - 1 / 64) / (1 / 64)⌉.toNat : ℚ) * (1 / 64))
      = fl (x - ((⌈fl (x - 1 / 64) / (1 / 64)⌉.toNat + 1 : ℕ) : ℚ) * (1 / 64)) := by
  have hle : fl (x - 1 / 64) ≤ x := by
    have := fl_mono (show x - 1 / 64 ≤ x by linarith)
    rw [hr] at this; exact this
  refine ⟨lt_of_le_of_lt hle h2, ?_, ?_⟩
  · by_cases h1 : 1 / 64 ≤ x
    · rw [fl_sub_step hr h1 h2]
      exact ceil_toNat_step x (1 / 64) (by norm_num) hx
    · have hneg : fl (x - 1 / 64) ≤ 0 := fl_nonpos (by linarith)
      rw [ceil_toNat_of_nonpos _ _ (by norm_num) hneg]
      have h3 : ⌈x / (1 / 64)⌉ = 1 := by
        rw [Int.ceil_eq_iff]
        constructor
        · have : 0 < x / (1 / 64) := div_pos hx (by norm_num)
          simpa using this
        · rw [div_le_iff₀ (by norm_num)]
          push_cast
          linarith
      rw [h3]; rfl
  · by_cases h1 : 1 / 64 ≤ x
    · rw [fl_sub_step hr h1 h2]
      congr 1
      push_cast
      ring
    · have hneg : fl (x - 1 / 64) ≤ 0 := fl_nonpos (by linarith)
      rw [ceil_toNat_of_nonpos _ _ (by norm_num) hneg]
      simp only [Nat.cast_zero, zero_mul, sub_zero, Nat.zero_add, Nat.cast_one, one_mul]
      exact fl_idem _

/-- Every run of the binary32 loop at the step `1/64` that ends without fault, from a binary32
balance `x` below `2^18`, has made `⌈x / h⌉` passes and leaves the balance `fl (x - n * h)`. -/
theorem while32_result (frameDt : FloatTime) :
    ∀ (fuel : Nat) (sim : GameSimulation) (lastState : CarState) (stepCount : Nat)
      (sim1 : GameSimulation) (lastState1 : CarState) (m : Nat),
      sim._physicsDt.Value = 1 / 64 →
      fl sim._physTimeBalance.Value = sim._physTimeBalance.Value →
      sim._physTimeBalance.Value < 2 ^ 18 →
      PhysicsUpdate_while32 fuel frameDt sim lastState stepCount
        = some (.ok (sim1, lastState1, m)) →
      m = stepCount + ⌈sim._physTimeBalance.Value / (1 / 64)⌉.toNat ∧
      sim1._physTimeBalance.Value = fl (sim._physTimeBalance.Value
        - (⌈sim._physTimeBalance.Value / (1 / 64)⌉.toNat : ℚ) * (1 / 64)) ∧
      sim1._physicsDt.Value = 1 / 64 := by
  intro fuel
  induction fuel with
  | zero =>
    intro sim lastState stepCount sim1 lastState1 m hh hr h2 hrun
    rw [while32_zero] at hrun
    by_cases hx : sim._physTimeBalance.Value > 0
    · rw [if_pos hx] at hrun; cases hrun
    · rw [if_neg hx] at hrun
      have hn := ceil_toNat_of_nonpos _ (1 / 64) (by norm_num) (not_lt.1 hx)
      rw [hn]
      cases hrun
      refine ⟨rfl, ?_, hh⟩
      simp only [Nat.cast_zero, zero_mul, sub_zero]
      exact hr.symm
  | succ k ih =>
    intro sim lastState stepCount sim1 lastState1 m hh hr h2 hrun
    rw [while32_succ] at hrun
    by_cases hx : sim._physTimeBalance.Value > 0
    · rw [if_pos hx, body32_eq] at hrun
      by_cases hc : LoopConsistent32 frameDt sim
      · rw [if_pos hc] at hrun
        simp only [] at hrun
        have hbal : (afterBody32 sim)._physTimeBalance.Value
            = fl (sim._physTimeBalance.Value - 1 / 64) := by
          show fl (sim._physTimeBalance.Value - sim._physicsDt.Value) = _
          rw [hh]
        have hdt : (afterBody32 sim)._physicsDt.Value = 1 / 64 := hh
        obtain ⟨p1, p2, p3⟩ := pass32 _ hr hx h2
        obtain ⟨hm, hb, hd⟩ := ih (afterBody32 sim) sim._carStateLatest (stepCount + 1)
          sim1 lastState1 m hdt (by rw [hbal]; exact fl_idem _) (by rw [hbal]; exact p1) hrun
        rw [hbal] at hm hb
        refine ⟨?_, ?_, hd⟩
        · rw [p2, hm]; omega
        · rw [hb, p3, p2]
      · rw [if_neg hc] at hrun
        cases hrun
    · rw [if_neg hx] at hrun
      have hn := ceil_toNat_of_nonpos _ (1 / 64) (by norm_num) (not_lt.1 hx)
      rw [hn]
      cases hrun
      refine ⟨rfl, ?_, hh⟩
      simp only [Nat.cast_zero, zero_mul, sub_zero]
      exact hr.symm

/-- The binary32 loop at the step `1/64`, from a binary32 balance `x` below `2^18`, ends once the
bound allows `⌈x / h⌉` passes: with a result or with the consistency fault. -/
theorem while32_total (frameDt : FloatTime) :
    ∀ (fuel : Nat) (sim : GameSimulation) (lastState : CarState) (stepCount : Nat),
      sim._physicsDt.Value = 1 / 64 →
      fl sim._physTimeBalance.Value = sim._physTimeBalance.Value →
      sim._physTimeBalance.Value < 2 ^ 18 →
      ⌈sim._physTimeBalance.Value / (1 / 64)⌉.toNat ≤ fuel →
      (∃ sim1 lastState1 m, PhysicsUpdate_while32 fuel frameDt sim lastState stepCount
        = some (.ok (sim1, lastState1, m))) ∨
      PhysicsUpdate_while32 fuel frameDt sim lastState stepCount
        = some (.error Fault.consistency) := by
  intro fuel
  induction fuel with
  | zero =>
    intro sim lastState stepCount hh hr h2 hf
    have hx : ¬ sim._physTimeBalance.Value > 0 := by
      intro hx
      have := ceil_toNat_step _ (1 / 64) (by norm_num) hx
      omega
    left
    exact ⟨sim, lastState, stepCount, by rw [while32_zero, if_neg hx]⟩
  | succ k ih =>
    intro sim lastState stepCount hh hr h2 hf
    rw [while32_succ]
    by_cases hx : sim._physTimeBalance.Value > 0
    · rw [if_pos hx, body32_eq]
      by_cases hc : LoopConsistent32 frameDt sim
      · rw [if_pos hc]
        simp only []
        have hbal : (afterBody32 sim)._physTimeBalance.Value
            = fl (sim._physTimeBalance.Value - 1 / 64) := by
          show fl (sim._physTimeBalance.Value - sim._physicsDt.Value) = _
          rw [hh]
        have hdt : (afterBody32 sim)._physicsDt.Value = 1 / 64 := hh
        obtain ⟨p1, p2, _⟩ := pass32 _ hr hx h2
        exact ih (afterBody32 sim) sim._carStateLatest (stepCount + 1) hdt
          (by rw [hbal]; exact fl_idem _) (by rw [hbal]; exact p1) (by rw [hbal]; omega)
      · rw [if_neg hc]
        right; rfl
    · rw [if_neg hx]
      left
      exact ⟨sim, lastState, stepCount, rfl⟩

/-- The clock of a chain after one more step. -/
theorem chainTime32_succ (v : ℚ) (n : Nat) (t0 : ℚ) :
    chainTime32 v (n + 1) t0 = chainTime32 v n (fl (t0 + v)) := rfl

/-- From synchronised timestamps the binary32 loop raises no fault, keeps the timestamps
synchronised and moves the physics clock on by one rounded addition of the step per pass. -/
theorem while32_synced (frameDt : FloatTime) :
    ∀ (fuel : Nat) (sim : GameSimulation) (lastState : CarState) (stepCount : Nat)
      (r : Except Fault (GameSimulation × CarState × Nat)),
      Synced frameDt sim →
      PhysicsUpdate_while32 fuel frameDt sim lastState stepCount = some r →
      ∃ sim1 lastState1 j, r = .ok (sim1, lastState1, stepCount + j) ∧ Synced frameDt sim1 ∧
        sim1._physicsDt.Time = chainTime32 sim._physicsDt.Value j sim._physicsDt.Time := by
  intro fuel
  induction fuel with
  | zero =>
    intro sim lastState stepCount r hs hrun
    rw [while32_zero] at hrun
    by_cases hx : sim._physTimeBalance.Value > 0
    · rw [if_pos hx] at hrun; cases hrun
    · rw [if_neg hx] at hrun
      cases hrun
      exact ⟨sim, lastState, 0, rfl, hs, rfl⟩
  | succ k ih =>
    intro sim lastState stepCount r hs hrun
    rw [while32_succ] at hrun
    by_cases hx : sim._physTimeBalance.Value > 0
    · rw [if_pos hx, body32_eq, if_pos (loopConsistent32_of_synced hs)] at hrun
      simp only [] at hrun
      obtain ⟨sim1, last1, j, hr, hs1, ht⟩ := ih (afterBody32 sim) sim._carStateLatest
        (stepCount + 1) r (afterBody32_synced frameDt sim hs) hrun
      refine ⟨sim1, last1, j + 1, ?_, hs1, ?_⟩
      · rw [hr, Nat.add_assoc, Nat.add_comm 1 j]
      · rw [ht, chainTime32_succ]; rfl
    · rw [if_neg hx] at hrun
      cases hrun
      exact ⟨sim, lastState, 0, rfl, hs, rfl⟩

/-- The physics clock at the step `1/64` is exact below `2^24` steps. -/
theorem chainTime32_step : ∀ (j K : Nat), K + j < 2 ^ 24 →
    chainTime32 (1 / 64) j ((K : ℚ) * (1 / 64)) = ((K + j : ℕ) : ℚ) * (1 / 64) := by
  intro j
  induction j with
  | zero => intro K _; rfl
  | succ j ih =>
    intro K hK
    rw [chainTime32_succ]
    have h1 : (K : ℚ) * (1 / 64) + 1 / 64 = (((K + 1 : ℕ) : ℤ) : ℚ) * 2 ^ (-6 : ℤ) := by
      push_cast; norm_num; ring
    have h2 : fl ((K : ℚ) * (1 / 64) + 1 / 64) = ((K + 1 : ℕ) : ℚ) * (1 / 64) := by
      rw [h1, fl_repr _ _ (by norm_num) (by rw [abs_of_nonneg (by positivity)]; omega)]
      push_cast; norm_num
    rw [h2, ih (K + 1) (by omega)]
    congr 2; omega

/-- The bounds of the balance that any rounding keeps: a run of the binary32 loop that ends
without fault leaves a balance `<= 0` and the step unchanged; the balance is `>= -h` as soon as
a pass was made or the balance was `>= -h` on entry. -/
theorem while32_bounds (frameDt : FloatTime) (h : ℚ) (hrep : fl h = h) :
    ∀ (fuel : Nat) (sim : GameSimulation) (lastState : CarState) (stepCount : Nat)
      (sim1 : GameSimulation) (lastState1 : CarState) (m : Nat),
      sim._physicsDt.Value = h →
      PhysicsUpdate_while32 fuel frameDt sim lastState stepCount
        = some (.ok (sim1, lastState1, m)) →
      sim1._physTimeBalance.Value ≤ 0 ∧ sim1._physicsDt.Value = h ∧ stepCount ≤ m ∧
      (stepCount < m ∨ -h ≤ sim._physTimeBalance.Value → -h ≤ sim1._physTimeBalance.Value) := by
  intro fuel
  induction fuel with
  | zero =>
    intro sim lastState stepCount sim1 lastState1 m hd hrun
    rw [while32_zero] at hrun
    by_cases hx : sim._physTimeBalance.Value > 0
    · rw [if_pos hx] at hrun; cases hrun
    · rw [if_neg hx] at hrun
      cases hrun
      refine ⟨not_lt.1 hx, hd, le_refl _, ?_⟩
      rintro (hc | hc)
      · omega
      · exact hc
  | succ k ih =>
    intro sim lastState stepCount sim1 lastState1 m hd hrun
    rw [while32_succ] at hrun
    by_cases hx : sim._physTimeBalance.Value > 0
    · rw [if_pos hx, body32_eq] at hrun
      by_cases hc : LoopConsistent32 frameDt sim
      · rw [if_pos hc] at hrun
        simp only [] at hrun
        have hdt : (afterBody32 sim)._physicsDt.Value = h := hd
        have hbal : -h ≤ (afterBody32 sim)._physTimeBalance.Value := by
          show -h ≤ fl (sim._physTimeBalance.Value - sim._physicsDt.Value)
          rw [hd]
          have := fl_mono (show -h ≤ sim._physTimeBalance.Value - h by linarith)
          rw [fl_neg, hrep] at this
          exact this
        obtain ⟨h1, h2, h3, h4⟩ := ih (afterBody32 sim) sim._carStateLatest (stepCount + 1)
          sim1 lastState1 m hdt hrun
        exact ⟨h1, h2, by omega, fun _ => h4 (Or.inr hbal)⟩
      · rw [if_neg hc] at hrun
        cases hrun
    · rw [if_neg hx] at hrun
      cases hrun
      refine ⟨not_lt.1 hx, hd, le_refl _, ?_⟩
      rintro (hc | hc)
      · omega
      · exact hc

end GameSimulation

/-! ## Binary32: accumulate-and-drain, the fraction, runs of frames -/

namespace GameSimulation

theorem accumulate32_eq (frameDt : FloatTime) (sim : GameSimulation) :
    PhysicsUpdate_accumulate32 frameDt sim
      = if |fl (sim._physTimeBalance.Time - sim._physicsDt.Time)| < eps32
        then .ok { sim with _physTimeBalance :=
          ⟨fl (sim._physTimeBalance.Value + frameDt.Value), sim._physTimeBalance.Time⟩ }
        else .error Fault.consistency := by
  unfold PhysicsUpdate_accumulate32
  rw [FloatTime.addAssign32_eq]
  by_cases h : |fl (sim._physTimeBalance.Time - sim._physicsDt.Time)| < eps32
  · have h' : |fl (sim._physTimeBalance.Time
        - (FloatTime.mkFrom frameDt.Value sim._physicsDt).Time)| < eps32 := h
    rw [if_pos h, if_pos h']; rfl
  · have h' : ¬ |fl (sim._physTimeBalance.Time
        - (FloatTime.mkFrom frameDt.Value sim._physicsDt).Time)| < eps32 := h
    rw [if_neg h, if_neg h']; rfl

/-- Accumulate-and-drain in binary32 as the loop run on the accumulated balance. -/
theorem drain32_eq (fuel : Nat) (frameDt : FloatTime) (sim : GameSimulation) :
    PhysicsUpdate_drain32 fuel frameDt sim
      = if |fl (sim._physTimeBalance.Time - sim._physicsDt.Time)| < eps32
        then PhysicsUpdate_while32 fuel frameDt { sim with _physTimeBalance :=
            ⟨fl (sim._physTimeBalance.Value + frameDt.Value), sim._physTimeBalance.Time⟩ }
          sim._carStateLatest 0
        else some (.error Fault.consistency) := by
  unfold PhysicsUpdate_drain32
  rw [accumulate32_eq]
  by_cases h : |fl (sim._physTimeBalance.Time - sim._physicsDt.Time)| < eps32
  · rw [if_pos h, if_pos h]
  · rw [if_neg h, if_neg h]

/-- Every binary32 accumulate-and-drain at the step `1/64` that ends without fault, the rounded
sum `x0 = fl (b + D)` being below `2^18`, has made `⌈x0 / h⌉` passes and leaves the balance
`fl (x0 - n * h)`. -/
theorem drain32_result (frameDt : FloatTime) (sim : GameSimulation)
    (hh : sim._physicsDt.Value = 1 / 64)
    (hx : fl (sim._physTimeBalance.Value + frameDt.Value) < 2 ^ 18)
    (fuel : Nat) (sim1 : GameSimulation) (lastState1 : CarState) (m : Nat)
    (hrun : PhysicsUpdate_drain32 fuel frameDt sim = some (.ok (sim1, lastState1, m))) :
    m = ⌈fl (sim._physTimeBalance.Value + frameDt.Value) / (1 / 64)⌉.toNat ∧
    sim1._physTimeBalance.Value = fl (fl (sim._physTimeBalance.Value + frameDt.Value)
      - (⌈fl (sim._physTimeBalance.Value + frameDt.Value) / (1 / 64)⌉.toNat : ℚ) * (1 / 64)) ∧
    sim1._physicsDt.Value = 1 / 64 := by
  rw [drain32_eq] at hrun
  by_cases hbt : |fl (sim._physTimeBalance.Time - sim._physicsDt.Time)| < eps32
  · rw [if_pos hbt] at hrun
    obtain ⟨hm, hb, hd⟩ := while32_result frameDt fuel
      { sim with _physTimeBalance :=
        ⟨fl (sim._physTimeBalance.Value + frameDt.Value), sim._physTimeBalance.Time⟩ }
      sim._carStateLatest 0 sim1 lastState1 m hh (fl_idem _) hx hrun
    rw [Nat.zero_add] at hm
    exact ⟨hm, hb, hd⟩
  · rw [if_neg hbt] at hrun
    cases hrun

/-- Binary32 accumulate-and-drain at the step `1/64`, the rounded sum `x0 = fl (b + D)` being
below `2^18`, ends once the bound allows `⌈x0 / h⌉` passes: with that many passes made, or with
the consistency fault. -/
theorem drain32_total (frameDt : FloatTime) (sim : GameSimulation)
    (hh : sim._physicsDt.Value = 1 / 64)
    (hx : fl (sim._physTimeBalance.Value + frameDt.Value) < 2 ^ 18)
    (fuel : Nat)
    (hf : ⌈fl (sim._physTimeBalance.Value + frameDt.Value) / (1 / 64)⌉.toNat ≤ fuel) :
    (∃ sim1 lastState1, PhysicsUpdate_drain32 fuel frameDt sim
      = some (.ok (sim1, lastState1,
          ⌈fl (sim._physTimeBalance.Value + frameDt.Value) / (1 / 64)⌉.toNat))) ∨
    PhysicsUpdate_drain32 fuel frameDt sim = some (.error Fault.consistency) := by
  by_cases hbt : |fl (sim._physTimeBalance.Time - sim._physicsDt.Time)| < eps32
  · rcases while32_total frameDt fuel
      { sim with _physTimeBalance :=
        ⟨fl (sim._physTimeBalance.Value + frameDt.Value), sim._physTimeBalance.Time⟩ }
      sim._carStateLatest 0 hh (fl_idem _) hx hf with ⟨sim1, last1, m, hrun⟩ | herr
    · left
      have hd : PhysicsUpdate_drain32 fuel frameDt sim = some (.ok (sim1, last1, m)) := by
        rw [drain32_eq, if_pos hbt]; exact hrun
      obtain ⟨hm, _, _⟩ := drain32_result frameDt sim hh hx fuel sim1 last1 m hd
      exact ⟨sim1, last1, by rw [hd, hm]⟩
    · right
      rw [drain32_eq, if_pos hbt]; exact herr
  · right
    rw [drain32_eq, if_neg hbt]

/-- From synchronised timestamps binary32 accumulate-and-drain raises no fault, keeps the
timestamps synchronised and moves the physics clock on by one rounded addition of the step per
pass. -/
theorem drain32_synced (frameDt : FloatTime) (sim : GameSimulation) (hs : Synced frameDt sim)
    (fuel : Nat) (r : Except Fault (GameSimulation × CarState × Nat))
    (hrun : PhysicsUpdate_drain32 fuel frameDt sim = some r) :
    ∃ sim1 lastState1 j, r = .ok (sim1, lastState1, j) ∧ Synced frameDt sim1 ∧
      sim1._physicsDt.Time = chainTime32 sim._physicsDt.Value j sim._physicsDt.Time := by
  rw [drain32_eq, if_pos (near32_of_eq hs.2.2.1)] at hrun
  have hs' : Synced frameDt { sim with _physTimeBalance :=
      ⟨fl (sim._physTimeBalance.Value + frameDt.Value), sim._physTimeBalance.Time⟩ } := hs
  obtain ⟨sim1, last1, j, hr, hs1, ht⟩ := while32_synced frameDt fuel
    { sim with _physTimeBalance :=
      ⟨fl (sim._physTimeBalance.Value + frameDt.Value), sim._physTimeBalance.Time⟩ }
    sim._carStateLatest 0 r hs' hrun
  rw [Nat.zero_add] at hr
  exact ⟨sim1, last1, j, hr, hs1, ht⟩

/-- Binary32 accumulate-and-drain from synchronised timestamps at the step `1/64`, the rounded
sum `x0 = fl (b + D)` being below `2^18`: `⌈x0 / h⌉` passes and no fault, for every bound that
allows as many passes. -/
theorem drain32_spec (frameDt : FloatTime) (sim : GameSimulation)
    (hh : sim._physicsDt.Value = 1 / 64)
    (hx : fl (sim._physTimeBalance.Value + frameDt.Value) < 2 ^ 18)
    (hs : Synced frameDt sim) (fuel : Nat)
    (hf : ⌈fl (sim._physTimeBalance.Value + frameDt.Value) / (1 / 64)⌉.toNat ≤ fuel) :
    ∃ sim1 lastState1,
      PhysicsUpdate_drain32 fuel frameDt sim
        = some (.ok (sim1, lastState1,
            ⌈fl (sim._physTimeBalance.Value + frameDt.Value) / (1 / 64)⌉.toNat)) ∧
      sim1._physTimeBalance.Value = fl (fl (sim._physTimeBalance.Value + frameDt.Value)
        - (⌈fl (sim._physTimeBalance.Value + frameDt.Value) / (1 / 64)⌉.toNat : ℚ)
          * (1 / 64)) ∧
      sim1._physicsDt.Value = 1 / 64 ∧
      Synced frameDt sim1 ∧
      sim1._physicsDt.Time = chainTime32 (1 / 64)
        ⌈fl (sim._physTimeBalance.Value + frameDt.Value) / (1 / 64)⌉.toNat
        sim._physicsDt.Time := by
  rcases drain32_total frameDt sim hh hx fuel hf with ⟨sim1, last1, hrun⟩ | herr
  · obtain ⟨_, hb, hd⟩ := drain32_result frameDt sim hh hx fuel sim1 last1 _ hrun
    obtain ⟨s, l, j, hr, hs1, ht⟩ := drain32_synced frameDt sim hs fuel _ hrun
    cases hr
    rw [hh] at ht
    exact ⟨sim1, last1, hrun, hb, hd, hs1, ht⟩
  · obtain ⟨s, l, j, hr, _, _⟩ := drain32_synced frameDt sim hs fuel _ herr
    cases hr

/-- The bounds that any rounding keeps, for accumulate-and-drain: the balance left is `<= 0`,
the step is unchanged, and the balance left is `>= -h` as soon as a pass was made or the exact
sum `b + D` was `>= -h`. -/
theorem drain32_bounds (frameDt : FloatTime) (sim : GameSimulation)
    (hrep : fl sim._physicsDt.Value = sim._physicsDt.Value)
    (fuel : Nat) (sim1 : GameSimulation) (lastState1 : CarState) (m : Nat)
    (hrun : PhysicsUpdate_drain32 fuel frameDt sim = some (.ok (sim1, lastState1, m))) :
    sim1._physTimeBalance.Value ≤ 0 ∧ sim1._physicsDt.Value = sim._physicsDt.Value ∧
    (0 < m ∨ -sim._physicsDt.Value ≤ sim._physTimeBalance.Value + frameDt.Value →
      -sim._physicsDt.Value ≤ sim1._physTimeBalance.Value) := by
  rw [drain32_eq] at hrun
  by_cases hbt : |fl (sim._physTimeBalance.Time - sim._physicsDt.Time)| < eps32
  · rw [if_pos hbt] at hrun
    obtain ⟨h1, h2, _, h4⟩ := while32_bounds frameDt sim._physicsDt.Value hrep fuel
      { sim with _physTimeBalance :=
        ⟨fl (sim._physTimeBalance.Value + frameDt.Value), sim._physTimeBalance.Time⟩ }
      sim._carStateLatest 0 sim1 lastState1 m rfl hrun
    refine ⟨h1, h2, ?_⟩
    rintro (hc | hc)
    · exact h4 (Or.inl hc)
    · apply h4
      right
      show -sim._physicsDt.Value ≤ fl (sim._physTimeBalance.Value + frameDt.Value)
      have := fl_mono hc
      rw [fl_neg, hrep] at this
      exact this
  · rw [if_neg hbt] at hrun
    cases hrun

theorem lerpAlpha32_eq (sim : GameSimulation) :
    PhysicsUpdate_lerpAlpha32 sim
      = if |fl (sim._physTimeBalance.Time - sim._physicsDt.Time)| < eps32
        then .ok (fl (1 + fl (sim._physTimeBalance.Value / sim._physicsDt.Value)))
        else .error Fault.consistency := by
  unfold PhysicsUpdate_lerpAlpha32
  rw [FloatTime.div32_eq]
  by_cases h : |fl (sim._physTimeBalance.Time - sim._physicsDt.Time)| < eps32
  · rw [if_pos h, if_pos h]; rfl
  · rw [if_neg h, if_neg h]; rfl

/-- The fraction `1.0f + x / h` in binary32 lies in `[0, 1]` for `x` in `[-h, 0]`. -/
theorem alpha32_bounds (x h : ℚ) (hh : 0 < h) (h1 : -h ≤ x) (h2 : x ≤ 0) :
    0 ≤ fl (1 + fl (x / h)) ∧ fl (1 + fl (x / h)) ≤ 1 := by
  have q1 : -1 ≤ x / h := by rw [le_div_iff₀ hh]; linarith
  have q2 : x / h ≤ 0 := div_nonpos_of_nonpos_of_nonneg h2 hh.le
  have f1 : -1 ≤ fl (x / h) := by
    have := fl_mono q1
    rw [fl_neg, fl_one] at this; exact this
  have f2 : fl (x / h) ≤ 0 := fl_nonpos q2
  constructor
  · exact fl_nonneg (by linarith)
  · have := fl_mono (show 1 + fl (x / h) ≤ 1 by linarith)
    rw [fl_one] at this; exact this

/-- Lines 74-79 in binary32 write `_carStateCurrent` and nothing else. -/
theorem finish32_fields (LerpInTime : FloatTime → FloatTime → ℚ → Except Fault FloatTime)
    (sim sim2 : GameSimulation) (lastState : CarState) (n : Nat)
    (h : PhysicsUpdate_finish32 LerpInTime sim lastState n = .ok sim2) :
    ∃ cur, sim2 = { sim with _carStateCurrent := cur } := by
  unfold PhysicsUpdate_finish32 at h
  by_cases hn : n > 0
  · rw [if_pos hn] at h
    cases ha : PhysicsUpdate_lerpAlpha32 sim with
    | error f => rw [ha] at h; cases h
    | ok alpha =>
      rw [ha] at h
      simp only [bind, Except.bind] at h
      cases hp : LerpInTime lastState.pos sim._carStateLatest.pos alpha with
      | error f => rw [hp] at h; cases h
      | ok pos =>
        rw [hp] at h
        simp only [] at h
        cases hv : LerpInTime lastState.vel sim._carStateLatest.vel alpha with
        | error f => rw [hv] at h; cases h
        | ok vel =>
          rw [hv] at h
          simp only [pure, Except.pure] at h
          cases h
          exact ⟨_, rfl⟩
  · rw [if_neg hn] at h
    cases h
    exact ⟨sim._carStateCurrent, rfl⟩

/-- Lines 74-79 in binary32 raise no fault when the balance and the step carry the same
timestamp and the interpolation itself raises none. -/
theorem finish32_ok (LerpInTime : FloatTime → FloatTime → ℚ → Except Fault FloatTime)
    (hL : ∀ a b alpha, ∃ r, LerpInTime a b alpha = .ok r)
    (sim : GameSimulation) (lastState : CarState) (n : Nat)
    (hcons : sim._physTimeBalance.Time = sim._physicsDt.Time) :
    ∃ cur, PhysicsUpdate_finish32 LerpInTime sim lastState n
      = .ok { sim with _carStateCurrent := cur } := by
  unfold PhysicsUpdate_finish32
  by_cases hn : n > 0
  · rw [if_pos hn, lerpAlpha32_eq, if_pos (near32_of_eq hcons)]
    obtain ⟨pos, hp⟩ := hL lastState.pos sim._carStateLatest.pos
      (fl (1 + fl (sim._physTimeBalance.Value / sim._physicsDt.Value)))
    obtain ⟨vel, hv⟩ := hL lastState.vel sim._carStateLatest.vel
      (fl (1 + fl (sim._physTimeBalance.Value / sim._physicsDt.Value)))
    refine ⟨⟨pos, vel⟩, ?_⟩
    simp only [bind, Except.bind, hp, hv, pure, Except.pure]
  · rw [if_neg hn]
    exact ⟨sim._carStateCurrent, rfl⟩

theorem frames32_nil (LerpInTime : FloatTime → FloatTime → ℚ → Except Fault FloatTime)
    (fuel : Nat) (sim : GameSimulation) :
    PhysicsUpdateFrames32 LerpInTime fuel [] sim = some (.ok (sim, 0)) := rfl

theorem frames32_cons (LerpInTime : FloatTime → FloatTime → ℚ → Except Fault FloatTime)
    (fuel : Nat) (frameDt : FloatTime) (rest : List FloatTime) (sim : GameSimulation) :
    PhysicsUpdateFrames32 LerpInTime fuel (frameDt :: rest) sim
      = (match PhysicsUpdate_drain32 fuel frameDt
            (AnimationUpdate32 frameDt (InputsUpdate frameDt sim)) with
        | none => none
        | some (Except.error f) => some (Except.error f)
        | some (Except.ok (sim1, lastState, stepCount)) =>
          match PhysicsUpdate_finish32 LerpInTime sim1 lastState stepCount with
          | Except.error f => some (Except.error f)
          | Except.ok sim2 =>
            match PhysicsUpdateFrames32 LerpInTime fuel rest sim2 with
            | none => none
            | some (Except.error f) => some (Except.error f)
            | some (Except.ok (sim3, total)) => some (Except.ok (sim3, stepCount + total))) := rfl

/-- After `InputsUpdate` and `AnimationUpdate` the frame-start samples carry the frame delta's
timestamp. -/
theorem synced_after_sampling (frameDt : FloatTime) (sim : GameSimulation)
    (hp : PhysicsSynced sim) :
    Synced frameDt (AnimationUpdate32 frameDt (InputsUpdate frameDt sim)) :=
  ⟨rfl, rfl, hp.1, hp.2.1, hp.2.2⟩

theorem chainTime32_add (v : ℚ) : ∀ (a b : Nat) (t0 : ℚ),
    chainTime32 v (a + b) t0 = chainTime32 v b (chainTime32 v a t0) := by
  intro a
  induction a with
  | zero => intro b t0; rw [Nat.zero_add]; rfl
  | succ a ih =>
    intro b t0
    rw [show a + 1 + b = (a + b) + 1 by omega, chainTime32_succ, chainTime32_succ, ih]

/-- The number of passes a frame delta of at most `2^17` can ask for after a balance `<= 0`. -/
theorem passes_le (b D : ℚ) (hb : b ≤ 0) (hD : D ≤ 2 ^ 17) :
    fl (b + D) < 2 ^ 18 ∧ ⌈fl (b + D) / (1 / 64)⌉.toNat ≤ 2 ^ 23 := by
  have h17 : fl (2 ^ 17) = 2 ^ 17 := by
    have := fl_repr 1 17 (by norm_num) (by norm_num)
    norm_num at this ⊢
    exact this
  have hle : fl (b + D) ≤ 2 ^ 17 := by
    have := fl_mono (show b + D ≤ 2 ^ 17 by linarith)
    rw [h17] at this; exact this
  refine ⟨by linarith, ?_⟩
  have h2 : ⌈fl (b + D) / (1 / 64)⌉ ≤ 2 ^ 23 := by
    apply Int.ceil_le.2
    rw [div_le_iff₀ (by norm_num)]
    push_cast
    linarith
  omega

/-- From synchronised physics timestamps, the step `1/64` and a balance `<= 0`, a run of
`PhysicsUpdate` calls in binary32 with frame deltas of at most `2^17` raises no fault (the
interpolation raising none) once the bound allows `2^23` passes per frame; it keeps the
timestamps synchronised and the balance `<= 0`, and the physics clock has made one rounded
addition of the step per pass. -/
theorem frames32_run (LerpInTime : FloatTime → FloatTime → ℚ → Except Fault FloatTime)
    (hL : ∀ a b alpha, ∃ r, LerpInTime a b alpha = .ok r) (fuel : Nat) (hfuel : 2 ^ 23 ≤ fuel) :
    ∀ (frames : List FloatTime) (sim : GameSimulation),
      sim._physicsDt.Value = 1 / 64 → PhysicsSynced sim → sim._physTimeBalance.Value ≤ 0 →
      (∀ d ∈ frames, d.Value ≤ 2 ^ 17) →
      ∃ s total,
        PhysicsUpdateFrames32 LerpInTime fuel frames sim = some (.ok (s, total)) ∧
        s._physicsDt.Value = 1 / 64 ∧ PhysicsSynced s ∧ s._physTimeBalance.Value ≤ 0 ∧
        s._physicsDt.Time = chainTime32 (1 / 64) total sim._physicsDt.Time := by
  intro frames
  induction frames with
  | nil =>
    intro sim hh hp hb _
    exact ⟨sim, 0, rfl, hh, hp, hb, rfl⟩
  | cons d rest ih =>
    intro sim hh hp hb hD
    have hs := synced_after_sampling d sim hp
    obtain ⟨hx, hn⟩ := passes_le sim._physTimeBalance.Value d.Value hb
      (hD d (List.mem_cons_self _ _))
    obtain ⟨s1, l1, hrun, hbal, hdt, hs1, hclock⟩ :=
      drain32_spec d (AnimationUpdate32 d (InputsUpdate d sim)) hh hx hs fuel
        (le_trans hn hfuel)
    have hb1 : s1._physTimeBalance.Value ≤ 0 :=
      (drain32_bounds d _ (by show fl sim._physicsDt.Value = sim._physicsDt.Value; rw [hh]; exact fl_step)
        fuel s1 l1 _ hrun).1
    have hrun' : PhysicsUpdate_drain32 fuel d (AnimationUpdate32 d (InputsUpdate d sim))
        = some (.ok (s1, l1,
            ⌈fl (sim._physTimeBalance.Value + d.Value) / (1 / 64)⌉.toNat)) := hrun
    have hclock' : s1._physicsDt.Time = chainTime32 (1 / 64)
        ⌈fl (sim._physTimeBalance.Value + d.Value) / (1 / 64)⌉.toNat sim._physicsDt.Time := hclock
    generalize ⌈fl (sim._physTimeBalance.Value + d.Value) / (1 / 64)⌉.toNat = n
      at hrun' hclock'
    obtain ⟨cur, hfin⟩ := finish32_ok LerpInTime hL s1 l1 n hs1.2.2.1
    obtain ⟨s, total, hrest, hsd, hsp, hsb, hsc⟩ :=
      ih { s1 with _carStateCurrent := cur } hdt ⟨hs1.2.2.1, hs1.2.2.2.1, hs1.2.2.2.2⟩ hb1
        (fun e he => hD e (List.mem_cons_of_mem _ he))
    refine ⟨s, n + total, ?_, hsd, hsp, hsb, ?_⟩
    · rw [frames32_cons, hrun']
      simp only []
      rw [hfin]
      simp only []
      rw [hrest]
    · rw [hsc, chainTime32_add]
      show chainTime32 (1 / 64) total s1._physicsDt.Time = _
      rw [hclock']

/-- The bounds that any rounding keeps, over runs of frames: every run of `PhysicsUpdate` calls
in binary32 with non-negative frame deltas that ends without fault, started with a balance in
`[-h, 0]` and a binary32 step `h`, ends with the balance in `[-h, 0]` and the step unchanged. -/
theorem frames32_bounds (LerpInTime : FloatTime → FloatTime → ℚ → Except Fault FloatTime)
    (fuel : Nat) (h : ℚ) (hrep : fl h = h) :
    ∀ (frames : List FloatTime) (sim s : GameSimulation) (total : Nat),
      sim._physicsDt.Value = h → -h ≤ sim._physTimeBalance.Value →
      sim._physTimeBalance.Value ≤ 0 → (∀ d ∈ frames, 0 ≤ d.Value) →
      PhysicsUpdateFrames32 LerpInTime fuel frames sim = some (.ok (s, total)) →
      -h ≤ s._physTimeBalance.Value ∧ s._physTimeBalance.Value ≤ 0 ∧
      s._physicsDt.Value = h := by
  intro frames
  induction frames with
  | nil =>
    intro sim s total hd hb1 hb2 _ hrun
    rw [frames32_nil] at hrun
    cases hrun
    exact ⟨hb1, hb2, hd⟩
  | cons d rest ih =>
    intro sim s total hd hb1 hb2 hD hrun
    rw [frames32_cons] at hrun
    cases hdr : PhysicsUpdate_drain32 fuel d (AnimationUpdate32 d (InputsUpdate d sim)) with
    | none => rw [hdr] at hrun; cases hrun
    | some r =>
      cases r with
      | error f => rw [hdr] at hrun; cases hrun
      | ok t =>
        obtain ⟨s1, l1, n⟩ := t
        rw [hdr] at hrun
        simp only [] at hrun
        cases hfin : PhysicsUpdate_finish32 LerpInTime s1 l1 n with
        | error f => rw [hfin] at hrun; cases hrun
        | ok s2 =>
          rw [hfin] at hrun
          simp only [] at hrun
          obtain ⟨cur, hs2⟩ := finish32_fields LerpInTime s1 s2 l1 n hfin
          have hrep' : fl (AnimationUpdate32 d (InputsUpdate d sim))._physicsDt.Value
              = (AnimationUpdate32 d (InputsUpdate d sim))._physicsDt.Value := by
            show fl sim._physicsDt.Value = sim._physicsDt.Value
            rw [hd]; exact hrep
          obtain ⟨b1, b2, b3⟩ := drain32_bounds d _ hrep' fuel s1 l1 n hdr
          have b2' : s1._physicsDt.Value = h := by rw [b2]; exact hd
          have b3' : -h ≤ s1._physTimeBalance.Value := by
            have := b3 (Or.inr (by
              show -sim._physicsDt.Value ≤ sim._physTimeBalance.Value + d.Value
              have := hD d (List.mem_cons_self _ _)
              rw [hd]; linarith))
            rw [← hd]; exact this
          cases hr : PhysicsUpdateFrames32 LerpInTime fuel rest s2 with
          | none => rw [hr] at hrun; cases hrun
          | some r2 =>
            cases r2 with
            | error f => rw [hr] at hrun; cases hrun
            | ok t2 =>
              obtain ⟨s3, tot⟩ := t2
              rw [hr] at hrun
              simp only [] at hrun
              cases hrun
              subst hs2
              exact ih { s1 with _carStateCurrent := cur } s tot b2' b3' b1
                (fun e he => hD e (List.mem_cons_of_mem _ he)) hr

end GameSimulation

/-! ## Binary32: evaluation at given numbers -/

/-- Evaluation of the rounding with the result named: `y` is `r` units in the last place. -/
theorem fl_at (x y : ℚ) (k f r : ℤ) (hk : -149 ≤ k) (h1 : (2 : ℚ) ^ (k + 23) ≤ x)
    (h2 : x < (2 : ℚ) ^ (k + 24)) (hf1 : (f : ℚ) ≤ x / 2 ^ k) (hf2 : x / 2 ^ k < f + 1)
    (hr : (if x / 2 ^ k - f < 1 / 2 then f else if 1 / 2 < x / 2 ^ k - f then f + 1
      else if f % 2 = 0 then f else f + 1) = r) (hy : (r : ℚ) * 2 ^ k = y) : fl x = y := by
  rw [fl_eval x k f r hk h1 h2 hf1 hf2 hr, hy]

namespace GameSimulation

theorem fl_half_step : fl (1 / 128) = 1 / 128 :=
  fl_at (1 / 128) (1 / 128) (-30) 8388608 8388608 (by norm_num) (by norm_num) (by norm_num)
    (by norm_num) (by norm_num) (by norm_num) (by norm_num)

/-- The last pass from a balance of `2^-31`: the exact difference lies half-way between two
binary32 numbers and rounds to the even one, which is `-1/64`. -/
theorem fl_tiny_sub : fl (1 / 2147483648 - 1 / 64) = -(1 / 64) := by
  rw [show (1 / 2147483648 - 1 / 64 : ℚ) = -(33554431 / 2147483648) by norm_num, fl_neg,
    fl_at (33554431 / 2147483648) (1 / 64) (-30) 16777215 16777216 (by norm_num) (by norm_num)
      (by norm_num) (by norm_num) (by norm_num) (by norm_num) (by norm_num)]

theorem fl_tiny : fl (1 / 2147483648) = 1 / 2147483648 :=
  fl_at (1 / 2147483648) (1 / 2147483648) (-54) 8388608 8388608 (by norm_num) (by norm_num)
    (by norm_num) (by norm_num) (by norm_num) (by norm_num) (by norm_num)

theorem startState_synced (frameDt : FloatTime) (h : frameDt.Time = 0) :
    Synced frameDt startState :=
  ⟨h.symm, h.symm, rfl, rfl, rfl⟩

/-- One pass of the binary32 loop from the start state, the balance holding `x > 0`. -/
theorem while32_startState_once (frameDt : FloatTime) (ht : frameDt.Time = 0) (x : ℚ)
    (hx : 0 < x) (hx1 : fl (x - 1 / 64) ≤ 0) :
    PhysicsUpdate_while32 1 frameDt { startState with _physTimeBalance := ⟨x, 0⟩ }
        startState._carStateLatest 0
      = some (.ok (
          { startState with
            _carStateLatest := ⟨⟨0, 1 / 64⟩, ⟨0, 1 / 64⟩⟩
            _physTimeBalance := ⟨fl (x - 1 / 64), 1 / 64⟩
            _physicsDt := ⟨1 / 64, 1 / 64⟩ },
          startState._carStateLatest, 1)) := by
  have hs : Synced frameDt { startState with _physTimeBalance := ⟨x, 0⟩ } :=
    startState_synced frameDt ht
  have e : afterBody32 { startState with _physTimeBalance := ⟨x, 0⟩ }
      = { startState with
            _carStateLatest := ⟨⟨0, 1 / 64⟩, ⟨0, 1 / 64⟩⟩
            _physTimeBalance := ⟨fl (x - 1 / 64), 1 / 64⟩
            _physicsDt := ⟨1 / 64, 1 / 64⟩ } := by
    simp only [afterBody32, startState, FloatTime.SimStartValue, FloatTime.Value,
      FloatTime.Time, zero_mul, sub_self, add_zero, zero_add, fl_zero, fl_step]
  rw [while32_succ, if_pos (show (0 : ℚ) < x from hx), body32_eq,
    if_pos (loopConsistent32_of_synced hs)]
  simp only []
  rw [while32_zero, e, if_neg (not_lt.2 hx1)]

/-- The start state in binary32, a frame delta of half a step: one pass, balance `-1/128`. -/
theorem drain32_startState_half :
    PhysicsUpdate_drain32 1 ⟨1 / 128, 0⟩ startState
      = some (.ok (
          { startState with
            _carStateLatest := ⟨⟨0, 1 / 64⟩, ⟨0, 1 / 64⟩⟩
            _physTimeBalance := ⟨-(1 / 128), 1 / 64⟩
            _physicsDt := ⟨1 / 64, 1 / 64⟩ },
          startState._carStateLatest, 1)) := by
  have h1 : fl ((1 : ℚ) / 128 - 1 / 64) = -(1 / 128) := by
    rw [show ((1 : ℚ) / 128 - 1 / 64) = -(1 / 128) by norm_num, fl_neg, fl_half_step]
  have hacc : fl (startState._physTimeBalance.Value + (⟨1 / 128, 0⟩ : FloatTime).Value)
      = 1 / 128 := by
    show fl (0 + 1 / 128) = 1 / 128
    rw [zero_add, fl_half_step]
  rw [drain32_eq, if_pos (show |fl (startState._physTimeBalance.Time
    - startState._physicsDt.Time)| < eps32 from near32_of_eq rfl), hacc]
  have := while32_startState_once ⟨1 / 128, 0⟩ rfl (1 / 128) (by norm_num)
    (by rw [h1]; norm_num)
  rw [h1] at this
  exact this

/-- The start state in binary32, a frame delta of `2^-31`: one pass, and the balance it leaves
is exactly `-1/64`. -/
theorem drain32_startState_tiny :
    PhysicsUpdate_drain32 1 ⟨1 / 2147483648, 0⟩ startState
      = some (.ok (
          { startState with
            _carStateLatest := ⟨⟨0, 1 / 64⟩, ⟨0, 1 / 64⟩⟩
            _physTimeBalance := ⟨-(1 / 64), 1 / 64⟩
            _physicsDt := ⟨1 / 64, 1 / 64⟩ },
          startState._carStateLatest, 1)) := by
  have hacc : fl (startState._physTimeBalance.Value + (⟨1 / 2147483648, 0⟩ : FloatTime).Value)
      = 1 / 2147483648 := by
    show fl (0 + 1 / 2147483648) = 1 / 2147483648
    rw [zero_add, fl_tiny]
  rw [drain32_eq, if_pos (show |fl (startState._physTimeBalance.Time
    - startState._physicsDt.Time)| < eps32 from near32_of_eq rfl), hacc]
  have := while32_startState_once ⟨1 / 2147483648, 0⟩ rfl (1 / 2147483648) (by norm_num)
    (by rw [fl_tiny_sub]; norm_num)
  rw [fl_tiny_sub] at this
  exact this

end GameSimulation

/-! ## Binary32: pass count, residual balance, interpolation fraction, termination -/

namespace GameSimulation

/-- `PhysicsUpdate` in binary32 that returns has run its drain without fault, and differs from
the state the loop left in `_carStateCurrent` only. -/
theorem physicsUpdate32_ok_drain
    (LerpInTime : FloatTime → FloatTime → ℚ → Except Fault FloatTime)
    (fuel : Nat) (frameDt : FloatTime) (sim s : GameSimulation)
    (hs : PhysicsUpdate32 LerpInTime fuel frameDt sim = some (.ok s)) :
    ∃ sim1 lastState1 n,
      PhysicsUpdate_drain32 fuel frameDt sim = some (.ok (sim1, lastState1, n)) ∧
      s._physTimeBalance = sim1._physTimeBalance ∧ s._physicsDt = sim1._physicsDt := by
  unfold PhysicsUpdate32 at hs
  cases hd : PhysicsUpdate_drain32 fuel frameDt sim with
  | none => rw [hd] at hs; cases hs
  | some r =>
    cases r with
    | error f => rw [hd] at hs; cases hs
    | ok t =>
      obtain ⟨sim1, last1, n⟩ := t
      rw [hd] at hs
      simp only [] at hs
      obtain ⟨cur, hcur⟩ := finish32_fields LerpInTime sim1 s last1 n (Option.some.inj hs)
      subst hcur
      exact ⟨sim1, last1, n, rfl, rfl, rfl⟩

/-- The accumulation of `-2^-30 + (2^-6 + 2^-29)`: the exact sum `2^-6 + 2^-30` lies half-way
between two binary32 numbers and rounds to the even one, `2^-6`. -/
theorem fl_sum_tie : fl (-(1 / 1073741824) + (1 / 64 + 1 / 536870912)) = 1 / 64 := by
  rw [show (-(1 / 1073741824) + (1 / 64 + 1 / 536870912) : ℚ) = 16777217 / 1073741824 by
    norm_num]
  exact fl_at (16777217 / 1073741824) (1 / 64) (-29) 8388608 8388608 (by norm_num)
    (by norm_num) (by norm_num) (by norm_num) (by norm_num) (by norm_num) (by norm_num)

/-- The pass count follows the rounded sum, not the exact one: from a balance of `-2^-30`, a frame
delta of `2^-6 + 2^-29` and the step `2^-6`, the binary32 loop makes one pass, while
`ceil((balance_before + D) / h) = 2`. -/
theorem drain32_count_rounded_sum :
    PhysicsUpdate_drain32 1 ⟨1 / 64 + 1 / 536870912, 0⟩
        { startState with _physTimeBalance := ⟨-(1 / 1073741824), 0⟩ }
      = some (.ok (
          { startState with
            _carStateLatest := ⟨⟨0, 1 / 64⟩, ⟨0, 1 / 64⟩⟩
            _physTimeBalance := ⟨0, 1 / 64⟩
            _physicsDt := ⟨1 / 64, 1 / 64⟩ },
          startState._carStateLatest, 1)) ∧
    ⌈((-(1 / 1073741824) : ℚ) + (1 / 64 + 1 / 536870912)) / (1 / 64)⌉ = 2 := by
  constructor
  · have hacc : fl (({ startState with _physTimeBalance := ⟨-(1 / 1073741824), 0⟩ } :
        GameSimulation)._physTimeBalance.Value
          + (⟨1 / 64 + 1 / 536870912, 0⟩ : FloatTime).Value) = 1 / 64 := fl_sum_tie
    have h0 : fl ((1 : ℚ) / 64 - 1 / 64) = 0 := by rw [sub_self, fl_zero]
    rw [drain32_eq, if_pos (show |fl (({ startState with _physTimeBalance :=
        ⟨-(1 / 1073741824), 0⟩ } : GameSimulation)._physTimeBalance.Time
      - ({ startState with _physTimeBalance := ⟨-(1 / 1073741824), 0⟩ } :
        GameSimulation)._physicsDt.Time)| < eps32 from near32_of_eq rfl), hacc]
    have := while32_startState_once ⟨1 / 64 + 1 / 536870912, 0⟩ rfl (1 / 64) (by norm_num)
      (by rw [h0])
    rw [h0] at this
    exact this
  · rw [Int.ceil_eq_iff]
    constructor <;> norm_num

/-- C9 fails: from the start state (balance `0`, step `h = 1/64`) a frame delta of
`D = 1/128` makes the drain loop run once, while `floor((0 + D) / h) = 0`. -/
theorem drain32_count_not_floor :
    (0 < startState._physicsDt.Value ∧
     -startState._physicsDt.Value < startState._physTimeBalance.Value ∧
     startState._physTimeBalance.Value ≤ 0 ∧
     0 ≤ (⟨1 / 128, 0⟩ : FloatTime).Value) ∧
    PhysicsUpdate_drain32 1 ⟨1 / 128, 0⟩ startState
      = some (.ok (
          { startState with
            _carStateLatest := ⟨⟨0, 1 / 64⟩, ⟨0, 1 / 64⟩⟩
            _physTimeBalance := ⟨-(1 / 128), 1 / 64⟩
            _physicsDt := ⟨1 / 64, 1 / 64⟩ },
          startState._carStateLatest, 1)) ∧
    ⌊(startState._physTimeBalance.Value + (⟨1 / 128, 0⟩ : FloatTime).Value)
      / startState._physicsDt.Value⌋ = 0 := by
  refine ⟨⟨?_, ?_, ?_, ?_⟩, drain32_startState_half, ?_⟩
  · show (0 : ℚ) < 1 / 64; norm_num
  · show -(1 / 64 : ℚ) < 0; norm_num
  · exact le_refl _
  · show (0 : ℚ) ≤ 1 / 128; norm_num
  · show ⌊((0 : ℚ) + 1 / 128) / (1 / 64)⌋ = 0
    rw [Int.floor_eq_iff]
    constructor <;> norm_num

/-- C9 (amended): in binary32, with the source's step `h = 1/64`, a binary32 residual balance in
`(-h, 0]` and a frame delta `D >= 0` whose rounded sum `x0 = fl (balance_before + D)` is below
`2^18`, the drain loop of `PhysicsUpdate` runs exactly `ceil(x0 / h)` times, a number that is
`>= 0`: the loop ends, with that many passes made or with the consistency fault; it ends
without fault when the timestamps are synchronised; and no run that ends without fault has made
any other number of passes. -/
theorem drain32_step_count (frameDt : FloatTime) (sim : GameSimulation)
    (hh : sim._physicsDt.Value = 1 / 64)
    (hrb : fl sim._physTimeBalance.Value = sim._physTimeBalance.Value)
    (hb1 : -sim._physicsDt.Value < sim._physTimeBalance.Value)
    (_hb2 : sim._physTimeBalance.Value ≤ 0)
    (hD : 0 ≤ frameDt.Value)
    (hx : fl (sim._physTimeBalance.Value + frameDt.Value) < 2 ^ 18) :
    0 ≤ ⌈fl (sim._physTimeBalance.Value + frameDt.Value) / sim._physicsDt.Value⌉ ∧
    (∀ fuel,
      ⌈fl (sim._physTimeBalance.Value + frameDt.Value) / sim._physicsDt.Value⌉.toNat ≤ fuel →
      (∃ sim1 lastState1, PhysicsUpdate_drain32 fuel frameDt sim
        = some (.ok (sim1, lastState1,
            ⌈fl (sim._physTimeBalance.Value + frameDt.Value)
              / sim._physicsDt.Value⌉.toNat))) ∨
      PhysicsUpdate_drain32 fuel frameDt sim = some (.error Fault.consistency)) ∧
    (Synced frameDt sim →
      ∀ fuel,
        ⌈fl (sim._physTimeBalance.Value + frameDt.Value) / sim._physicsDt.Value⌉.toNat ≤ fuel →
        ∃ sim1 lastState1, PhysicsUpdate_drain32 fuel frameDt sim
          = some (.ok (sim1, lastState1,
              ⌈fl (sim._physTimeBalance.Value + frameDt.Value)
                / sim._physicsDt.Value⌉.toNat))) ∧
    (∀ fuel sim1 lastState1 m,
      PhysicsUpdate_drain32 fuel frameDt sim = some (.ok (sim1, lastState1, m)) →
      m = ⌈fl (sim._physTimeBalance.Value + frameDt.Value) / sim._physicsDt.Value⌉.toNat) := by
  rw [hh] at hb1 ⊢
  refine ⟨?_, ?_, ?_, ?_⟩
  · have h0 : sim._physTimeBalance.Value ≤ fl (sim._physTimeBalance.Value + frameDt.Value) := by
      have := fl_mono (show sim._physTimeBalance.Value
        ≤ sim._physTimeBalance.Value + frameDt.Value by linarith)
      rw [hrb] at this; exact this
    have h1 : (-1 : ℚ) < fl (sim._physTimeBalance.Value + frameDt.Value) / (1 / 64) := by
      rw [lt_div_iff₀ (by norm_num)]
      linarith
    have h2 : (-1 : ℤ) < ⌈fl (sim._physTimeBalance.Value + frameDt.Value) / (1 / 64)⌉ :=
      Int.lt_ceil.2 (by exact_mod_cast h1)
    omega
  · intro fuel hf
    exact drain32_total frameDt sim hh hx fuel hf
  · intro hs fuel hf
    obtain ⟨sim1, last1, hrun, _⟩ := drain32_spec frameDt sim hh hx hs fuel hf
    exact ⟨sim1, last1, hrun⟩
  · intro fuel sim1 last1 m hrun
    exact (drain32_result frameDt sim hh hx fuel sim1 last1 m hrun).1

theorem drain32_step_count_witness :
    (startState._physicsDt.Value = 1 / 64 ∧
     fl startState._physTimeBalance.Value = startState._physTimeBalance.Value ∧
     -startState._physicsDt.Value < startState._physTimeBalance.Value ∧
     startState._physTimeBalance.Value ≤ 0 ∧
     0 ≤ (⟨1 / 128, 0⟩ : FloatTime).Value ∧
     fl (startState._physTimeBalance.Value + (⟨1 / 128, 0⟩ : FloatTime).Value) < 2 ^ 18 ∧
     Synced ⟨1 / 128, 0⟩ startState) ∧
    ∀ fuel,
      ⌈fl (startState._physTimeBalance.Value + (⟨1 / 128, 0⟩ : FloatTime).Value)
        / startState._physicsDt.Value⌉.toNat ≤ fuel →
      ∃ sim1 lastState1, PhysicsUpdate_drain32 fuel ⟨1 / 128, 0⟩ startState
        = some (.ok (sim1, lastState1,
            ⌈fl (startState._physTimeBalance.Value + (⟨1 / 128, 0⟩ : FloatTime).Value)
              / startState._physicsDt.Value⌉.toNat)) :=
  have h1 : startState._physicsDt.Value = 1 / 64 := rfl
  have h2 : fl startState._physTimeBalance.Value = startState._physTimeBalance.Value := fl_zero
  have h3 : -startState._physicsDt.Value < startState._physTimeBalance.Value := by
    show -(1 / 64 : ℚ) < 0
    norm_num
  have h4 : startState._physTimeBalance.Value ≤ 0 := le_refl _
  have h5 : 0 ≤ (⟨1 / 128, 0⟩ : FloatTime).Value := by
    show (0 : ℚ) ≤ 1 / 128
    norm_num
  have h6 : fl (startState._physTimeBalance.Value + (⟨1 / 128, 0⟩ : FloatTime).Value)
      < 2 ^ 18 := by
    show fl (0 + 1 / 128) < 2 ^ 18
    rw [zero_add, fl_half_step]
    norm_num
  have h7 : Synced ⟨1 / 128, 0⟩ startState := startState_synced _ rfl
  ⟨⟨h1, h2, h3, h4, h5, h6, h7⟩,
    (drain32_step_count ⟨1 / 128, 0⟩ startState h1 h2 h3 h4 h5 h6).2.2.1 h7⟩

/-- C10 fails: from the start state (balance `0` in `(-h, 0]`, step `h = 1/64`) a
frame delta of `D = 2^-31 >= 0` makes the drain loop run once (`n = 1`) and leaves the balance
at exactly `-h`, outside `(-h, 0]` and different from `0 + D - 1 * h`. -/
theorem residual32_reaches_minus_h :
    (0 < startState._physicsDt.Value ∧
     -startState._physicsDt.Value < startState._physTimeBalance.Value ∧
     startState._physTimeBalance.Value ≤ 0 ∧
     0 ≤ (⟨1 / 2147483648, 0⟩ : FloatTime).Value) ∧
    PhysicsUpdate_drain32 1 ⟨1 / 2147483648, 0⟩ startState
      = some (.ok (
          { startState with
            _carStateLatest := ⟨⟨0, 1 / 64⟩, ⟨0, 1 / 64⟩⟩
            _physTimeBalance := ⟨-(1 / 64), 1 / 64⟩
            _physicsDt := ⟨1 / 64, 1 / 64⟩ },
          startState._carStateLatest, 1)) ∧
    ¬ (-startState._physicsDt.Value < (-(1 / 64) : ℚ)) ∧
    (-(1 / 64) : ℚ) ≠ startState._physTimeBalance.Value
      + (⟨1 / 2147483648, 0⟩ : FloatTime).Value - (1 : ℕ) * startState._physicsDt.Value := by
  refine ⟨⟨?_, ?_, ?_, ?_⟩, drain32_startState_tiny, ?_, ?_⟩
  · show (0 : ℚ) < 1 / 64; norm_num
  · show -(1 / 64 : ℚ) < 0; norm_num
  · exact le_refl _
  · show (0 : ℚ) ≤ 1 / 2147483648; norm_num
  · show ¬ (-(1 / 64 : ℚ) < -(1 / 64)); norm_num
  · show (-(1 / 64) : ℚ) ≠ 0 + 1 / 2147483648 - (1 : ℕ) * (1 / 64); norm_num

end GameSimulation

namespace GameSimulation

/-- C10 (amended): in binary32, with a binary32 step `h > 0`, a residual balance in `[-h, 0]` and
a frame delta `D >= 0`, every drain of `PhysicsUpdate` that has executed its `n` steps leaves the
balance in `[-h, 0]` (closed at `-h`) and the step unchanged, and so does every `PhysicsUpdate`
that returns; hence every run of frames with non-negative deltas that raises no fault ends with
the balance in `[-h, 0]` again.  With the source's step `h = 1/64` and a rounded sum
`x0 = fl (balance_before + D)` below `2^18` the balance left is `fl (x0 - n*h)`, the drain ends
(with `n` passes or the consistency fault), and it ends without fault when the timestamps are
synchronised; and from synchronised physics timestamps every run of frames with deltas in
`[0, 2^17]` does end without fault. -/
theorem residual32_balance_invariant (frameDt : FloatTime) (sim : GameSimulation)
    (_hh : 0 < sim._physicsDt.Value)
    (hrep : fl sim._physicsDt.Value = sim._physicsDt.Value)
    (hb1 : -sim._physicsDt.Value ≤ sim._physTimeBalance.Value)
    (hb2 : sim._physTimeBalance.Value ≤ 0)
    (hD : 0 ≤ frameDt.Value) :
    (∀ fuel sim1 lastState1 n,
      PhysicsUpdate_drain32 fuel frameDt sim = some (.ok (sim1, lastState1, n)) →
      -sim._physicsDt.Value ≤ sim1._physTimeBalance.Value ∧
      sim1._physTimeBalance.Value ≤ 0 ∧
      sim1._physicsDt.Value = sim._physicsDt.Value) ∧
    (∀ LerpInTime fuel s,
      PhysicsUpdate32 LerpInTime fuel frameDt sim = some (.ok s) →
      -sim._physicsDt.Value ≤ s._physTimeBalance.Value ∧
      s._physTimeBalance.Value ≤ 0 ∧
      s._physicsDt.Value = sim._physicsDt.Value) ∧
    (∀ LerpInTime (frames : List FloatTime) (fuel : Nat) (s : GameSimulation) (total : Nat),
      (∀ d ∈ frames, 0 ≤ d.Value) →
      PhysicsUpdateFrames32 LerpInTime fuel frames sim = some (.ok (s, total)) →
      -sim._physicsDt.Value ≤ s._physTimeBalance.Value ∧
      s._physTimeBalance.Value ≤ 0 ∧
      s._physicsDt.Value = sim._physicsDt.Value) ∧
    (sim._physicsDt.Value = 1 / 64 →
      fl (sim._physTimeBalance.Value + frameDt.Value) < 2 ^ 18 →
      (∀ fuel sim1 lastState1 n,
        PhysicsUpdate_drain32 fuel frameDt sim = some (.ok (sim1, lastState1, n)) →
        sim1._physTimeBalance.Value
          = fl (fl (sim._physTimeBalance.Value + frameDt.Value)
              - (n : ℚ) * sim._physicsDt.Value)) ∧
      (∀ fuel,
        ⌈fl (sim._physTimeBalance.Value + frameDt.Value) / sim._physicsDt.Value⌉.toNat ≤ fuel →
        ∃ r, PhysicsUpdate_drain32 fuel frameDt sim = some r) ∧
      (Synced frameDt sim → ∀ fuel,
        ⌈fl (sim._physTimeBalance.Value + frameDt.Value) / sim._physicsDt.Value⌉.toNat ≤ fuel →
        ∃ sim1 lastState1 n,
          PhysicsUpdate_drain32 fuel frameDt sim = some (.ok (sim1, lastState1, n)))) ∧
    (sim._physicsDt.Value = 1 / 64 → PhysicsSynced sim →
      ∀ LerpInTime, (∀ a b alpha, ∃ r, LerpInTime a b alpha = .ok r) →
      ∀ frames : List FloatTime, (∀ d ∈ frames, 0 ≤ d.Value ∧ d.Value ≤ 2 ^ 17) →
      ∀ fuel, 2 ^ 23 ≤ fuel → ∃ s total,
        PhysicsUpdateFrames32 LerpInTime fuel frames sim = some (.ok (s, total)) ∧
        -sim._physicsDt.Value ≤ s._physTimeBalance.Value ∧
        s._physTimeBalance.Value ≤ 0 ∧
        s._physicsDt.Value = sim._physicsDt.Value) := by
  have key : ∀ fuel sim1 lastState1 n,
      PhysicsUpdate_drain32 fuel frameDt sim = some (.ok (sim1, lastState1, n)) →
      -sim._physicsDt.Value ≤ sim1._physTimeBalance.Value ∧
      sim1._physTimeBalance.Value ≤ 0 ∧
      sim1._physicsDt.Value = sim._physicsDt.Value := by
    intro fuel sim1 last1 n hrun
    obtain ⟨b1, b2, b3⟩ := drain32_bounds frameDt sim hrep fuel sim1 last1 n hrun
    exact ⟨b3 (Or.inr (by linarith)), b1, b2⟩
  refine ⟨key, ?_, ?_, ?_, ?_⟩
  · intro L fuel s hs
    obtain ⟨sim1, last1, n, hrun, hb, hd⟩ := physicsUpdate32_ok_drain L fuel frameDt sim s hs
    obtain ⟨h1, h2, h3⟩ := key fuel sim1 last1 n hrun
    rw [hb, hd]
    exact ⟨h1, h2, h3⟩
  · intro L frames fuel s total hframes hrun
    exact frames32_bounds L fuel sim._physicsDt.Value hrep frames sim s total rfl hb1 hb2
      hframes hrun
  · intro h64 hx
    refine ⟨?_, ?_, ?_⟩
    · intro fuel sim1 last1 n hrun
      obtain ⟨hn, hb, _⟩ := drain32_result frameDt sim h64 hx fuel sim1 last1 n hrun
      rw [hb, hn, h64]
    · intro fuel hf
      rw [h64] at hf
      rcases drain32_total frameDt sim h64 hx fuel hf with ⟨sim1, last1, hrun⟩ | herr
      · exact ⟨_, hrun⟩
      · exact ⟨_, herr⟩
    · intro hs fuel hf
      rw [h64] at hf
      obtain ⟨sim1, last1, hrun, _⟩ := drain32_spec frameDt sim h64 hx hs fuel hf
      exact ⟨sim1, last1, _, hrun⟩
  · intro h64 hp L hL frames hframes fuel hfuel
    obtain ⟨s, total, hrun, _, _, _, _⟩ := frames32_run L hL fuel hfuel frames sim h64 hp hb2
      (fun d hd => (hframes d hd).2)
    obtain ⟨h1, h2, h3⟩ := frames32_bounds L fuel sim._physicsDt.Value hrep frames sim s total
      rfl hb1 hb2 (fun d hd => (hframes d hd).1) hrun
    exact ⟨s, total, hrun, h1, h2, h3⟩

theorem residual32_balance_invariant_witness :
    (0 < startState._physicsDt.Value ∧
     fl startState._physicsDt.Value = startState._physicsDt.Value ∧
     -startState._physicsDt.Value ≤ startState._physTimeBalance.Value ∧
     startState._physTimeBalance.Value ≤ 0 ∧
     0 ≤ (⟨1 / 2147483648, 0⟩ : FloatTime).Value ∧
     PhysicsUpdate_drain32 1 ⟨1 / 2147483648, 0⟩ startState
      = some (.ok (
          { startState with
            _carStateLatest := ⟨⟨0, 1 / 64⟩, ⟨0, 1 / 64⟩⟩
            _physTimeBalance := ⟨-(1 / 64), 1 / 64⟩
            _physicsDt := ⟨1 / 64, 1 / 64⟩ },
          startState._carStateLatest, 1))) ∧
    (-startState._physicsDt.Value ≤ (-(1 / 64) : ℚ) ∧ (-(1 / 64) : ℚ) ≤ 0 ∧
      (1 / 64 : ℚ) = startState._physicsDt.Value) :=
  have h1 : 0 < startState._physicsDt.Value := by
    show (0 : ℚ) < 1 / 64
    norm_num
  have h2 : fl startState._physicsDt.Value = startState._physicsDt.Value := fl_step
  have h3 : -startState._physicsDt.Value ≤ startState._physTimeBalance.Value := by
    show -(1 / 64 : ℚ) ≤ 0
    norm_num
  have h4 : startState._physTimeBalance.Value ≤ 0 := le_refl _
  have h5 : 0 ≤ (⟨1 / 2147483648, 0⟩ : FloatTime).Value := by
    show (0 : ℚ) ≤ 1 / 2147483648
    norm_num
  ⟨⟨h1, h2, h3, h4, h5, drain32_startState_tiny⟩,
    (residual32_balance_invariant ⟨1 / 2147483648, 0⟩ startState h1 h2 h3 h4 h5).1 1 _ _ 1
      drain32_startState_tiny⟩

/-- C11 fails: from the start state (step `h = 1/64`) a frame delta of `2^-31` makes
`PhysicsUpdate` execute one step (`n = 1`), and the fraction computed in line 76 is
`lerpAlpha = 1 + (-h) / h = 0`, outside `(0, 1]`. -/
theorem lerpAlpha32_reaches_zero :
    0 < startState._physicsDt.Value ∧
    PhysicsUpdate_drain32 1 ⟨1 / 2147483648, 0⟩ startState
      = some (.ok (
          { startState with
            _carStateLatest := ⟨⟨0, 1 / 64⟩, ⟨0, 1 / 64⟩⟩
            _physTimeBalance := ⟨-(1 / 64), 1 / 64⟩
            _physicsDt := ⟨1 / 64, 1 / 64⟩ },
          startState._carStateLatest, 1)) ∧
    PhysicsUpdate_lerpAlpha32
        { startState with
          _carStateLatest := ⟨⟨0, 1 / 64⟩, ⟨0, 1 / 64⟩⟩
          _physTimeBalance := ⟨-(1 / 64), 1 / 64⟩
          _physicsDt := ⟨1 / 64, 1 / 64⟩ }
      = .ok 0 := by
  refine ⟨?_, drain32_startState_tiny, ?_⟩
  · show (0 : ℚ) < 1 / 64; norm_num
  · rw [lerpAlpha32_eq, if_pos (near32_of_eq rfl)]
    show Except.ok (fl (1 + fl (-(1 / 64) / (1 / 64)))) = Except.ok 0
    rw [show (-(1 / 64) / (1 / 64) : ℚ) = -1 by norm_num, fl_neg, fl_one,
      show (1 + -1 : ℚ) = 0 by norm_num, fl_zero]

/-- C11 (amended): in binary32, in every call of `PhysicsUpdate` whose loop has made at least one
pass (`n >= 1`, binary32 step `h > 0`), the fraction `lerpAlpha = 1 + balance_after / h` computed
in line 76 lies in the closed interval `[0, 1]`; the check inside
`_physTimeBalance / _physicsDt` is the only way for line 76 to fail, it passes when the
timestamps are synchronised, and the fraction is the one handed on to the interpolation in
lines 77-78. -/
theorem lerpAlpha32_range (LerpInTime : FloatTime → FloatTime → ℚ → Except Fault FloatTime)
    (fuel : Nat) (frameDt : FloatTime) (sim sim1 : GameSimulation) (lastState1 : CarState)
    (n : Nat) (hh : 0 < sim._physicsDt.Value)
    (hrep : fl sim._physicsDt.Value = sim._physicsDt.Value)
    (hrun : PhysicsUpdate_drain32 fuel frameDt sim = some (.ok (sim1, lastState1, n)))
    (hn : 1 ≤ n) :
    0 ≤ fl (1 + fl (sim1._physTimeBalance.Value / sim._physicsDt.Value)) ∧
    fl (1 + fl (sim1._physTimeBalance.Value / sim._physicsDt.Value)) ≤ 1 ∧
    PhysicsUpdate_lerpAlpha32 sim1
      = (if |fl (sim1._physTimeBalance.Time - sim1._physicsDt.Time)| < eps32
        then .ok (fl (1 + fl (sim1._physTimeBalance.Value / sim._physicsDt.Value)))
        else .error Fault.consistency) ∧
    (Synced frameDt sim →
      PhysicsUpdate_lerpAlpha32 sim1
        = .ok (fl (1 + fl (sim1._physTimeBalance.Value / sim._physicsDt.Value))) ∧
      PhysicsUpdate32 LerpInTime fuel frameDt sim
        = some (do
            let pos ← LerpInTime lastState1.pos sim1._carStateLatest.pos
              (fl (1 + fl (sim1._physTimeBalance.Value / sim._physicsDt.Value)))
            let vel ← LerpInTime lastState1.vel sim1._carStateLatest.vel
              (fl (1 + fl (sim1._physTimeBalance.Value / sim._physicsDt.Value)))
            pure { sim1 with _carStateCurrent := ⟨pos, vel⟩ })) := by
  obtain ⟨b1, b2, b3⟩ := drain32_bounds frameDt sim hrep fuel sim1 lastState1 n hrun
  have hlow := b3 (Or.inl (by omega))
  obtain ⟨a1, a2⟩ := alpha32_bounds _ _ hh hlow b1
  have halpha := lerpAlpha32_eq sim1
  rw [b2] at halpha
  refine ⟨a1, a2, halpha, ?_⟩
  intro hs
  obtain ⟨s, l, j, hr, hs1, _⟩ := drain32_synced frameDt sim hs fuel _ hrun
  cases hr
  have hok : PhysicsUpdate_lerpAlpha32 sim1
      = .ok (fl (1 + fl (sim1._physTimeBalance.Value / sim._physicsDt.Value))) := by
    rw [halpha, if_pos (near32_of_eq hs1.2.2.1)]
  refine ⟨hok, ?_⟩
  unfold PhysicsUpdate32
  rw [hrun]
  simp only [PhysicsUpdate_finish32]
  rw [if_pos (by omega : n > 0), hok]
  rfl

theorem lerpAlpha32_range_witness :
    (0 < startState._physicsDt.Value ∧
     fl startState._physicsDt.Value = startState._physicsDt.Value ∧
     PhysicsUpdate_drain32 1 ⟨1 / 128, 0⟩ startState
      = some (.ok (
          { startState with
            _carStateLatest := ⟨⟨0, 1 / 64⟩, ⟨0, 1 / 64⟩⟩
            _physTimeBalance := ⟨-(1 / 128), 1 / 64⟩
            _physicsDt := ⟨1 / 64, 1 / 64⟩ },
          startState._carStateLatest, 1)) ∧
     1 ≤ 1 ∧ Synced ⟨1 / 128, 0⟩ startState) ∧
    PhysicsUpdate_lerpAlpha32
        { startState with
          _carStateLatest := ⟨⟨0, 1 / 64⟩, ⟨0, 1 / 64⟩⟩
          _physTimeBalance := ⟨-(1 / 128), 1 / 64⟩
          _physicsDt := ⟨1 / 64, 1 / 64⟩ }
      = .ok (fl (1 + fl (-(1 / 128) / (1 / 64)))) :=
  have h1 : 0 < startState._physicsDt.Value := by
    show (0 : ℚ) < 1 / 64
    norm_num
  have h2 : fl startState._physicsDt.Value = startState._physicsDt.Value := fl_step
  have h3 : Synced ⟨1 / 128, 0⟩ startState := startState_synced _ rfl
  ⟨⟨h1, h2, drain32_startState_half, le_refl 1, h3⟩,
    ((lerpAlpha32_range (fun _ b _ => .ok b) 1 ⟨1 / 128, 0⟩ startState _ _ 1 h1 h2
      drain32_startState_half (le_refl 1)).2.2.2 h3).1⟩

/-- The subtraction of `1/64` from `2^20` in binary32 gives `2^20` back. -/
theorem fl_absorb : fl (1048576 - 1 / 64) = 1048576 := by
  rw [show (1048576 - 1 / 64 : ℚ) = 67108863 / 64 by norm_num]
  exact fl_at (67108863 / 64) 1048576 (-4) 16777215 16777216 (by norm_num)
    (by norm_num) (by norm_num) (by norm_num) (by norm_num) (by norm_num) (by norm_num)

theorem fl_2_20 : fl 1048576 = 1048576 :=
  fl_at 1048576 1048576 (-3) 8388608 8388608 (by norm_num)
    (by norm_num) (by norm_num) (by norm_num) (by norm_num) (by norm_num) (by norm_num)

/-- With the step `1/64` and synchronised timestamps, a balance of `2^20` is never drained: the
loop is still running at every bound on the number of passes. -/
theorem while32_stuck (frameDt : FloatTime) :
    ∀ (fuel : Nat) (sim : GameSimulation) (lastState : CarState) (stepCount : Nat),
      Synced frameDt sim → sim._physicsDt.Value = 1 / 64 →
      sim._physTimeBalance.Value = 1048576 →
      PhysicsUpdate_while32 fuel frameDt sim lastState stepCount = none := by
  intro fuel
  induction fuel with
  | zero =>
    intro sim lastState stepCount _ _ hb
    rw [while32_zero, if_pos (by rw [hb]; norm_num)]
  | succ k ih =>
    intro sim lastState stepCount hs hh hb
    rw [while32_succ, if_pos (by rw [hb]; norm_num), body32_eq,
      if_pos (loopConsistent32_of_synced hs)]
    simp only []
    apply ih _ _ _ (afterBody32_synced frameDt sim hs) hh
    show fl (sim._physTimeBalance.Value - sim._physicsDt.Value) = 1048576
    rw [hb, hh, fl_absorb]

/-- C20 fails: from the start state (step `h = 1/64`) a frame delta of `D = 2^20`
leaves the loop of `PhysicsUpdate` running at every bound on the number of passes: each
`_physTimeBalance -= _physicsDt` gives the balance `2^20` back, and no check fails. -/
theorem drain32_never_ends :
    0 < startState._physicsDt.Value ∧
    ∀ fuel, PhysicsUpdate_drain32 fuel ⟨1048576, 0⟩ startState = none := by
  constructor
  · show (0 : ℚ) < 1 / 64; norm_num
  · intro fuel
    have hb : fl (startState._physTimeBalance.Value + (⟨1048576, 0⟩ : FloatTime).Value)
        = 1048576 := by
      show fl (0 + 1048576) = 1048576
      rw [zero_add, fl_2_20]
    rw [drain32_eq, if_pos (show |fl (startState._physTimeBalance.Time
      - startState._physicsDt.Time)| < eps32 from near32_of_eq rfl), hb]
    exact while32_stuck ⟨1048576, 0⟩ fuel { startState with _physTimeBalance := ⟨1048576, 0⟩ }
      _ 0 (startState_synced _ rfl) rfl rfl

/-- C20 (amended): in binary32, with the source's step `h = 1/64`, for every balance and every
frame delta whose rounded sum `x0 = fl (balance_before + D)` is below `2^18`, the loop of
`PhysicsUpdate` ends (after `n` passes, or earlier with the consistency fault), where `n` is
the least natural number with `x0 - n*h <= 0`: `0` when `x0 <= 0`, `ceil(x0 / h)` otherwise; it
ends without fault when the timestamps are synchronised; no run that ends without fault makes
another number of passes, and the step `h` is the same after the loop. -/
theorem drain32_terminates (frameDt : FloatTime) (sim : GameSimulation)
    (hh : sim._physicsDt.Value = 1 / 64)
    (hx : fl (sim._physTimeBalance.Value + frameDt.Value) < 2 ^ 18) :
    (∀ fuel,
      ⌈fl (sim._physTimeBalance.Value + frameDt.Value) / sim._physicsDt.Value⌉.toNat ≤ fuel →
      (∃ sim1 lastState1, PhysicsUpdate_drain32 fuel frameDt sim
        = some (.ok (sim1, lastState1,
            ⌈fl (sim._physTimeBalance.Value + frameDt.Value)
              / sim._physicsDt.Value⌉.toNat))) ∨
      PhysicsUpdate_drain32 fuel frameDt sim = some (.error Fault.consistency)) ∧
    (Synced frameDt sim →
      ∀ fuel,
        ⌈fl (sim._physTimeBalance.Value + frameDt.Value) / sim._physicsDt.Value⌉.toNat ≤ fuel →
        ∃ sim1 lastState1, PhysicsUpdate_drain32 fuel frameDt sim
          = some (.ok (sim1, lastState1,
              ⌈fl (sim._physTimeBalance.Value + frameDt.Value)
                / sim._physicsDt.Value⌉.toNat))) ∧
    (∀ fuel sim1 lastState1 m,
      PhysicsUpdate_drain32 fuel frameDt sim = some (.ok (sim1, lastState1, m)) →
      m = ⌈fl (sim._physTimeBalance.Value + frameDt.Value) / sim._physicsDt.Value⌉.toNat ∧
      sim1._physicsDt.Value = sim._physicsDt.Value) ∧
    (fl (sim._physTimeBalance.Value + frameDt.Value)
        - (⌈fl (sim._physTimeBalance.Value + frameDt.Value)
            / sim._physicsDt.Value⌉.toNat : ℚ) * sim._physicsDt.Value ≤ 0 ∧
      ∀ m : ℕ, fl (sim._physTimeBalance.Value + frameDt.Value)
          - (m : ℚ) * sim._physicsDt.Value ≤ 0 →
        ⌈fl (sim._physTimeBalance.Value + frameDt.Value) / sim._physicsDt.Value⌉.toNat ≤ m) ∧
    (fl (sim._physTimeBalance.Value + frameDt.Value) ≤ 0 →
      ⌈fl (sim._physTimeBalance.Value + frameDt.Value) / sim._physicsDt.Value⌉.toNat = 0) ∧
    (0 < fl (sim._physTimeBalance.Value + frameDt.Value) →
      ((⌈fl (sim._physTimeBalance.Value + frameDt.Value)
          / sim._physicsDt.Value⌉.toNat : ℕ) : ℤ)
        = ⌈fl (sim._physTimeBalance.Value + frameDt.Value) / sim._physicsDt.Value⌉) := by
  have h64 : (0 : ℚ) < 1 / 64 := by norm_num
  rw [hh]
  refine ⟨fun fuel hf => drain32_total frameDt sim hh hx fuel hf, ?_, ?_,
    ceil_toNat_least _ _ h64, fun h0 => ceil_toNat_of_nonpos _ _ h64 h0, ?_⟩
  · intro hs fuel hf
    obtain ⟨sim1, last1, hrun, _⟩ := drain32_spec frameDt sim hh hx hs fuel hf
    exact ⟨sim1, last1, hrun⟩
  · intro fuel sim1 last1 m hrun
    obtain ⟨hm, _, hd⟩ := drain32_result frameDt sim hh hx fuel sim1 last1 m hrun
    exact ⟨hm, hd⟩
  · intro h0
    exact Int.toNat_of_nonneg (Int.ceil_pos.2 (div_pos h0 h64)).le

theorem drain32_terminates_witness :
    (startState._physicsDt.Value = 1 / 64 ∧
     fl (startState._physTimeBalance.Value + (⟨1 / 128, 0⟩ : FloatTime).Value) < 2 ^ 18 ∧
     Synced ⟨1 / 128, 0⟩ startState) ∧
    ∀ fuel,
      ⌈fl (startState._physTimeBalance.Value + (⟨1 / 128, 0⟩ : FloatTime).Value)
        / startState._physicsDt.Value⌉.toNat ≤ fuel →
      ∃ sim1 lastState1, PhysicsUpdate_drain32 fuel ⟨1 / 128, 0⟩ startState
        = some (.ok (sim1, lastState1,
            ⌈fl (startState._physTimeBalance.Value + (⟨1 / 128, 0⟩ : FloatTime).Value)
              / startState._physicsDt.Value⌉.toNat)) :=
  have h1 : startState._physicsDt.Value = 1 / 64 := rfl
  have h6 : fl (startState._physTimeBalance.Value + (⟨1 / 128, 0⟩ : FloatTime).Value)
      < 2 ^ 18 := by
    show fl (0 + 1 / 128) < 2 ^ 18
    rw [zero_add, fl_half_step]
    norm_num
  have h7 : Synced ⟨1 / 128, 0⟩ startState := startState_synced _ rfl
  ⟨⟨h1, h6, h7⟩, (drain32_terminates ⟨1 / 128, 0⟩ startState h1 h6).2.1 h7⟩

end GameSimulation

/-! ## Binary32: the physics timeline -/

namespace GameSimulation

/-- `Init` in binary32 on the member initialisers: one check, then only the camera position's
timestamp moves. -/
theorem init32_startState (firstFrameDt : FloatTime) :
    Init32 firstFrameDt startState
      = if |fl (0 - firstFrameDt.Time)| < eps32
        then .ok { startState with _cameraPos := ⟨0, fl (0 + firstFrameDt.Value)⟩ }
        else .error Fault.consistency := by
  unfold Init32
  rw [finishedUpdate32_eq]
  by_cases h : |fl (0 - firstFrameDt.Time)| < eps32
  · have h' : |fl (startState._cameraPos.Time - firstFrameDt.Time)| < eps32 := h
    rw [if_pos h, if_pos h']
    rfl
  · have h' : ¬ |fl (startState._cameraPos.Time - firstFrameDt.Time)| < eps32 := h
    rw [if_neg h, if_neg h']
    rfl

/-- The state that `Init` leaves in binary32: the step `1/64`, the four physics-owned
timestamps at `0` and an empty balance. -/
theorem init32_origin (firstFrameDt : FloatTime) (s0 : GameSimulation)
    (hinit : Init32 firstFrameDt startState = .ok s0) :
    s0._physicsDt.Value = 1 / 64 ∧ PhysicsSynced s0 ∧ s0._physicsDt.Time = 0 ∧
    s0._physTimeBalance.Value = 0 := by
  rw [init32_startState] at hinit
  by_cases h : |fl (0 - firstFrameDt.Time)| < eps32
  · rw [if_pos h] at hinit
    cases hinit
    exact ⟨rfl, ⟨rfl, rfl, rfl⟩, rfl, rfl⟩
  · rw [if_neg h] at hinit
    cases hinit

theorem fl_tenth : fl (13421773 / 134217728) = 13421773 / 134217728 :=
  fl_at (13421773 / 134217728) (13421773 / 134217728) (-27) 13421773 13421773 (by norm_num)
    (by norm_num) (by norm_num) (by norm_num) (by norm_num) (by norm_num) (by norm_num)

/-- The balance after the seven passes that a frame delta of `0.1f` asks for. -/
theorem fl_tenth_drained :
    fl (13421773 / 134217728 - ((7 : ℕ) : ℚ) * (1 / 64)) = -(1258291 / 134217728) := by
  rw [show (13421773 / 134217728 - ((7 : ℕ) : ℚ) * (1 / 64) : ℚ) = -(1258291 / 134217728) by
    norm_num, fl_neg,
    fl_at (1258291 / 134217728) (1258291 / 134217728) (-30) 10066328 10066328 (by norm_num)
      (by norm_num) (by norm_num) (by norm_num) (by norm_num) (by norm_num) (by norm_num)]

/-- The accumulation of `0.001f` onto that balance rounds: the exact sum is
`-71940689 / 2^33`, the binary32 sum `-71940688 / 2^33`. -/
theorem fl_second_frame :
    fl (-(1258291 / 134217728) + 8589935 / 8589934592) = -(4496293 / 536870912) := by
  rw [show (-(1258291 / 134217728) + 8589935 / 8589934592 : ℚ) = -(71940689 / 8589934592) by
    norm_num, fl_neg,
    fl_at (71940689 / 8589934592) (4496293 / 536870912) (-30) 8992586 8992586 (by norm_num)
      (by norm_num) (by norm_num) (by norm_num) (by norm_num) (by norm_num) (by norm_num)]

theorem fl_second_frame_left :
    fl (-(4496293 / 536870912) - ((0 : ℕ) : ℚ) * (1 / 64)) = -(4496293 / 536870912) := by
  rw [show (-(4496293 / 536870912) - ((0 : ℕ) : ℚ) * (1 / 64) : ℚ) = -(4496293 / 536870912) by
    norm_num, fl_neg,
    fl_at (4496293 / 536870912) (4496293 / 536870912) (-30) 8992586 8992586 (by norm_num)
      (by norm_num) (by norm_num) (by norm_num) (by norm_num) (by norm_num) (by norm_num)]

/-- At `2^24` steps of `1/64` the physics clock stops: one more rounded addition of the step
gives `2^18` back. -/
theorem clock32_stalls : fl (262144 + 1 / 64) = 262144 := by
  rw [show (262144 + 1 / 64 : ℚ) = 16777217 / 64 by norm_num]
  exact fl_at (16777217 / 64) 262144 (-5) 8388608 8388608 (by norm_num)
    (by norm_num) (by norm_num) (by norm_num) (by norm_num) (by norm_num) (by norm_num)

theorem ceil_tenth : ⌈(13421773 / 134217728 : ℚ) / (1 / 64)⌉.toNat = 7 := by
  have h : ⌈(13421773 / 134217728 : ℚ) / (1 / 64)⌉ = 7 := by
    rw [Int.ceil_eq_iff]
    constructor <;> norm_num
  rw [h]; rfl

/-- C19 fails: after `Init( 0.1f @ 0 )`, the two calls `PhysicsUpdate( 0.1f @ 0 )`
and `PhysicsUpdate( 0.001f @ 0.1f )` raise no fault and make `7` steps in all, the physics
clock stands at `7/64`, and the balance is `-4496293 / 2^29`: balance plus clock is
`2^-33` away from the sum `0.1f + 0.001f` of the frame deltas. -/
theorem timeline32_sum_drifts :
    Init32 ⟨13421773 / 134217728, 0⟩ startState
      = .ok { startState with _cameraPos := ⟨0, 13421773 / 134217728⟩ } ∧
    ∀ LerpInTime : FloatTime → FloatTime → ℚ → Except Fault FloatTime,
      (∀ a b alpha, ∃ r, LerpInTime a b alpha = .ok r) →
      ∃ s, PhysicsUpdateFrames32 LerpInTime 7
          [⟨13421773 / 134217728, 0⟩, ⟨8589935 / 8589934592, 13421773 / 134217728⟩]
          { startState with _cameraPos := ⟨0, 13421773 / 134217728⟩ } = some (.ok (s, 7)) ∧
        s._physTimeBalance.Value = -(4496293 / 536870912) ∧
        s._physicsDt.Time = 7 / 64 ∧
        s._physTimeBalance.Value + s._physicsDt.Time
          ≠ 13421773 / 134217728 + 8589935 / 8589934592 := by
  constructor
  · rw [init32_startState, if_pos (near32_of_eq rfl)]
    show Except.ok { startState with _cameraPos := ⟨0, fl (0 + 13421773 / 134217728)⟩ } = _
    rw [zero_add, fl_tenth]
  · intro L hL
    -- first frame
    have e1 : fl ((AnimationUpdate32 ⟨13421773 / 134217728, 0⟩
        (InputsUpdate ⟨13421773 / 134217728, 0⟩
          { startState with _cameraPos := ⟨0, 13421773 / 134217728⟩ }))._physTimeBalance.Value
        + (⟨13421773 / 134217728, 0⟩ : FloatTime).Value) = 13421773 / 134217728 := by
      show fl (0 + 13421773 / 134217728) = 13421773 / 134217728
      rw [zero_add, fl_tenth]
    obtain ⟨s1, l1, hrun1, hbal1, hdt1, hs1, hclock1⟩ :=
      drain32_spec ⟨13421773 / 134217728, 0⟩
        (AnimationUpdate32 ⟨13421773 / 134217728, 0⟩
          (InputsUpdate ⟨13421773 / 134217728, 0⟩
            { startState with _cameraPos := ⟨0, 13421773 / 134217728⟩ }))
        rfl (by rw [e1]; norm_num) (synced_after_sampling _ _ ⟨rfl, rfl, rfl⟩) 7
        (by rw [e1, ceil_tenth])
    rw [e1, ceil_tenth] at hrun1 hbal1 hclock1
    rw [fl_tenth_drained] at hbal1
    have hz : (AnimationUpdate32 ⟨13421773 / 134217728, 0⟩
        (InputsUpdate ⟨13421773 / 134217728, 0⟩
          { startState with _cameraPos := ⟨0, 13421773 / 134217728⟩ }))._physicsDt.Time
        = ((0 : ℕ) : ℚ) * (1 / 64) := by
      show (0 : ℚ) = ((0 : ℕ) : ℚ) * (1 / 64)
      norm_num
    rw [hz, chainTime32_step 7 0 (by norm_num)] at hclock1
    obtain ⟨cur1, hfin1⟩ := finish32_ok L hL s1 l1 7 hs1.2.2.1
    -- second frame
    have e2 : fl ((AnimationUpdate32 ⟨8589935 / 8589934592, 13421773 / 134217728⟩
        (InputsUpdate ⟨8589935 / 8589934592, 13421773 / 134217728⟩
          { s1 with _carStateCurrent := cur1 }))._physTimeBalance.Value
        + (⟨8589935 / 8589934592, 13421773 / 134217728⟩ : FloatTime).Value)
        = -(4496293 / 536870912) := by
      show fl (s1._physTimeBalance.Value + 8589935 / 8589934592) = -(4496293 / 536870912)
      rw [hbal1, fl_second_frame]
    have c2 : ⌈(-(4496293 / 536870912) : ℚ) / (1 / 64)⌉.toNat = 0 :=
      ceil_toNat_of_nonpos _ _ (by norm_num) (by norm_num)
    obtain ⟨s2, l2, hrun2, hbal2, hdt2, hs2, hclock2⟩ :=
      drain32_spec ⟨8589935 / 8589934592, 13421773 / 134217728⟩
        (AnimationUpdate32 ⟨8589935 / 8589934592, 13421773 / 134217728⟩
          (InputsUpdate ⟨8589935 / 8589934592, 13421773 / 134217728⟩
            { s1 with _carStateCurrent := cur1 }))
        hdt1 (by rw [e2]; norm_num)
        (synced_after_sampling _ _ ⟨hs1.2.2.1, hs1.2.2.2.1, hs1.2.2.2.2⟩) 7
        (by rw [e2, c2]; norm_num)
    rw [e2, c2] at hrun2 hbal2 hclock2
    rw [fl_second_frame_left] at hbal2
    have hclock2' : s2._physicsDt.Time = s1._physicsDt.Time := hclock2
    obtain ⟨cur2, hfin2⟩ := finish32_ok L hL s2 l2 0 hs2.2.2.1
    refine ⟨{ s2 with _carStateCurrent := cur2 }, ?_, hbal2, ?_, ?_⟩
    · rw [frames32_cons, hrun1]
      simp only []
      rw [hfin1]
      simp only []
      rw [frames32_cons, hrun2]
      simp only []
      rw [hfin2]
      simp only []
      rw [frames32_nil]
    · show s2._physicsDt.Time = 7 / 64
      rw [hclock2', hclock1]
      norm_num
    · show s2._physTimeBalance.Value + s2._physicsDt.Time ≠ _
      rw [hbal2, hclock2', hclock1]
      norm_num

/-- C19 (amended): in binary32 the state left by `Init` has the step `1/64`, all four
physics-owned timestamps at `0` and an empty balance; and from any state with the step
`h = 1/64`, the four physics-owned timestamps equal at `K * h` and a balance `<= 0`, a run of
`PhysicsUpdate` calls on samples stamped at their frame deltas, with frame deltas of at most
`2^17`, raises no fault (the interpolation raising none) and, with `total` the number of steps
it made, ends with the timestamps of `_physTimeBalance`, `_physicsDt`, `_carStateLatest.pos` and
`_carStateLatest.vel` equal to one another, and all at `(K + total) * h` as long as
`K + total < 2^24`. -/
theorem physics32_timeline (LerpInTime : FloatTime → FloatTime → ℚ → Except Fault FloatTime)
    (hL : ∀ a b alpha, ∃ r, LerpInTime a b alpha = .ok r)
    (sim : GameSimulation) (K : Nat) (frames : List FloatTime) (fuel : Nat)
    (hh : sim._physicsDt.Value = 1 / 64) (hp : PhysicsSynced sim)
    (ht : sim._physicsDt.Time = (K : ℚ) * sim._physicsDt.Value)
    (hb : sim._physTimeBalance.Value ≤ 0)
    (hD : ∀ d ∈ frames, d.Value ≤ 2 ^ 17) (hfuel : 2 ^ 23 ≤ fuel) :
    (∀ firstFrameDt s0, Init32 firstFrameDt startState = .ok s0 →
      s0._physicsDt.Value = 1 / 64 ∧ PhysicsSynced s0 ∧
      s0._physicsDt.Time = ((0 : ℕ) : ℚ) * s0._physicsDt.Value ∧
      s0._physTimeBalance.Value ≤ 0) ∧
    ∃ s total,
      PhysicsUpdateFrames32 LerpInTime fuel frames sim = some (.ok (s, total)) ∧
      s._physicsDt.Value = sim._physicsDt.Value ∧
      s._physTimeBalance.Time = s._physicsDt.Time ∧
      s._carStateLatest.pos.Time = s._physicsDt.Time ∧
      s._carStateLatest.vel.Time = s._physicsDt.Time ∧
      (K + total < 2 ^ 24 →
        s._physTimeBalance.Time = ((K + total : ℕ) : ℚ) * sim._physicsDt.Value ∧
        s._physicsDt.Time = ((K + total : ℕ) : ℚ) * sim._physicsDt.Value ∧
        s._carStateLatest.pos.Time = ((K + total : ℕ) : ℚ) * sim._physicsDt.Value ∧
        s._carStateLatest.vel.Time = ((K + total : ℕ) : ℚ) * sim._physicsDt.Value) := by
  constructor
  · intro firstFrameDt s0 hinit
    obtain ⟨h1, h2, h3, h4⟩ := init32_origin firstFrameDt s0 hinit
    refine ⟨h1, h2, ?_, h4.le⟩
    rw [h3]; norm_num
  · obtain ⟨s, total, hrun, hsd, ⟨p1, p2, p3⟩, _, hclock⟩ :=
      frames32_run LerpInTime hL fuel hfuel frames sim hh hp hb hD
    refine ⟨s, total, hrun, by rw [hsd, hh], p1, p2, p3, ?_⟩
    intro hK
    have hc : s._physicsDt.Time = ((K + total : ℕ) : ℚ) * sim._physicsDt.Value := by
      rw [hclock, ht, hh, chainTime32_step total K hK]
    exact ⟨by rw [p1, hc], hc, by rw [p2, hc], by rw [p3, hc]⟩

theorem physics32_timeline_witness :
    ((∀ a b alpha, ∃ r, FloatTime.LerpInTime a b alpha = .ok r) ∧
     Init32 ⟨1 / 64, 0⟩ startState = .ok { startState with _cameraPos := ⟨0, 1 / 64⟩ } ∧
     ({ startState with _cameraPos := ⟨0, 1 / 64⟩ } : GameSimulation)._physicsDt.Value
       = 1 / 64 ∧
     PhysicsSynced { startState with _cameraPos := ⟨0, 1 / 64⟩ } ∧
     ({ startState with _cameraPos := ⟨0, 1 / 64⟩ } : GameSimulation)._physicsDt.Time
       = ((0 : ℕ) : ℚ)
         * ({ startState with _cameraPos := ⟨0, 1 / 64⟩ } : GameSimulation)._physicsDt.Value ∧
     ({ startState with _cameraPos := ⟨0, 1 / 64⟩ } : GameSimulation)._physTimeBalance.Value
       ≤ 0 ∧
     (∀ d ∈ [(⟨1 / 64, 0⟩ : FloatTime), ⟨1 / 128, 1 / 64⟩], d.Value ≤ 2 ^ 17) ∧
     2 ^ 23 ≤ 8388608) ∧
    ∃ s total,
      PhysicsUpdateFrames32 FloatTime.LerpInTime 8388608 [⟨1 / 64, 0⟩, ⟨1 / 128, 1 / 64⟩]
          { startState with _cameraPos := ⟨0, 1 / 64⟩ } = some (.ok (s, total)) ∧
      s._physTimeBalance.Time = s._physicsDt.Time ∧
      s._carStateLatest.pos.Time = s._physicsDt.Time ∧
      s._carStateLatest.vel.Time = s._physicsDt.Time :=
  have hL : ∀ a b alpha, ∃ r, FloatTime.LerpInTime a b alpha = .ok r :=
    fun _ _ _ => ⟨_, rfl⟩
  have hinit : Init32 ⟨1 / 64, 0⟩ startState
      = .ok { startState with _cameraPos := ⟨0, 1 / 64⟩ } := by
    rw [init32_startState, if_pos (near32_of_eq rfl)]
    show Except.ok { startState with _cameraPos := ⟨0, fl (0 + 1 / 64)⟩ } = _
    rw [zero_add, fl_step]
  have hp : PhysicsSynced { startState with _cameraPos := ⟨0, 1 / 64⟩ } := ⟨rfl, rfl, rfl⟩
  have ht : ({ startState with _cameraPos := ⟨0, 1 / 64⟩ } : GameSimulation)._physicsDt.Time
      = ((0 : ℕ) : ℚ)
        * ({ startState with _cameraPos := ⟨0, 1 / 64⟩ } : GameSimulation)._physicsDt.Value := by
    show (0 : ℚ) = ((0 : ℕ) : ℚ) * (1 / 64)
    norm_num
  have hD : ∀ d ∈ [(⟨1 / 64, 0⟩ : FloatTime), ⟨1 / 128, 1 / 64⟩], d.Value ≤ 2 ^ 17 := by
    intro d hd
    simp only [List.mem_cons, List.mem_singleton, List.not_mem_nil, or_false] at hd
    rcases hd with rfl | rfl
    · show (1 / 64 : ℚ) ≤ 2 ^ 17; norm_num
    · show (1 / 128 : ℚ) ≤ 2 ^ 17; norm_num
  have hfuel : 2 ^ 23 ≤ 8388608 := by norm_num
  ⟨⟨hL, hinit, rfl, hp, ht, le_refl _, hD, hfuel⟩, by
    obtain ⟨s, total, hrun, _, h1, h2, h3, _⟩ :=
      (physics32_timeline FloatTime.LerpInTime hL _ 0 _ 8388608 rfl hp ht (le_refl _)
        hD hfuel).2
    exact ⟨s, total, hrun, h1, h2, h3⟩⟩

end GameSimulation

/-! ## Binary32: delta-time chains and cross-time interpolation -/

namespace GameSimulation

end GameSimulation

end TimeAlgebra
